import Mathlib

/-!
# NutshellEngine ECS (`src/ecs/ntshengn_ecs.h`): embedding and verification

The C++ classes `EntityManager`, `ComponentArray<T>`, `ComponentManager`,
`System`, `SystemManager` and `ECS` are embedded as Lean structures with
explicit state passing.

Modelling conventions
* `std::unordered_map<K, V>` is a finite partial function `K → Option V`
  (`find(k) == end()` is `m k = none`, `m[k] = v` is `Function.update m k (some v)`,
  `erase(k)` is `Function.update m k none`, a read `m[k]` of an absent key
  yields the value-initialised `V`).
* `std::queue<Entity>` is a list: `front`/`pop` act on the head, `push` appends.
* `std::set<Entity>` is a list handled through `List.insert` (no duplicate is
  added) and a filter (every occurrence is erased); only membership is observed.
* `std::bitset<MAX_COMPONENTS>` is the natural number `to_ulong()` returns.
* `uint32_t` / `uint8_t` / `size_t` counters are naturals with explicit
  wrap-around where the code can wrap.
* A call that violates an `NTSHENGN_ASSERT` (or throws) yields
  `Outcome.failed st`, where `st` is the state at the point of failure.
* A `System*` is an address; the `System` objects live in a memory indexed by
  addresses, and the map `m_systems`, over which the code iterates, is the list of
  its pairs in visiting order. The iteration order of an unordered map is
  unspecified: `SystemManager.entityComponentMaskChanged_perm` and
  `SystemManager.entityDestroyed_perm` show that it plays no part unless one object
  is registered under two type names.
* A hook invocation is recorded in the system it is invoked on, together with what
  the hook can observe at that moment: the `entities` of the system, and the entity
  manager and component manager.
-/

namespace NtshEngn

/-- Capacity macro `MAX_ENTITIES`. -/
def MAX_ENTITIES : Nat := 4096

/-- Capacity macro `MAX_COMPONENTS`. -/
def MAX_COMPONENTS : Nat := 32

/-- Entity handles: `using Entity = uint32_t`. -/
abbrev Entity := Nat

/-- Component type ids: `using Component = uint8_t`. -/
abbrev Component := Nat

/-- Masks: `using ComponentMask = std::bitset<MAX_COMPONENTS>`, as the value of `to_ulong()`. -/
abbrev ComponentMask := Nat

/-- Modelled from the spec: the macro `NTSHENGN_ASSERT` lives in
`utils/ntshengn_defines.h`, which is not part of the sources; following the
error-handling section of the specification a violated assertion is a fatal
precondition failure. A call either completes with a value and a new state,
or stops at the first violated assertion with the state reached so far. -/
inductive Outcome (σ : Type) (α : Type) where
  | ok (value : α) (state : σ)
  | failed (state : σ)

namespace Outcome

/-- The call ran to completion. -/
def isOk {σ α : Type} : Outcome σ α → Bool
  | ok _ _ => true
  | failed _ => false

/-- The state a call leaves behind (on failure: the state at the failing assertion). -/
def state {σ α : Type} : Outcome σ α → σ
  | ok _ s => s
  | failed s => s

/-- The state after a completed call, if it completed. -/
def state? {σ α : Type} : Outcome σ α → Option σ
  | ok _ s => some s
  | failed _ => none

/-- The value returned by a completed call, if it completed. -/
def value? {σ α : Type} : Outcome σ α → Option α
  | ok a _ => some a
  | failed _ => none

end Outcome

/-! ## EntityManager -/

/-- Fields of `class EntityManager`. -/
structure EntityManager where
  /-- FIFO pool of free ids, `std::queue<Entity>` (head = front). -/
  m_entities : List Entity
  /-- The mask table `std::array<ComponentMask, MAX_ENTITIES>`; every access is guarded by `entity < MAX_ENTITIES`. -/
  m_componentMasks : Entity → ComponentMask
  m_entityToName : Entity → Option String
  m_nameToEntity : String → Option Entity
  /-- In-use counter, `uint32_t`. -/
  m_numberOfEntities : Nat

namespace EntityManager

/-- Constructor `EntityManager()`: pushes `0, 1, …, MAX_ENTITIES - 1` in this order;
masks are default-constructed (all zero), maps are empty, the counter is `0`. -/
def new : EntityManager where
  m_entities := List.range MAX_ENTITIES
  m_componentMasks := fun _ => 0
  m_entityToName := fun _ => none
  m_nameToEntity := fun _ => none
  m_numberOfEntities := 0

/-- `Entity createEntity()`. The increment cannot wrap (the counter is below
`MAX_ENTITIES`). `front()` of an empty queue is undefined behaviour in C++ and is
reported as a failure. -/
def createEntity (em : EntityManager) : Outcome EntityManager Entity :=
  if em.m_numberOfEntities < MAX_ENTITIES then
    match em.m_entities with
    | [] => Outcome.failed em
    | id :: rest =>
      Outcome.ok id { em with m_entities := rest, m_numberOfEntities := em.m_numberOfEntities + 1 }
  else Outcome.failed em

/-- `Entity createEntity(const std::string& name)`. -/
def createEntityNamed (em : EntityManager) (name : String) : Outcome EntityManager Entity :=
  match em.m_nameToEntity name with
  | some _ => Outcome.failed em
  | none =>
    match em.createEntity with
    | Outcome.failed st => Outcome.failed st
    | Outcome.ok id em1 =>
      Outcome.ok id { em1 with
        m_nameToEntity := Function.update em1.m_nameToEntity name (some id)
        m_entityToName := Function.update em1.m_entityToName id (some name) }

/-- The `uint32_t` decrement `m_numberOfEntities--`, wrapping at zero. -/
def decr32 (n : Nat) : Nat := if n = 0 then 2 ^ 32 - 1 else n - 1

/-- `void destroyEntity(Entity entity)`. -/
def destroyEntity (em : EntityManager) (entity : Entity) : Outcome EntityManager Unit :=
  if entity < MAX_ENTITIES then
    let em1 : EntityManager := { em with
      m_componentMasks := Function.update em.m_componentMasks entity 0
      m_entities := em.m_entities ++ [entity]
      m_numberOfEntities := decr32 em.m_numberOfEntities }
    match em1.m_entityToName entity with
    | some entityName =>
      Outcome.ok () { em1 with
        m_entityToName := Function.update em1.m_entityToName entity none
        m_nameToEntity := Function.update em1.m_nameToEntity entityName none }
    | none => Outcome.ok () em1
  else Outcome.failed em

/-- `void setComponents(Entity entity, ComponentMask componentMask)`. -/
def setComponents (em : EntityManager) (entity : Entity) (componentMask : ComponentMask) :
    Outcome EntityManager Unit :=
  if entity < MAX_ENTITIES then
    Outcome.ok () { em with m_componentMasks := Function.update em.m_componentMasks entity componentMask }
  else Outcome.failed em

/-- `ComponentMask getComponents(Entity entity)` (`none`: the assertion fails). -/
def getComponents (em : EntityManager) (entity : Entity) : Option ComponentMask :=
  if entity < MAX_ENTITIES then some (em.m_componentMasks entity) else none

/-- `void setEntityName(Entity entity, const std::string& name)`. -/
def setEntityName (em : EntityManager) (entity : Entity) (name : String) : Outcome EntityManager Unit :=
  match em.m_nameToEntity name with
  | some _ => Outcome.failed em
  | none =>
    Outcome.ok () { em with
      m_nameToEntity := Function.update em.m_nameToEntity name (some entity)
      m_entityToName := Function.update em.m_entityToName entity (some name) }

/-- `std::string getEntityName(Entity entity)` (`none`: the assertion fails). -/
def getEntityName (em : EntityManager) (entity : Entity) : Option String :=
  em.m_entityToName entity

/-- `Entity findEntityByName(const std::string& name)` (`none`: the assertion fails). -/
def findEntityByName (em : EntityManager) (name : String) : Option Entity :=
  em.m_nameToEntity name

end EntityManager

/-! ## ComponentArray -/

/-- Fields of `class ComponentArray<T>`. The dense array `std::array<T, MAX_ENTITIES>`
is a total function on indices; that every index used is in bounds is a proof
obligation, not part of the model. -/
structure ComponentArray (T : Type) where
  m_components : Nat → T
  m_entityToIndex : Entity → Option Nat
  m_indexToEntity : Nat → Option Entity
  /-- Number of dense slots in use, `size_t`. -/
  m_validSize : Nat

namespace ComponentArray

variable {T : Type}

/-- The store built by `std::make_shared<ComponentArray<T>>()`: value-initialised,
so the maps are empty and `m_validSize` is `0`. -/
def new [Inhabited T] : ComponentArray T where
  m_components := fun _ => default
  m_entityToIndex := fun _ => none
  m_indexToEntity := fun _ => none
  m_validSize := 0

/-- The `size_t` decrement `m_validSize - 1`, wrapping at zero. -/
def decrSize (n : Nat) : Nat := if n = 0 then 2 ^ 64 - 1 else n - 1

/-- `void insertData(Entity entity, T component)`. The increment of `m_validSize`
cannot wrap: the size never exceeds the number of distinct `uint32_t` keys. -/
def insertData (ca : ComponentArray T) (entity : Entity) (component : T) :
    Outcome (ComponentArray T) Unit :=
  match ca.m_entityToIndex entity with
  | some _ => Outcome.failed ca
  | none =>
    let tmp := ca.m_validSize
    Outcome.ok ()
      { m_entityToIndex := Function.update ca.m_entityToIndex entity (some tmp)
        m_indexToEntity := Function.update ca.m_indexToEntity tmp (some entity)
        m_components := Function.update ca.m_components tmp component
        m_validSize := ca.m_validSize + 1 }

/-- `void removeData(Entity entity)`, statement by statement. The read
`m_indexToEntity[m_validSize - 1]` of an absent key yields entity `0`. -/
def removeData (ca : ComponentArray T) (entity : Entity) : Outcome (ComponentArray T) Unit :=
  match ca.m_entityToIndex entity with
  | none => Outcome.failed ca
  | some tmp =>
    let last := decrSize ca.m_validSize
    let components := Function.update ca.m_components tmp (ca.m_components last)
    let entityLast := (ca.m_indexToEntity last).getD 0
    let entityToIndex := Function.update ca.m_entityToIndex entityLast (some tmp)
    let indexToEntity := Function.update ca.m_indexToEntity tmp (some entityLast)
    let entityToIndex := Function.update entityToIndex entity none
    let indexToEntity := Function.update indexToEntity last none
    Outcome.ok ()
      { m_components := components
        m_entityToIndex := entityToIndex
        m_indexToEntity := indexToEntity
        m_validSize := last }

/-- `bool hasComponent(Entity entity)`. -/
def hasComponent (ca : ComponentArray T) (entity : Entity) : Bool :=
  (ca.m_entityToIndex entity).isSome

/-- `T& getData(Entity entity)` (`none`: the assertion fails). -/
def getData (ca : ComponentArray T) (entity : Entity) : Option T :=
  match ca.m_entityToIndex entity with
  | none => none
  | some i => some (ca.m_components i)

/-- `void entityDestroyed(Entity entity)`: a tolerant `removeData`. -/
def entityDestroyed (ca : ComponentArray T) (entity : Entity) : Outcome (ComponentArray T) Unit :=
  if (ca.m_entityToIndex entity).isSome then ca.removeData entity else Outcome.ok () ca

end ComponentArray

/-- `std::unordered_map::insert`: binds the key only when it is not bound yet. -/
def mapInsert {K V : Type} [DecidableEq K] (m : K → Option V) (k : K) (v : V) : K → Option V :=
  match m k with
  | some _ => m
  | none => Function.update m k (some v)

/-! ## ComponentManager -/

/-- Fields of `class ComponentManager`. Types are identified by `typeid(T).name()`;
all payload types are embedded in one value type `V`. A `shared_ptr` to a store
is the store itself, written back after each mutation. -/
structure ComponentManager (V : Type) where
  m_componentTypes : String → Option Component
  m_componentArrays : String → Option (ComponentArray V)
  /-- Next id to hand out, `uint8_t`. -/
  m_nextComponent : Component

namespace ComponentManager

variable {V : Type}

/-- A default-constructed manager. -/
def new : ComponentManager V where
  m_componentTypes := fun _ => none
  m_componentArrays := fun _ => none
  m_nextComponent := 0

/-- `void registerComponent<T>()`; the `uint8_t` increment wraps at 256. -/
def registerComponent [Inhabited V] (cm : ComponentManager V) (typeName : String) :
    Outcome (ComponentManager V) Unit :=
  match cm.m_componentTypes typeName with
  | some _ => Outcome.failed cm
  | none =>
    Outcome.ok ()
      { m_componentTypes := mapInsert cm.m_componentTypes typeName cm.m_nextComponent
        m_componentArrays := mapInsert cm.m_componentArrays typeName ComponentArray.new
        m_nextComponent := (cm.m_nextComponent + 1) % 256 }

/-- `Component getComponentId<T>()` (`none`: the assertion fails). -/
def getComponentId (cm : ComponentManager V) (typeName : String) : Option Component :=
  cm.m_componentTypes typeName

/-- The private `getComponentArray<T>()` (`none`: the assertion fails, or the store
pointer read from `m_componentArrays` is null). -/
def getComponentArray (cm : ComponentManager V) (typeName : String) : Option (ComponentArray V) :=
  match cm.m_componentTypes typeName with
  | none => none
  | some _ => cm.m_componentArrays typeName

/-- `void addComponent<T>(Entity entity, T component)`. -/
def addComponent (cm : ComponentManager V) (typeName : String) (entity : Entity) (component : V) :
    Outcome (ComponentManager V) Unit :=
  match cm.getComponentArray typeName with
  | none => Outcome.failed cm
  | some ca =>
    match ca.insertData entity component with
    | Outcome.failed _ => Outcome.failed cm
    | Outcome.ok _ ca1 =>
      Outcome.ok () { cm with m_componentArrays := Function.update cm.m_componentArrays typeName (some ca1) }

/-- `void removeComponent<T>(Entity entity)`. -/
def removeComponent (cm : ComponentManager V) (typeName : String) (entity : Entity) :
    Outcome (ComponentManager V) Unit :=
  match cm.getComponentArray typeName with
  | none => Outcome.failed cm
  | some ca =>
    match ca.removeData entity with
    | Outcome.failed _ => Outcome.failed cm
    | Outcome.ok _ ca1 =>
      Outcome.ok () { cm with m_componentArrays := Function.update cm.m_componentArrays typeName (some ca1) }

/-- `bool hasComponent<T>(Entity entity)` (`none`: the assertion fails). -/
def hasComponent (cm : ComponentManager V) (typeName : String) (entity : Entity) : Option Bool :=
  match cm.getComponentArray typeName with
  | none => none
  | some ca => some (ca.hasComponent entity)

/-- `T& getComponent<T>(Entity entity)` (`none`: an assertion fails). -/
def getComponent (cm : ComponentManager V) (typeName : String) (entity : Entity) : Option V :=
  match cm.getComponentArray typeName with
  | none => none
  | some ca => ca.getData entity

/-- `void entityDestroyed(Entity entity)`: every store is told, each one independently. -/
def entityDestroyed (cm : ComponentManager V) (entity : Entity) : ComponentManager V :=
  { cm with
    m_componentArrays := fun typeName =>
      (cm.m_componentArrays typeName).map (fun ca => (ca.entityDestroyed entity).state) }

end ComponentManager

/-! ## System and SystemManager -/

/-- The part of the ECS that a hook can read when it is invoked (through the facade):
the entity manager and the component manager, as they are at that moment. -/
structure World (V : Type) where
  m_entityManager : EntityManager
  m_componentManager : ComponentManager V

/-- The arguments of an invocation of a virtual hook of `class System`. -/
inductive HookCall where
  | onEntityComponentAdded (entity : Entity) (componentID : Component)
  | onEntityComponentRemoved (entity : Entity) (componentID : Component)
  deriving DecidableEq, Repr

/-- One invocation of a virtual hook, with what the invoked code can observe besides its
arguments: the set `entities` of its system and the world, both as they are at the
moment of the invocation. -/
structure HookRecord (V : Type) where
  call : HookCall
  entities : List Entity
  world : World V

/-- The class `System`: the public set `entities`, and the record of the hook
invocations received so far (oldest first). The hooks of the base class do
nothing; an override is taken to leave the ECS untouched, so that an
invocation is observable only through this record. -/
structure System (V : Type) where
  entities : List Entity
  calls : List (HookRecord V)

namespace System

variable {V : Type}

/-- A freshly constructed system: it has no entity and has received no call. -/
def new : System V where
  entities := []
  calls := []

/-- Virtual hook `onEntityComponentAdded`, invoked in the given world. -/
def onEntityComponentAdded (system : System V) (world : World V) (entity : Entity)
    (componentID : Component) : System V :=
  { system with
    calls := system.calls ++
      [{ call := HookCall.onEntityComponentAdded entity componentID
         entities := system.entities
         world := world }] }

/-- Virtual hook `onEntityComponentRemoved`, invoked in the given world. -/
def onEntityComponentRemoved (system : System V) (world : World V) (entity : Entity)
    (componentID : Component) : System V :=
  { system with
    calls := system.calls ++
      [{ call := HookCall.onEntityComponentRemoved entity componentID
         entities := system.entities
         world := world }] }

/-- `entities.insert(entity)` on the `std::set`. -/
def insertEntity (system : System V) (entity : Entity) : System V :=
  { system with entities := system.entities.insert entity }

/-- `entities.erase(entity)` on the `std::set`. -/
def eraseEntity (system : System V) (entity : Entity) : System V :=
  { system with entities := system.entities.filter (fun e => e ≠ entity) }

end System

/-- The address of a `System` object: a `System*`. -/
abbrev SystemRef := Nat

/-- `m_systems.find(type)` on the list of the pairs of the map. -/
def lookupSystem : List (String × SystemRef) → String → Option SystemRef
  | [], _ => none
  | (key, system) :: rest, type => if key = type then some system else lookupSystem rest type

/-- Fields of `class SystemManager`, and the memory its pointers lead to.
`m_systems` is the `std::unordered_map<std::string, System*>` as the list of its pairs
in the order in which a range-based `for` visits them (a new pair is put last). The
`System` objects belong to the caller; `objects` holds them by address, and a
registered pointer is followed by reading and writing `objects`, so that an object
registered under two type names is one object. -/
structure SystemManager (V : Type) where
  m_componentMasks : String → Option ComponentMask
  m_systems : List (String × SystemRef)
  objects : SystemRef → System V

namespace SystemManager

variable {V : Type}

/-- A default-constructed manager, in a memory that holds the given `System` objects. -/
def newWith (objects : SystemRef → System V) : SystemManager V where
  m_componentMasks := fun _ => none
  m_systems := []
  objects := objects

/-- A default-constructed manager, every `System` object being freshly constructed. -/
def new : SystemManager V := newWith (fun _ => System.new)

/-- `void registerSystem<T>(System* system)`. -/
def registerSystem (sm : SystemManager V) (typeName : String) (system : SystemRef) :
    Outcome (SystemManager V) Unit :=
  match lookupSystem sm.m_systems typeName with
  | some _ => Outcome.failed sm
  | none => Outcome.ok () { sm with m_systems := sm.m_systems ++ [(typeName, system)] }

/-- `void setComponents<T>(ComponentMask componentMask)`; `insert` keeps a mask that is already there. -/
def setComponents (sm : SystemManager V) (typeName : String) (componentMask : ComponentMask) :
    Outcome (SystemManager V) Unit :=
  match lookupSystem sm.m_systems typeName with
  | none => Outcome.failed sm
  | some _ =>
    Outcome.ok () { sm with m_componentMasks := mapInsert sm.m_componentMasks typeName componentMask }

/-- The read `m_componentMasks[type]`: an absent key reads as the empty mask. -/
def systemComponentMask (sm : SystemManager V) (type : String) : ComponentMask :=
  (sm.m_componentMasks type).getD 0

/-- The table `m_componentMasks` after the loops below have read `m_componentMasks[type]`
for every registered system: `operator[]` has bound each absent key to the empty mask. -/
def masksAfterRead (sm : SystemManager V) : String → Option ComponentMask :=
  fun type =>
    match lookupSystem sm.m_systems type with
    | some _ => some (sm.systemComponentMask type)
    | none => sm.m_componentMasks type

/-- Body of the outer loop of `entityDestroyed` for one pair, acting on the object the
pointer leads to: the inner loop over `i = 0 .. MAX_COMPONENTS - 1` carries the flag
`entityInSystem`. -/
def entityDestroyedStep (system : System V) (world : World V) (entity : Entity)
    (entityComponents systemComponentMask : ComponentMask) : System V :=
  let entityAndSystemComponentMask := entityComponents &&& systemComponentMask
  let r := (List.range MAX_COMPONENTS).foldl
    (fun (acc : Bool × System V) i =>
      if entityAndSystemComponentMask.testBit i then
        (true, acc.2.onEntityComponentRemoved world entity i)
      else acc)
    (false, system)
  if r.1 then r.2.eraseEntity entity else r.2

/-- `void entityDestroyed(Entity entity, ComponentMask entityComponents)`, called in the
given world: the pairs of `m_systems` are visited in order, and each visit updates the
object its pointer leads to. -/
def entityDestroyed (sm : SystemManager V) (world : World V) (entity : Entity)
    (entityComponents : ComponentMask) : SystemManager V where
  m_componentMasks := sm.masksAfterRead
  m_systems := sm.m_systems
  objects := sm.m_systems.foldl
    (fun objects pair =>
      Function.update objects pair.2
        (entityDestroyedStep (objects pair.2) world entity entityComponents
          (sm.systemComponentMask pair.1)))
    sm.objects

/-- Body of the loop of `entityComponentMaskChanged` for one pair, acting on the object
the pointer leads to; the two `to_ulong()` values are compared as unsigned integers. -/
def entityComponentMaskChangedStep (system : System V) (world : World V) (entity : Entity)
    (oldEntityComponentMask newEntityComponentMask systemComponentMask : ComponentMask)
    (componentID : Component) : System V :=
  let oldAndSystemComponentMasks := oldEntityComponentMask &&& systemComponentMask
  let newAndSystemComponentMasks := newEntityComponentMask &&& systemComponentMask
  if oldAndSystemComponentMasks ≠ newAndSystemComponentMasks then
    if newAndSystemComponentMasks > oldAndSystemComponentMasks then
      let system1 := system.onEntityComponentAdded world entity componentID
      if oldAndSystemComponentMasks = 0 then system1.insertEntity entity else system1
    else if newAndSystemComponentMasks < oldAndSystemComponentMasks then
      let system1 := system.onEntityComponentRemoved world entity componentID
      if newAndSystemComponentMasks = 0 then system1.eraseEntity entity else system1
    else system
  else system

/-- `void entityComponentMaskChanged(entity, oldMask, newMask, componentID)`, called in
the given world: the pairs of `m_systems` are visited in order, and each visit updates
the object its pointer leads to. -/
def entityComponentMaskChanged (sm : SystemManager V) (world : World V) (entity : Entity)
    (oldEntityComponentMask newEntityComponentMask : ComponentMask) (componentID : Component) :
    SystemManager V where
  m_componentMasks := sm.masksAfterRead
  m_systems := sm.m_systems
  objects := sm.m_systems.foldl
    (fun objects pair =>
      Function.update objects pair.2
        (entityComponentMaskChangedStep (objects pair.2) world entity oldEntityComponentMask
          newEntityComponentMask (sm.systemComponentMask pair.1) componentID))
    sm.objects

end SystemManager

/-! ## ECS (the facade) -/

/-- `std::bitset<MAX_COMPONENTS>::set(pos, value)`; `none` when `pos` is out of
range (the call throws `std::out_of_range`). -/
def maskSet (mask : ComponentMask) (pos : Nat) (value : Bool) : Option ComponentMask :=
  if pos < MAX_COMPONENTS then
    some (if value then mask ||| (1 <<< pos)
          else mask &&& ((2 ^ MAX_COMPONENTS - 1) ^^^ (1 <<< pos)))
  else none

/-- The key `typeid(Transform).name()` of the component type attached at creation. -/
def TransformName : String := "Transform"

/-- Fields of `class ECS`. -/
structure ECS (V : Type) where
  m_entityManager : EntityManager
  m_componentManager : ComponentManager V
  m_systemManager : SystemManager V

namespace ECS

variable {V : Type}

/-- `void init()`, in a memory that holds the given `System` objects. -/
def initWith (objects : SystemRef → System V) : ECS V where
  m_entityManager := EntityManager.new
  m_componentManager := ComponentManager.new
  m_systemManager := SystemManager.newWith objects

/-- `void init()`, every `System` object being freshly constructed. -/
def init : ECS V := initWith (fun _ => System.new)

/-- What a hook invoked in this state of the facade can observe. -/
def world (ecs : ECS V) : World V where
  m_entityManager := ecs.m_entityManager
  m_componentManager := ecs.m_componentManager

/-- `void addComponent<T>(Entity entity, T component)`: store, then mask, then systems. -/
def addComponent (ecs : ECS V) (typeName : String) (entity : Entity) (component : V) :
    Outcome (ECS V) Unit :=
  match ecs.m_componentManager.addComponent typeName entity component with
  | Outcome.failed _ => Outcome.failed ecs
  | Outcome.ok _ cm =>
    let ecs1 : ECS V := { ecs with m_componentManager := cm }
    match ecs1.m_entityManager.getComponents entity with
    | none => Outcome.failed ecs1
    | some oldComponents =>
      match ecs1.m_componentManager.getComponentId typeName with
      | none => Outcome.failed ecs1
      | some componentID =>
        match maskSet oldComponents componentID true with
        | none => Outcome.failed ecs1
        | some newComponents =>
          match ecs1.m_entityManager.setComponents entity newComponents with
          | Outcome.failed _ => Outcome.failed ecs1
          | Outcome.ok _ em =>
            let ecs2 : ECS V := { ecs1 with m_entityManager := em }
            Outcome.ok ()
              { ecs2 with
                m_systemManager := ecs2.m_systemManager.entityComponentMaskChanged ecs2.world
                  entity oldComponents newComponents componentID }

/-- `void removeComponent<T>(Entity entity)`: mask, then systems, then store. -/
def removeComponent (ecs : ECS V) (typeName : String) (entity : Entity) : Outcome (ECS V) Unit :=
  match ecs.m_entityManager.getComponents entity with
  | none => Outcome.failed ecs
  | some oldComponents =>
    match ecs.m_componentManager.getComponentId typeName with
    | none => Outcome.failed ecs
    | some componentID =>
      match maskSet oldComponents componentID false with
      | none => Outcome.failed ecs
      | some newComponents =>
        match ecs.m_entityManager.setComponents entity newComponents with
        | Outcome.failed _ => Outcome.failed ecs
        | Outcome.ok _ em =>
          let ecs1 : ECS V := { ecs with m_entityManager := em }
          let ecs2 : ECS V :=
            { ecs1 with
              m_systemManager := ecs1.m_systemManager.entityComponentMaskChanged ecs1.world
                entity oldComponents newComponents componentID }
          match ecs2.m_componentManager.removeComponent typeName entity with
          | Outcome.failed _ => Outcome.failed ecs2
          | Outcome.ok _ cm => Outcome.ok () { ecs2 with m_componentManager := cm }

/-- `Entity createEntity()`; `Transform{}` is the default value of `V`. -/
def createEntity [Inhabited V] (ecs : ECS V) : Outcome (ECS V) Entity :=
  match ecs.m_entityManager.createEntity with
  | Outcome.failed _ => Outcome.failed ecs
  | Outcome.ok newEntity em =>
    match ({ ecs with m_entityManager := em } : ECS V).addComponent TransformName newEntity default with
    | Outcome.failed st => Outcome.failed st
    | Outcome.ok _ st => Outcome.ok newEntity st

/-- `Entity createEntity(const std::string& name)`. -/
def createEntityNamed [Inhabited V] (ecs : ECS V) (name : String) : Outcome (ECS V) Entity :=
  match ecs.m_entityManager.createEntityNamed name with
  | Outcome.failed _ => Outcome.failed ecs
  | Outcome.ok newEntity em =>
    match ({ ecs with m_entityManager := em } : ECS V).addComponent TransformName newEntity default with
    | Outcome.failed st => Outcome.failed st
    | Outcome.ok _ st => Outcome.ok newEntity st

/-- `void destroyEntity(Entity entity)`: systems, then id and mask, then stores. -/
def destroyEntity (ecs : ECS V) (entity : Entity) : Outcome (ECS V) Unit :=
  match ecs.m_entityManager.getComponents entity with
  | none => Outcome.failed ecs
  | some entityComponents =>
    let ecs1 : ECS V :=
      { ecs with
        m_systemManager := ecs.m_systemManager.entityDestroyed ecs.world entity entityComponents }
    match ecs1.m_entityManager.destroyEntity entity with
    | Outcome.failed _ => Outcome.failed ecs1
    | Outcome.ok _ em =>
      Outcome.ok ()
        { ecs1 with
          m_entityManager := em
          m_componentManager := ecs1.m_componentManager.entityDestroyed entity }

/-- `void setEntityName(Entity entity, const std::string& name)`. -/
def setEntityName (ecs : ECS V) (entity : Entity) (name : String) : Outcome (ECS V) Unit :=
  match ecs.m_entityManager.setEntityName entity name with
  | Outcome.failed _ => Outcome.failed ecs
  | Outcome.ok _ em => Outcome.ok () { ecs with m_entityManager := em }

/-- `std::string getEntityName(Entity entity)`. -/
def getEntityName (ecs : ECS V) (entity : Entity) : Option String :=
  ecs.m_entityManager.getEntityName entity

/-- `Entity findEntityByName(const std::string& name)`. -/
def findEntityByName (ecs : ECS V) (name : String) : Option Entity :=
  ecs.m_entityManager.findEntityByName name

/-- `void registerComponent<T>()`. -/
def registerComponent [Inhabited V] (ecs : ECS V) (typeName : String) : Outcome (ECS V) Unit :=
  match ecs.m_componentManager.registerComponent typeName with
  | Outcome.failed _ => Outcome.failed ecs
  | Outcome.ok _ cm => Outcome.ok () { ecs with m_componentManager := cm }

/-- `bool hasComponent<T>(Entity entity)`. -/
def hasComponent (ecs : ECS V) (typeName : String) (entity : Entity) : Option Bool :=
  ecs.m_componentManager.hasComponent typeName entity

/-- `T& getComponent<T>(Entity entity)`. -/
def getComponent (ecs : ECS V) (typeName : String) (entity : Entity) : Option V :=
  ecs.m_componentManager.getComponent typeName entity

/-- `Component getComponentId<T>()`. -/
def getComponentId (ecs : ECS V) (typeName : String) : Option Component :=
  ecs.m_componentManager.getComponentId typeName

/-- `void registerSystem<T>(System* system)`. -/
def registerSystem (ecs : ECS V) (typeName : String) (system : SystemRef) :
    Outcome (ECS V) Unit :=
  match ecs.m_systemManager.registerSystem typeName system with
  | Outcome.failed _ => Outcome.failed ecs
  | Outcome.ok _ sm => Outcome.ok () { ecs with m_systemManager := sm }

/-- `void setSystemComponents<T>(ComponentMask componentMask)`. -/
def setSystemComponents (ecs : ECS V) (typeName : String) (componentMask : ComponentMask) :
    Outcome (ECS V) Unit :=
  match ecs.m_systemManager.setComponents typeName componentMask with
  | Outcome.failed _ => Outcome.failed ecs
  | Outcome.ok _ sm => Outcome.ok () { ecs with m_systemManager := sm }

end ECS

/-! ## Call sequences -/

/-- `n` consecutive calls of `EntityManager::createEntity`, with the ids returned
(in call order); `none` as soon as one call fails. -/
def EntityManager.createEntities (em : EntityManager) : Nat → Option (List Entity × EntityManager)
  | 0 => some ([], em)
  | n + 1 =>
    match em.createEntity with
    | Outcome.failed _ => none
    | Outcome.ok id em1 =>
      match em1.createEntities n with
      | none => none
      | some (ids, em2) => some (id :: ids, em2)

/-- Consecutive calls of `EntityManager::destroyEntity`, one per listed id, in list order. -/
def EntityManager.destroyEntities (em : EntityManager) : List Entity → Option EntityManager
  | [] => some em
  | d :: ds =>
    match em.destroyEntity d with
    | Outcome.failed _ => none
    | Outcome.ok _ em1 => em1.destroyEntities ds

/-- A call of a mutating member function of `EntityManager`. -/
inductive EntityCall where
  | createEntity
  | createEntityNamed (name : String)
  | destroyEntity (entity : Entity)
  | setEntityName (entity : Entity) (name : String)
  deriving DecidableEq, Repr

/-- The ids passed to `destroyEntity` in a sequence of calls, in call order. -/
def destroyedIds : List EntityCall → List Entity
  | [] => []
  | EntityCall.destroyEntity entity :: cs => entity :: destroyedIds cs
  | _ :: cs => destroyedIds cs

/-- A sequence of calls on an `EntityManager`, all of which succeed (`none` otherwise),
with the ids returned by the `createEntity` calls, in call order. -/
def EntityManager.runCreated (em : EntityManager) :
    List EntityCall → Option (List Entity × EntityManager)
  | [] => some ([], em)
  | EntityCall.createEntity :: cs =>
    match em.createEntity with
    | Outcome.failed _ => none
    | Outcome.ok id em1 =>
      match em1.runCreated cs with
      | none => none
      | some (ids, em2) => some (id :: ids, em2)
  | EntityCall.createEntityNamed name :: cs =>
    match em.createEntityNamed name with
    | Outcome.failed _ => none
    | Outcome.ok id em1 =>
      match em1.runCreated cs with
      | none => none
      | some (ids, em2) => some (id :: ids, em2)
  | EntityCall.destroyEntity entity :: cs =>
    match em.destroyEntity entity with
    | Outcome.failed _ => none
    | Outcome.ok _ em1 => em1.runCreated cs
  | EntityCall.setEntityName entity name :: cs =>
    match em.setEntityName entity name with
    | Outcome.failed _ => none
    | Outcome.ok _ em1 => em1.runCreated cs

/-- An `EntityManager` together with the ids in use: those returned by a
`createEntity` call and not passed to `destroyEntity` since. -/
structure TrackedManager where
  manager : EntityManager
  inUse : List Entity

namespace TrackedManager

/-- A freshly constructed manager; no id is in use. -/
def new : TrackedManager where
  manager := EntityManager.new
  inUse := []

/-- One call; `none` when the call fails an assertion. -/
def step (t : TrackedManager) : EntityCall → Option TrackedManager
  | EntityCall.createEntity =>
    match t.manager.createEntity with
    | Outcome.failed _ => none
    | Outcome.ok id em => some { manager := em, inUse := id :: t.inUse }
  | EntityCall.createEntityNamed name =>
    match t.manager.createEntityNamed name with
    | Outcome.failed _ => none
    | Outcome.ok id em => some { manager := em, inUse := id :: t.inUse }
  | EntityCall.destroyEntity entity =>
    match t.manager.destroyEntity entity with
    | Outcome.failed _ => none
    | Outcome.ok _ em => some { manager := em, inUse := t.inUse.filter (fun e => e ≠ entity) }
  | EntityCall.setEntityName entity name =>
    match t.manager.setEntityName entity name with
    | Outcome.failed _ => none
    | Outcome.ok _ em => some { manager := em, inUse := t.inUse }

/-- A sequence of calls, all of which succeed (`none` otherwise). -/
def run (t : TrackedManager) : List EntityCall → Option TrackedManager
  | [] => some t
  | c :: cs =>
    match t.step c with
    | none => none
    | some t1 => t1.run cs

/-- Every `destroyEntity` call of the sequence is passed an id that is in use at that moment. -/
def destroysInUse (t : TrackedManager) : List EntityCall → Bool
  | [] => true
  | c :: cs =>
    (match c with
      | EntityCall.destroyEntity entity => decide (entity ∈ t.inUse)
      | _ => true) &&
    (match t.step c with
      | none => true
      | some t1 => t1.destroysInUse cs)

end TrackedManager

/-- A call of a mutating member function of `ComponentArray<T>`. -/
inductive StoreCall (T : Type) where
  | insertData (entity : Entity) (component : T)
  | removeData (entity : Entity)
  | entityDestroyed (entity : Entity)

namespace ComponentArray

variable {T : Type}

/-- One call on a store. -/
def step (ca : ComponentArray T) : StoreCall T → Outcome (ComponentArray T) Unit
  | StoreCall.insertData entity component => ca.insertData entity component
  | StoreCall.removeData entity => ca.removeData entity
  | StoreCall.entityDestroyed entity => ca.entityDestroyed entity

/-- A sequence of calls, all of which succeed (`none` otherwise). -/
def run (ca : ComponentArray T) : List (StoreCall T) → Option (ComponentArray T)
  | [] => some ca
  | c :: cs =>
    match ca.step c with
    | Outcome.failed _ => none
    | Outcome.ok _ ca1 => ca1.run cs

/-- Consecutive `insertData` calls, one per listed pair, in list order. -/
def insertAll (ca : ComponentArray T) : List (Entity × T) → Option (ComponentArray T)
  | [] => some ca
  | p :: ps =>
    match ca.insertData p.1 p.2 with
    | Outcome.failed _ => none
    | Outcome.ok _ ca1 => ca1.insertAll ps

end ComponentArray

/-- A call of a mutating member function of the facade `ECS`. -/
inductive Call (V : Type) where
  | createEntity
  | createEntityNamed (name : String)
  | destroyEntity (entity : Entity)
  | setEntityName (entity : Entity) (name : String)
  | registerComponent (typeName : String)
  | addComponent (typeName : String) (entity : Entity) (component : V)
  | removeComponent (typeName : String) (entity : Entity)
  | registerSystem (typeName : String) (system : SystemRef)
  | setSystemComponents (typeName : String) (componentMask : ComponentMask)

namespace ECS

variable {V : Type}

/-- One facade call; the state it leaves behind when it succeeds. -/
def step [Inhabited V] (ecs : ECS V) : Call V → Option (ECS V)
  | Call.createEntity => ecs.createEntity.state?
  | Call.createEntityNamed name => (ecs.createEntityNamed name).state?
  | Call.destroyEntity entity => (ecs.destroyEntity entity).state?
  | Call.setEntityName entity name => (ecs.setEntityName entity name).state?
  | Call.registerComponent typeName => (ecs.registerComponent typeName).state?
  | Call.addComponent typeName entity component => (ecs.addComponent typeName entity component).state?
  | Call.removeComponent typeName entity => (ecs.removeComponent typeName entity).state?
  | Call.registerSystem typeName system => (ecs.registerSystem typeName system).state?
  | Call.setSystemComponents typeName componentMask =>
    (ecs.setSystemComponents typeName componentMask).state?

/-- A sequence of facade calls, all of which succeed (`none` otherwise). -/
def run [Inhabited V] (ecs : ECS V) : List (Call V) → Option (ECS V)
  | [] => some ecs
  | c :: cs =>
    match ecs.step c with
    | none => none
    | some ecs1 => ecs1.run cs

end ECS

/-! ## Invariants and sample states -/

/-- The pool and the ids in use partition `[0, MAX_ENTITIES)`, and the counter
counts the ids in use. -/
def TrackedManager.Partitioned (t : TrackedManager) : Prop :=
  List.Perm (t.manager.m_entities ++ t.inUse) (List.range MAX_ENTITIES) ∧
    t.manager.m_numberOfEntities = t.inUse.length

/-- The `EntityManager` after two `createEntity()` calls on a fresh one: ids `0` and `1`
are out, the pool holds `2, …, MAX_ENTITIES - 1`. -/
def EntityManager.afterTwoCreated : EntityManager :=
  { EntityManager.new with
    m_entities := List.range' 2 (MAX_ENTITIES - 2)
    m_numberOfEntities := 2 }

/-- Well-formedness of the sparse set: the two maps are inverse to each other and the
dense indices in use are exactly those below `m_validSize`. -/
def ComponentArray.WellFormed {T : Type} (ca : ComponentArray T) : Prop :=
  (∀ e i, ca.m_entityToIndex e = some i ↔ ca.m_indexToEntity i = some e) ∧
    (∀ i, (∃ e, ca.m_indexToEntity i = some e) ↔ i < ca.m_validSize)

/-- The store holds exactly the listed pairs, in dense order: slot `i` carries the
entity and the value of the `i`-th pair. -/
def ComponentArray.HoldsDense {T : Type} (ca : ComponentArray T) (ps : List (Entity × T)) : Prop :=
  ca.m_validSize = ps.length ∧
    (∀ i, ca.m_indexToEntity i = (ps[i]?).map Prod.fst) ∧
    (∀ i p, ps[i]? = some p → ca.m_components i = p.2) ∧
    (∀ e i, ca.m_entityToIndex e = some i ↔ (ps[i]?).map Prod.fst = some e)

/-- The calls that create entities and add or remove components. -/
def Call.isCreateAddRemove {V : Type} : Call V → Bool
  | Call.createEntity => true
  | Call.createEntityNamed _ => true
  | Call.addComponent _ _ _ => true
  | Call.removeComponent _ _ => true
  | _ => false

/-- The object at the address `system` is registered under the type name `type` and
under no other one: the loops over `m_systems` visit it exactly once. -/
abbrev SystemManager.RegisteredOnlyAs {V : Type} (sm : SystemManager V) (system : SystemRef)
    (type : String) : Prop :=
  sm.m_systems.filter (fun pair => pair.2 = system) = [(type, system)]

/-- No `System` object is registered twice (under two type names). -/
abbrev SystemManager.Unaliased {V : Type} (sm : SystemManager V) : Prop :=
  (sm.m_systems.map Prod.snd).Nodup

/-- No entity holds a component yet and no registered system has a member: the state of
a facade on which types and systems have been registered and no entity created. -/
def ECS.Unpopulated {V : Type} (ecs : ECS V) : Prop :=
  (∀ e, ecs.m_entityManager.m_componentMasks e = 0) ∧
    ∀ type system, (type, system) ∈ ecs.m_systemManager.m_systems →
      (ecs.m_systemManager.objects system).entities = []

/-- Every registered system's `entities` is the set of the entities whose mask contains
the whole interest mask of the system. -/
def ECS.MembersHoldAll {V : Type} (ecs : ECS V) : Prop :=
  ∀ type system, (type, system) ∈ ecs.m_systemManager.m_systems →
    ∀ e, e ∈ (ecs.m_systemManager.objects system).entities ↔
      (e < MAX_ENTITIES ∧
        ecs.m_entityManager.m_componentMasks e &&& ecs.m_systemManager.systemComponentMask type =
          ecs.m_systemManager.systemComponentMask type)

/-- Every registered system's `entities` is the set of the entities whose mask meets the
interest mask of the system. -/
def ECS.MembersHoldSome {V : Type} (ecs : ECS V) : Prop :=
  ∀ type system, (type, system) ∈ ecs.m_systemManager.m_systems →
    ∀ e, e ∈ (ecs.m_systemManager.objects system).entities ↔
      (e < MAX_ENTITIES ∧
        ecs.m_entityManager.m_componentMasks e &&& ecs.m_systemManager.systemComponentMask type ≠ 0)

/-- A sample registration phase: component types `A` (id 0), `B` (id 1) and `Transform`
(id 2), and one system `S`, the object at address `0`, with interest mask `{A, B}`. -/
def sampleRegistration : List (Call Nat) :=
  [Call.registerComponent "A", Call.registerComponent "B", Call.registerComponent TransformName,
    Call.registerSystem "S" 0, Call.setSystemComponents "S" 3]

/-- The facade after `sampleRegistration` on a freshly initialised ECS. -/
def ECS.sampleRegistered : ECS Nat where
  m_entityManager := EntityManager.new
  m_componentManager :=
    (((ComponentManager.new.registerComponent "A").state.registerComponent "B").state.registerComponent
      TransformName).state
  m_systemManager :=
    ((SystemManager.new.registerSystem "S" 0).state.setComponents "S" 3).state

/-- The facade after `createEntity()` on `sampleRegistered`: entity `0` holds a `Transform`. -/
def ECS.sampleCreated : ECS Nat := ECS.sampleRegistered.createEntity.state

/-- The facade after `addComponent<A>(0, 7)` on `sampleCreated`. -/
def ECS.sampleWithA : ECS Nat := (ECS.sampleCreated.addComponent "A" 0 7).state

/-- The facade after `addComponent<B>(0, 8)` on `sampleWithA`. -/
def ECS.sampleWithAB : ECS Nat := (ECS.sampleWithA.addComponent "B" 0 8).state

/-- The facade after `removeComponent<A>(0)` on `sampleWithAB`. -/
def ECS.sampleWithB : ECS Nat := (ECS.sampleWithAB.removeComponent "A" 0).state

/-- Mask/store consistency: for every entity below `MAX_ENTITIES` and every registered
type `T` with id `t`, `hasComponent<T>(e)` holds iff bit `t` of the mask of `e` is set. -/
def ECS.MaskMatchesStores {V : Type} (ecs : ECS V) : Prop :=
  ∀ (typeName : String) (t : Component) (e : Entity), e < MAX_ENTITIES →
    ecs.getComponentId typeName = some t →
    (ecs.hasComponent typeName e = some true ↔
      (ecs.m_entityManager.m_componentMasks e).testBit t = true)

/-- The name of the `i`-th of a family of pairwise distinct component types. -/
def typeNameOf (i : Nat) : String := String.mk (List.replicate (i + 1) 'T')

/-- The registration of 257 pairwise distinct component types, numbered `0` to `256`. -/
def registerManyTypes : List (Call Nat) :=
  (List.range 257).map (fun i => Call.registerComponent (typeNameOf i))

/-- The calls of `registerComponent`. -/
def Call.isRegisterComponent {V : Type} : Call V → Bool
  | Call.registerComponent _ => true
  | _ => false

/-- The registry after `k` registrations without wrap-around: the ids handed out are
below `k`, and `m_nextComponent` is `k` reduced modulo `2^8`. -/
def ECS.RegisteredBelow {V : Type} (ecs : ECS V) (k : Nat) : Prop :=
  (∀ typeName t, ecs.m_componentManager.m_componentTypes typeName = some t → t < k) ∧
    ecs.m_componentManager.m_nextComponent = k % 256

/-- The registry and the stores fit together: every store is well formed, every
registered type has a store, distinct types have distinct ids, masks only use bits
below `MAX_COMPONENTS` that are ids of registered types, and a store holds an entity
iff the bit of its type is set in the mask of the entity. -/
def ECS.Consistent {V : Type} (ecs : ECS V) : Prop :=
  (∀ typeName ca, ecs.m_componentManager.m_componentArrays typeName = some ca → ca.WellFormed) ∧
  (∀ typeName t, ecs.m_componentManager.m_componentTypes typeName = some t →
    ∃ ca, ecs.m_componentManager.m_componentArrays typeName = some ca) ∧
  (∀ type1 type2 t, ecs.m_componentManager.m_componentTypes type1 = some t →
    ecs.m_componentManager.m_componentTypes type2 = some t → type1 = type2) ∧
  (∀ e t, (ecs.m_entityManager.m_componentMasks e).testBit t = true →
    t < MAX_COMPONENTS ∧ ∃ typeName, ecs.m_componentManager.m_componentTypes typeName = some t) ∧
  (∀ typeName t ca e, e < MAX_ENTITIES →
    ecs.m_componentManager.m_componentTypes typeName = some t →
    ecs.m_componentManager.m_componentArrays typeName = some ca →
    ((ca.m_entityToIndex e).isSome = true ↔
      (ecs.m_entityManager.m_componentMasks e).testBit t = true)) ∧
  (∀ typeName ca, ecs.m_componentManager.m_componentArrays typeName = some ca →
    ∃ t, ecs.m_componentManager.m_componentTypes typeName = some t)

/-- The number of `registerComponent` calls in a sequence of facade calls. -/
def registrations {V : Type} (calls : List (Call V)) : Nat :=
  (calls.filter Call.isRegisterComponent).length


/-! ## Further invariants of the facade -/

/-- The calls that create or destroy entities and add or remove components. -/
def Call.isLifecycle {V : Type} : Call V → Bool
  | Call.createEntity => true
  | Call.createEntityNamed _ => true
  | Call.destroyEntity _ => true
  | Call.addComponent _ _ _ => true
  | Call.removeComponent _ _ => true
  | _ => false

/-- Every mask only uses bits below `MAX_COMPONENTS`, as a `std::bitset<MAX_COMPONENTS>` does. -/
def ECS.MasksInRange {V : Type} (ecs : ECS V) : Prop :=
  ∀ e t, (ecs.m_entityManager.m_componentMasks e).testBit t = true → t < MAX_COMPONENTS

/-- No stale member: every member of a registered system's `entities` holds a component
of the interest mask of the system. -/
def ECS.MembersHoldOne {V : Type} (ecs : ECS V) : Prop :=
  ∀ type system, (type, system) ∈ ecs.m_systemManager.m_systems →
    ∀ e, e ∈ (ecs.m_systemManager.objects system).entities →
      ecs.m_entityManager.m_componentMasks e &&& ecs.m_systemManager.systemComponentMask type ≠ 0

/-- A `System` object that is not registered has an empty `entities`. -/
def ECS.UnregisteredEmpty {V : Type} (ecs : ECS V) : Prop :=
  ∀ system, system ∉ ecs.m_systemManager.m_systems.map Prod.snd →
    (ecs.m_systemManager.objects system).entities = []

/-- Every registered component type has a store. -/
def ECS.TypesHaveStores {V : Type} (ecs : ECS V) : Prop :=
  ∀ typeName t, ecs.m_componentManager.m_componentTypes typeName = some t →
    ∃ ca, ecs.m_componentManager.m_componentArrays typeName = some ca

/-- The facade after `destroyEntity(0)` on `sampleWithA`. -/
def ECS.sampleDestroyed : ECS Nat := (ECS.sampleWithA.destroyEntity 0).state

/-- The facade state at the failing assertion of `addComponent<A>(5000, 7)` on
`sampleRegistered` (`5000` is not below `MAX_ENTITIES`). -/
def ECS.sampleFailedAdd : ECS Nat := (ECS.sampleRegistered.addComponent "A" 5000 7).state

/-- The facade state at the failing assertion of `createEntity()` on a freshly
initialised ECS, on which the `Transform` type is not registered. -/
def ECS.sampleFailedCreate : ECS Nat := (ECS.init : ECS Nat).createEntity.state

/-- Consecutive `registerComponent` calls on a `ComponentManager`, one per listed type, in
list order; `none` as soon as one call fails. -/
def ComponentManager.registerAll {V : Type} [Inhabited V] (cm : ComponentManager V) :
    List String → Option (ComponentManager V)
  | [] => some cm
  | typeName :: rest =>
    match cm.registerComponent typeName with
    | Outcome.failed _ => none
    | Outcome.ok _ cm1 => cm1.registerAll rest

/-! ## The facade with the ids in use -/

/-- A facade together with the ids in use: those returned by a `createEntity` call and
not passed to `destroyEntity` since. -/
structure TrackedECS (V : Type) where
  ecs : ECS V
  inUse : List Entity

namespace TrackedECS

variable {V : Type}

/-- A freshly initialised facade; no id is in use. -/
def new : TrackedECS V where
  ecs := ECS.init
  inUse := []

/-- One facade call; `none` when the call fails an assertion. -/
def step [Inhabited V] (t : TrackedECS V) (c : Call V) : Option (TrackedECS V) :=
  match c with
  | Call.createEntity =>
    match t.ecs.createEntity with
    | Outcome.failed _ => none
    | Outcome.ok id ecs1 => some { ecs := ecs1, inUse := id :: t.inUse }
  | Call.createEntityNamed name =>
    match t.ecs.createEntityNamed name with
    | Outcome.failed _ => none
    | Outcome.ok id ecs1 => some { ecs := ecs1, inUse := id :: t.inUse }
  | Call.destroyEntity entity =>
    match t.ecs.destroyEntity entity with
    | Outcome.failed _ => none
    | Outcome.ok _ ecs1 => some { ecs := ecs1, inUse := t.inUse.filter (fun e => e ≠ entity) }
  | _ => (t.ecs.step c).map (fun ecs1 => { ecs := ecs1, inUse := t.inUse })

/-- A sequence of facade calls, all of which succeed (`none` otherwise). -/
def run [Inhabited V] (t : TrackedECS V) : List (Call V) → Option (TrackedECS V)
  | [] => some t
  | c :: cs =>
    match t.step c with
    | none => none
    | some t1 => t1.run cs

/-- Every `destroyEntity` and every `addComponent` call of the sequence is passed an
entity that is in use at that moment. -/
def targetsInUse [Inhabited V] (t : TrackedECS V) : List (Call V) → Bool
  | [] => true
  | c :: cs =>
    (match c with
      | Call.destroyEntity entity => decide (entity ∈ t.inUse)
      | Call.addComponent _ entity _ => decide (entity ∈ t.inUse)
      | _ => true) &&
    (match t.step c with
      | none => true
      | some t1 => t1.targetsInUse cs)

/-- The pool and the ids in use partition `[0, MAX_ENTITIES)`, and an id that is not in
use has an all-zero mask. -/
def Clean (t : TrackedECS V) : Prop :=
  ({ manager := t.ecs.m_entityManager, inUse := t.inUse } : TrackedManager).Partitioned ∧
    ∀ x, x ∉ t.inUse → t.ecs.m_entityManager.m_componentMasks x = 0

end TrackedECS

/-- The facade on which `A`, `B` and `Transform` are registered and `addComponent<A>(0, 7)`
has been called for the id `0`, which no `createEntity` call has returned. -/
def ECS.sampleStrayA : ECS Nat := (ECS.sampleRegistered.addComponent "A" 0 7).state

/-- The facade after `createEntity()` on `sampleStrayA`. -/
def ECS.sampleStrayCreated : ECS Nat := ECS.sampleStrayA.createEntity.state

/-! ## One system object under two type names, and a system object with members -/

/-- A registration phase in which one system object, at address `0`, is registered under
two type names: as `S1` with interest mask `{A}` and as `S2` with interest mask `{B}`. -/
def aliasedRegistration : List (Call Nat) :=
  [Call.registerComponent "A", Call.registerComponent "B", Call.registerComponent TransformName,
    Call.registerSystem "S1" 0, Call.setSystemComponents "S1" 1,
    Call.registerSystem "S2" 0, Call.setSystemComponents "S2" 2]

/-- The facade after `aliasedRegistration` on a freshly initialised ECS. -/
def ECS.sampleAliased : ECS Nat where
  m_entityManager := EntityManager.new
  m_componentManager :=
    (((ComponentManager.new.registerComponent "A").state.registerComponent "B").state.registerComponent
      TransformName).state
  m_systemManager :=
    ((((SystemManager.new.registerSystem "S1" 0).state.setComponents "S1" 1).state.registerSystem
      "S2" 0).state.setComponents "S2" 2).state

/-- The calls after the registration: `createEntity()`, `addComponent<A>(0, 7)`,
`addComponent<B>(0, 8)`, `removeComponent<A>(0)`. -/
def addAddRemove : List (Call Nat) :=
  [Call.createEntity, Call.addComponent "A" 0 7, Call.addComponent "B" 0 8,
    Call.removeComponent "A" 0]

/-- The facade after `addAddRemove` on `sampleAliased`. -/
def ECS.sampleAliasedWithB : ECS Nat :=
  ((((ECS.sampleAliased.createEntity).state.addComponent "A" 0 7).state.addComponent "B" 0
    8).state.removeComponent "A" 0).state

/-- A registration phase in which one system object, at address `0`, is registered under
two type names: as `S1` with interest mask `{A}` and as `S2` with interest mask
`{A, B}`. -/
def sharedRegistration : List (Call Nat) :=
  [Call.registerComponent "A", Call.registerComponent "B", Call.registerComponent TransformName,
    Call.registerSystem "S1" 0, Call.setSystemComponents "S1" 1,
    Call.registerSystem "S2" 0, Call.setSystemComponents "S2" 3]

/-- The facade after `sharedRegistration` on a freshly initialised ECS. -/
def ECS.sampleShared : ECS Nat where
  m_entityManager := EntityManager.new
  m_componentManager :=
    (((ComponentManager.new.registerComponent "A").state.registerComponent "B").state.registerComponent
      TransformName).state
  m_systemManager :=
    ((((SystemManager.new.registerSystem "S1" 0).state.setComponents "S1" 1).state.registerSystem
      "S2" 0).state.setComponents "S2" 3).state

/-- The facade after `createEntity()` on `sampleShared`. -/
def ECS.sampleSharedCreated : ECS Nat := ECS.sampleShared.createEntity.state

/-- The facade after `addComponent<A>(0, 7)` on `sampleSharedCreated`. -/
def ECS.sampleSharedWithA : ECS Nat := (ECS.sampleSharedCreated.addComponent "A" 0 7).state

/-- System objects whose public `entities` set holds the id `0` before any call of the
facade. -/
def staleObjects : SystemRef → System Nat := fun _ => { entities := [0], calls := [] }

/-- The facade after `sampleRegistration` on an ECS initialised next to `staleObjects`:
the system `S` is registered with the id `0` in its `entities` and interest mask
`{A, B}`. -/
def ECS.sampleStale : ECS Nat where
  m_entityManager := EntityManager.new
  m_componentManager :=
    (((ComponentManager.new.registerComponent "A").state.registerComponent "B").state.registerComponent
      TransformName).state
  m_systemManager :=
    (((SystemManager.newWith staleObjects).registerSystem "S" 0).state.setComponents "S" 3).state

/-- The facade after `createEntity()` on `sampleStale`: entity `0` holds a `Transform`
only (mask `4`). -/
def ECS.sampleStaleCreated : ECS Nat := ECS.sampleStale.createEntity.state

/-- The facade after `destroyEntity(0)` on `sampleStaleCreated`. -/
def ECS.sampleStaleDestroyed : ECS Nat := (ECS.sampleStaleCreated.destroyEntity 0).state

/-! ## The store and the finite map it implements -/

/-- A call of a member function of `ComponentArray<T>`, the queries included. -/
inductive StoreOp (T : Type) where
  | insertData (entity : Entity) (component : T)
  | removeData (entity : Entity)
  | entityDestroyed (entity : Entity)
  | hasComponent (entity : Entity)
  | getData (entity : Entity)

/-- What a call answers: nothing (the call completed), an assertion failure, a
boolean, or a component. -/
inductive StoreAnswer (T : Type) where
  | done
  | failed
  | bool (b : Bool)
  | component (value : T)

namespace ComponentArray

variable {T : Type}

/-- One call on a store: its answer and the store it leaves behind. -/
def answer (ca : ComponentArray T) : StoreOp T → StoreAnswer T × ComponentArray T
  | StoreOp.insertData entity component =>
    match ca.insertData entity component with
    | Outcome.ok _ ca1 => (StoreAnswer.done, ca1)
    | Outcome.failed ca1 => (StoreAnswer.failed, ca1)
  | StoreOp.removeData entity =>
    match ca.removeData entity with
    | Outcome.ok _ ca1 => (StoreAnswer.done, ca1)
    | Outcome.failed ca1 => (StoreAnswer.failed, ca1)
  | StoreOp.entityDestroyed entity =>
    match ca.entityDestroyed entity with
    | Outcome.ok _ ca1 => (StoreAnswer.done, ca1)
    | Outcome.failed ca1 => (StoreAnswer.failed, ca1)
  | StoreOp.hasComponent entity => (StoreAnswer.bool (ca.hasComponent entity), ca)
  | StoreOp.getData entity =>
    match ca.getData entity with
    | some component => (StoreAnswer.component component, ca)
    | none => (StoreAnswer.failed, ca)

/-- A sequence of calls on a store: the answers, in call order, and the final store. -/
def answers (ca : ComponentArray T) : List (StoreOp T) → List (StoreAnswer T) × ComponentArray T
  | [] => ([], ca)
  | op :: ops => ((ca.answer op).1 :: ((ca.answer op).2.answers ops).1,
      ((ca.answer op).2.answers ops).2)

end ComponentArray

/-- The plain partial map `Entity -> T` the store is compared with, as the list of its
bindings (most recent first). -/
def FiniteMap (T : Type) : Type := List (Entity × T)

namespace FiniteMap

variable {T : Type}

/-- The map without any key. -/
def empty : FiniteMap T := ([] : List (Entity × T))

/-- The value bound to a key, if any. -/
def lookup : FiniteMap T → Entity → Option T
  | [], _ => none
  | (k, v) :: rest, e => if k = e then some v else lookup rest e

/-- Key membership. -/
def isKey (m : FiniteMap T) (e : Entity) : Bool := (m.lookup e).isSome

/-- The keys, with repetitions if any. -/
def keys (m : FiniteMap T) : List Entity := List.map Prod.fst m

/-- The number of keys. -/
def size (m : FiniteMap T) : Nat := m.keys.dedup.length

/-- Bind a key to a value. -/
def bind (m : FiniteMap T) (e : Entity) (v : T) : FiniteMap T := (e, v) :: m

/-- Unbind a key (and only this key). -/
def unbind : FiniteMap T → Entity → FiniteMap T
  | [], _ => []
  | (k, v) :: rest, e => if k = e then unbind rest e else (k, v) :: unbind rest e

/-- One call on the map: `insertData(e, v)` fails iff `e` is already a key and otherwise
binds `e` to `v`; `removeData(e)` fails iff `e` is not a key and otherwise unbinds `e`;
`entityDestroyed(e)` never fails and unbinds `e` if present; `hasComponent(e)` is key
membership; `getData(e)` fails iff `e` is not a key and otherwise returns the value
bound to `e`. -/
def answer (m : FiniteMap T) : StoreOp T → StoreAnswer T × FiniteMap T
  | StoreOp.insertData entity component =>
    if m.isKey entity then (StoreAnswer.failed, m) else (StoreAnswer.done, m.bind entity component)
  | StoreOp.removeData entity =>
    if m.isKey entity then (StoreAnswer.done, m.unbind entity) else (StoreAnswer.failed, m)
  | StoreOp.entityDestroyed entity =>
    if m.isKey entity then (StoreAnswer.done, m.unbind entity) else (StoreAnswer.done, m)
  | StoreOp.hasComponent entity => (StoreAnswer.bool (m.isKey entity), m)
  | StoreOp.getData entity =>
    match m.lookup entity with
    | some component => (StoreAnswer.component component, m)
    | none => (StoreAnswer.failed, m)

/-- A sequence of calls on the map: the answers, in call order, and the final map. -/
def answers (m : FiniteMap T) : List (StoreOp T) → List (StoreAnswer T) × FiniteMap T
  | [] => ([], m)
  | op :: ops => ((m.answer op).1 :: ((m.answer op).2.answers ops).1,
      ((m.answer op).2.answers ops).2)

end FiniteMap

/-- The store implements the map: it is well formed, it answers `getData` as the map
answers `lookup`, and `m_validSize` is the number of bindings, no key being bound twice. -/
def ComponentArray.Implements {T : Type} (ca : ComponentArray T) (m : FiniteMap T) : Prop :=
  ca.WellFormed ∧ m.keys.Nodup ∧ ca.m_validSize = m.size ∧ ∀ e, ca.getData e = m.lookup e

/-! ## The dense array: the indices accessed -/

namespace ComponentArray

variable {T : Type}

/-- The index of `m_components` that `insertData(entity, _)` writes once its assertion
has passed: `m_validSize`. -/
def insertDataIndex (ca : ComponentArray T) (entity : Entity) : Option Nat :=
  match ca.m_entityToIndex entity with
  | some _ => none
  | none => some ca.m_validSize

/-- The indices of `m_components` that `removeData(entity)` accesses once its assertion
has passed: the slot written, `m_entityToIndex[entity]`, and the slot read,
`m_validSize - 1` (as `size_t`). -/
def removeDataIndices (ca : ComponentArray T) (entity : Entity) : Option (Nat × Nat) :=
  match ca.m_entityToIndex entity with
  | none => none
  | some tmp => some (tmp, decrSize ca.m_validSize)

/-- The index of `m_components` that `getData(entity)` reads once its assertion has
passed: `m_entityToIndex[entity]`. -/
def getDataIndex (ca : ComponentArray T) (entity : Entity) : Option Nat :=
  ca.m_entityToIndex entity

/-- Every entity the store holds is below `MAX_ENTITIES`. -/
def KeysInRange (ca : ComponentArray T) : Prop :=
  ∀ e i, ca.m_entityToIndex e = some i → e < MAX_ENTITIES

end ComponentArray
/-! # Theorems -/

/-! ## EntityManager: the id pool -/

namespace EntityManager

theorem createEntities_take (n : Nat) : ∀ (em : EntityManager),
    n ≤ em.m_entities.length → em.m_numberOfEntities + n ≤ MAX_ENTITIES →
    em.createEntities n = some (em.m_entities.take n,
      { em with m_entities := em.m_entities.drop n,
                m_numberOfEntities := em.m_numberOfEntities + n }) := by
  induction n with
  | zero => intro em _ _; simp [createEntities]
  | succ n ih =>
    intro em hlen hcnt
    obtain ⟨pool, masks, e2n, n2e, cnt⟩ := em
    cases pool with
    | nil => simp at hlen
    | cons id rest =>
      simp only [List.length_cons, Nat.add_le_add_iff_right] at hlen
      simp only at hcnt
      have hlt : cnt < MAX_ENTITIES := by omega
      simp only [createEntities, createEntity, hlt, if_true]
      rw [ih _ hlen (by simp only; omega)]
      simp [Nat.add_assoc, Nat.add_comm 1 n]

theorem destroyEntity_ok (em : EntityManager) (d : Entity) (hd : d < MAX_ENTITIES) :
    ∃ em1, em.destroyEntity d = Outcome.ok () em1 ∧ em1.m_entities = em.m_entities ++ [d] ∧
      em1.m_numberOfEntities = decr32 em.m_numberOfEntities ∧
      em1.m_componentMasks = Function.update em.m_componentMasks d 0 := by
  simp only [destroyEntity, hd, if_true]
  split <;> exact ⟨_, rfl, rfl, rfl, rfl⟩

theorem destroyEntities_pool (ds : List Entity) : ∀ (em : EntityManager),
    (∀ d ∈ ds, d < MAX_ENTITIES) →
    ∃ em1, em.destroyEntities ds = some em1 ∧ em1.m_entities = em.m_entities ++ ds ∧
      em1.m_numberOfEntities = (decr32^[ds.length]) em.m_numberOfEntities := by
  induction ds with
  | nil => intro em _; exact ⟨em, rfl, by simp, rfl⟩
  | cons d ds ih =>
    intro em h
    have hd : d < MAX_ENTITIES := h d (List.mem_cons_self _ _)
    have hds : ∀ x ∈ ds, x < MAX_ENTITIES := fun x hx => h x (List.mem_cons_of_mem _ hx)
    obtain ⟨em0, h0, hp, hc, _⟩ := destroyEntity_ok em d hd
    obtain ⟨em1, h1, h2, h3⟩ := ih em0 hds
    refine ⟨em1, ?_, ?_, ?_⟩
    · simp only [destroyEntities, h0, h1]
    · rw [h2, hp]; simp
    · rw [h3, hc]; rfl

theorem decr32_pos (n : Nat) (h : 0 < n) : decr32 n = n - 1 := by
  unfold decr32
  split
  · omega
  · rfl

theorem decr32_iterate (m n : Nat) (h : m ≤ n) : (decr32^[m]) n = n - m := by
  induction m generalizing n with
  | zero => simp
  | succ m ih =>
    rw [Function.iterate_succ_apply, decr32_pos n (by omega), ih _ (by omega)]
    omega

theorem drop_range (n : Nat) (hn : n ≤ MAX_ENTITIES) :
    List.drop n (List.range MAX_ENTITIES) = List.range' n (MAX_ENTITIES - n) := by
  have h : List.range MAX_ENTITIES = List.range' 0 n ++ List.range' (0 + n) (MAX_ENTITIES - n) := by
    rw [List.range'_append_1, List.range_eq_range']
    congr 1
    omega
  rw [h, List.drop_left' (by simp)]
  simp

theorem createEntities_new (n : Nat) (hn : n ≤ MAX_ENTITIES) :
    EntityManager.new.createEntities n = some (List.range n,
      { EntityManager.new with m_entities := List.range' n (MAX_ENTITIES - n),
                               m_numberOfEntities := n }) := by
  have h := createEntities_take n EntityManager.new (by simpa [EntityManager.new] using hn)
    (by simpa [EntityManager.new] using hn)
  rw [h]
  have h1 : List.take n (List.range MAX_ENTITIES) = List.range n := by
    rw [List.take_range, Nat.min_eq_left hn]
  simp [EntityManager.new, h1, drop_range n hn]

theorem createEntity_pool {em em1 : EntityManager} {id : Entity}
    (h : em.createEntity = Outcome.ok id em1) : em.m_entities = id :: em1.m_entities := by
  simp only [createEntity] at h
  split at h
  · split at h
    · simp at h
    · rename_i a rest hp
      simp only [Outcome.ok.injEq] at h
      obtain ⟨rfl, rfl⟩ := h
      exact hp
  · simp at h

theorem createEntityNamed_pool {em em1 : EntityManager} {id : Entity} {name : String}
    (h : em.createEntityNamed name = Outcome.ok id em1) :
    em.m_entities = id :: em1.m_entities := by
  simp only [createEntityNamed] at h
  split at h
  · simp at h
  · split at h
    · simp at h
    · rename_i id1 em2 hc
      simp only [Outcome.ok.injEq] at h
      obtain ⟨rfl, rfl⟩ := h
      have hp := createEntity_pool hc
      exact hp

theorem setEntityName_pool {em em1 : EntityManager} {e : Entity} {name : String}
    (h : em.setEntityName e name = Outcome.ok () em1) : em1.m_entities = em.m_entities := by
  simp only [setEntityName] at h
  split at h
  · simp at h
  · simp only [Outcome.ok.injEq, true_and] at h
    subst h
    rfl

theorem destroyEntity_pool {em em1 : EntityManager} {e : Entity}
    (h : em.destroyEntity e = Outcome.ok () em1) : em1.m_entities = em.m_entities ++ [e] := by
  simp only [destroyEntity] at h
  split at h
  · split at h <;>
    · simp only [Outcome.ok.injEq, true_and] at h
      subst h
      rfl
  · simp at h

/-- The pool is a queue: whatever the interleaving of the calls, the ids handed out are,
in order, the first ids of the initial pool followed by the destroyed ids. -/
theorem runCreated_queue (calls : List EntityCall) : ∀ (em em1 : EntityManager)
    (ids : List Entity), em.runCreated calls = some (ids, em1) →
    ids = (em.m_entities ++ destroyedIds calls).take ids.length ∧
    em1.m_entities = (em.m_entities ++ destroyedIds calls).drop ids.length := by
  induction calls with
  | nil =>
    intro em em1 ids h
    simp only [runCreated, Option.some.injEq, Prod.mk.injEq] at h
    obtain ⟨rfl, rfl⟩ := h
    simp [destroyedIds]
  | cons c cs ih =>
    intro em em1 ids h
    cases c with
    | createEntity =>
      simp only [runCreated] at h
      split at h
      · simp at h
      · rename_i id em2 hc
        split at h
        · simp at h
        · rename_i ids2 em3 hr
          simp only [Option.some.injEq, Prod.mk.injEq] at h
          obtain ⟨rfl, rfl⟩ := h
          obtain ⟨h1, h2⟩ := ih em2 em3 ids2 hr
          rw [createEntity_pool hc]
          simp only [destroyedIds, List.length_cons, List.cons_append, List.take_succ_cons,
            List.drop_succ_cons]
          exact ⟨by rw [← h1], h2⟩
    | createEntityNamed name =>
      simp only [runCreated] at h
      split at h
      · simp at h
      · rename_i id em2 hc
        split at h
        · simp at h
        · rename_i ids2 em3 hr
          simp only [Option.some.injEq, Prod.mk.injEq] at h
          obtain ⟨rfl, rfl⟩ := h
          obtain ⟨h1, h2⟩ := ih em2 em3 ids2 hr
          rw [createEntityNamed_pool hc]
          simp only [destroyedIds, List.length_cons, List.cons_append, List.take_succ_cons,
            List.drop_succ_cons]
          exact ⟨by rw [← h1], h2⟩
    | destroyEntity e =>
      simp only [runCreated] at h
      split at h
      · simp at h
      · rename_i u em2 hc
        obtain ⟨h1, h2⟩ := ih em2 em1 ids h
        rw [destroyEntity_pool hc, List.append_assoc] at h1 h2
        exact ⟨h1, h2⟩
    | setEntityName e name =>
      simp only [runCreated] at h
      split at h
      · simp at h
      · rename_i u em2 hc
        obtain ⟨h1, h2⟩ := ih em2 em1 ids h
        rw [setEntityName_pool hc] at h1 h2
        exact ⟨h1, h2⟩

end EntityManager
/-- C5 (capacity limit): on a freshly constructed `EntityManager`, `MAX_ENTITIES`
consecutive `createEntity()` calls all succeed; the ids they return are pairwise
distinct and lie in `[0, MAX_ENTITIES)`; the counter then equals `MAX_ENTITIES`,
so the next `createEntity()` fails its assertion (leaving the state as it is). -/
theorem capacity_limit :
    ∃ ids em, EntityManager.new.createEntities MAX_ENTITIES = some (ids, em) ∧
      ids.length = MAX_ENTITIES ∧ ids.Nodup ∧ (∀ id ∈ ids, id < MAX_ENTITIES) ∧
      em.m_numberOfEntities = MAX_ENTITIES ∧ em.createEntity = Outcome.failed em := by
  refine ⟨_, _, EntityManager.createEntities_new MAX_ENTITIES (Nat.le_refl _), ?_, ?_, ?_, ?_, ?_⟩
  · simp
  · exact List.nodup_range _
  · intro id hid
    simpa using hid
  · rfl
  · simp [EntityManager.createEntity]

/-- C6 (FIFO id reuse): on a fresh `EntityManager` the `n` first `createEntity()`
calls return `0, 1, …, n - 1` in this order; from any state whose pool is `p`,
destroying `d1, …, dm` in this order leaves the pool `p ++ [d1, …, dm]`, and the
next `k` `createEntity()` calls return the first `k` ids of `p ++ [d1, …, dm]`:
the ids already in the pool first, then `d1, …, dm` oldest-freed first; and whatever
the interleaving of successful calls, the ids handed out are, in order, the first
ids of the initial pool followed by the destroyed ids in the order of destruction. -/
theorem fifo_id_reuse (n : Nat) (em : EntityManager) (ds : List Entity) (k : Nat)
    (calls : List EntityCall) (em0 em3 : EntityManager) (ids : List Entity)
    (hn : n ≤ MAX_ENTITIES)
    (hds : ∀ d ∈ ds, d < MAX_ENTITIES)
    (hm : ds.length ≤ em.m_numberOfEntities)
    (hcap : em.m_numberOfEntities - ds.length + k ≤ MAX_ENTITIES)
    (hk : k ≤ (em.m_entities ++ ds).length)
    (hcalls : em0.runCreated calls = some (ids, em3)) :
    (∃ em1, EntityManager.new.createEntities n = some (List.range n, em1)) ∧
    (∃ em1 em2, em.destroyEntities ds = some em1 ∧ em1.m_entities = em.m_entities ++ ds ∧
      em1.createEntities k = some ((em.m_entities ++ ds).take k, em2) ∧
      em2.m_entities = (em.m_entities ++ ds).drop k) ∧
    (ids = (em0.m_entities ++ destroyedIds calls).take ids.length ∧
      em3.m_entities = (em0.m_entities ++ destroyedIds calls).drop ids.length) := by
  refine ⟨⟨_, EntityManager.createEntities_new n hn⟩, ?_,
    EntityManager.runCreated_queue calls em0 em3 ids hcalls⟩
  obtain ⟨em1, h1, h2, h3⟩ := EntityManager.destroyEntities_pool ds em hds
  rw [EntityManager.decr32_iterate _ _ hm] at h3
  have h4 := EntityManager.createEntities_take k em1 (by rw [h2]; exact hk) (by rw [h3]; exact hcap)
  rw [h2] at h4
  exact ⟨em1, _, h1, h2, h4, rfl⟩

set_option maxRecDepth 100000 in
/-- C6, an instance: on a manager that has handed out `0` and `1`, destroying `1` then `0`
and creating `MAX_ENTITIES` entities hands out `2, …, MAX_ENTITIES - 1`, then `1`, then `0`;
and on a fresh manager the interleaving create, create, destroy `0`, create, destroy `1`,
create hands out `0, 1, 2, 3`. -/
theorem fifo_id_reuse_witness :
    (∃ em1, EntityManager.new.createEntities 3 = some (List.range 3, em1)) ∧
    (∃ em1 em2, EntityManager.afterTwoCreated.destroyEntities [1, 0] = some em1 ∧
      em1.m_entities = EntityManager.afterTwoCreated.m_entities ++ [1, 0] ∧
      em1.createEntities MAX_ENTITIES =
        some ((EntityManager.afterTwoCreated.m_entities ++ [1, 0]).take MAX_ENTITIES, em2) ∧
      em2.m_entities = (EntityManager.afterTwoCreated.m_entities ++ [1, 0]).drop MAX_ENTITIES) ∧
    (∃ em3, EntityManager.new.runCreated [EntityCall.createEntity, EntityCall.createEntity,
        EntityCall.destroyEntity 0, EntityCall.createEntity, EntityCall.destroyEntity 1,
        EntityCall.createEntity] = some ([0, 1, 2, 3], em3) ∧
      em3.m_entities = (EntityManager.new.m_entities ++ [0, 1]).drop 4) := by
  obtain ⟨p, hp⟩ := Option.isSome_iff_exists.1
    (show (EntityManager.new.runCreated [EntityCall.createEntity, EntityCall.createEntity,
        EntityCall.destroyEntity 0, EntityCall.createEntity, EntityCall.destroyEntity 1,
        EntityCall.createEntity]).isSome = true by decide)
  have hids : (EntityManager.new.runCreated [EntityCall.createEntity, EntityCall.createEntity,
        EntityCall.destroyEntity 0, EntityCall.createEntity, EntityCall.destroyEntity 1,
        EntityCall.createEntity]).map Prod.fst = some [0, 1, 2, 3] := by decide
  obtain ⟨ids, em3⟩ := p
  rw [hp] at hids
  simp only [Option.map_some', Option.some.injEq] at hids
  subst hids
  obtain ⟨h1, h2, _, h3⟩ := fifo_id_reuse 3 EntityManager.afterTwoCreated [1, 0] MAX_ENTITIES
    [EntityCall.createEntity, EntityCall.createEntity, EntityCall.destroyEntity 0,
      EntityCall.createEntity, EntityCall.destroyEntity 1, EntityCall.createEntity]
    EntityManager.new em3 [0, 1, 2, 3] (by decide) (by decide) (by decide) (by decide)
    (by simp [EntityManager.afterTwoCreated, MAX_ENTITIES]) hp
  exact ⟨h1, h2, em3, hp, h3⟩

namespace TrackedManager

theorem Partitioned.nodup {t : TrackedManager} (h : t.Partitioned) :
    (t.manager.m_entities ++ t.inUse).Nodup :=
  (List.Perm.nodup_iff h.1).2 (List.nodup_range _)

theorem Partitioned.count_le {t : TrackedManager} (h : t.Partitioned) :
    t.manager.m_numberOfEntities ≤ MAX_ENTITIES := by
  have hl := List.Perm.length_eq h.1
  rw [List.length_append, List.length_range] at hl
  rw [h.2]
  omega

theorem Partitioned.disjoint {t : TrackedManager} (h : t.Partitioned) (id : Entity)
    (hid : id ∈ t.inUse) : id ∉ t.manager.m_entities := by
  intro hp
  exact (List.nodup_append.1 h.nodup).2.2 hp hid

theorem partitioned_new : TrackedManager.new.Partitioned := by
  constructor
  · simp [TrackedManager.new, EntityManager.new]
  · rfl

theorem Partitioned.after_create {t : TrackedManager} (h : t.Partitioned) {id : Entity}
    {em : EntityManager} (hc : t.manager.createEntity = Outcome.ok id em) :
    ({ manager := em, inUse := id :: t.inUse } : TrackedManager).Partitioned := by
  obtain ⟨⟨pool, masks, e2n, n2e, cnt⟩, live⟩ := t
  obtain ⟨hp, hn⟩ := h
  simp only [EntityManager.createEntity] at hc
  split at hc
  · cases pool with
    | nil => simp at hc
    | cons a rest =>
      simp only [Outcome.ok.injEq] at hc
      obtain ⟨rfl, rfl⟩ := hc
      constructor
      · simp only at hp ⊢
        exact List.perm_middle.trans hp
      · simp only at hn ⊢
        simp [hn]
  · simp at hc

theorem Partitioned.after_createNamed {t : TrackedManager} (h : t.Partitioned) {id : Entity}
    {em : EntityManager} {name : String}
    (hc : t.manager.createEntityNamed name = Outcome.ok id em) :
    ({ manager := em, inUse := id :: t.inUse } : TrackedManager).Partitioned := by
  simp only [EntityManager.createEntityNamed] at hc
  split at hc
  · simp at hc
  · split at hc
    · simp at hc
    · rename_i id1 em1 hc1
      simp only [Outcome.ok.injEq] at hc
      obtain ⟨rfl, rfl⟩ := hc
      have h2 := h.after_create hc1
      exact ⟨h2.1, h2.2⟩

theorem Partitioned.after_destroy {t : TrackedManager} (h : t.Partitioned) {entity : Entity}
    {em : EntityManager} (hin : entity ∈ t.inUse)
    (hc : t.manager.destroyEntity entity = Outcome.ok () em) :
    ({ manager := em, inUse := t.inUse.filter (fun e => e ≠ entity) } : TrackedManager).Partitioned := by
  have hnd : t.inUse.Nodup := (List.nodup_append.1 h.nodup).2.1
  have hlt : entity < MAX_ENTITIES := by
    have : entity ∈ t.manager.m_entities ++ t.inUse := List.mem_append_right _ hin
    simpa using (List.Perm.mem_iff h.1).1 this
  obtain ⟨em1, h1, hp, hcnt, _⟩ := EntityManager.destroyEntity_ok t.manager entity hlt
  rw [h1] at hc
  simp only [Outcome.ok.injEq, true_and] at hc
  subst hc
  have hf : t.inUse.filter (fun e => e ≠ entity) = t.inUse.erase entity := by
    rw [List.Nodup.erase_eq_filter hnd]
    apply List.filter_congr
    intro e _
    by_cases he : e = entity <;> simp [he]
  constructor
  · simp only [hp, hf]
    refine List.Perm.trans ?_ h.1
    rw [List.append_assoc]
    exact List.Perm.append_left _ (by simpa using (List.perm_cons_erase hin).symm)
  · simp only [hcnt, hf, h.2]
    rw [EntityManager.decr32_pos _ (List.length_pos_of_mem hin), List.length_erase_of_mem hin]

theorem Partitioned.after_setName {t : TrackedManager} (h : t.Partitioned) {entity : Entity}
    {em : EntityManager} {name : String}
    (hc : t.manager.setEntityName entity name = Outcome.ok () em) :
    ({ manager := em, inUse := t.inUse } : TrackedManager).Partitioned := by
  simp only [EntityManager.setEntityName] at hc
  split at hc
  · simp at hc
  · simp only [Outcome.ok.injEq, true_and] at hc
    subst hc
    exact h

theorem Partitioned.after_calls (calls : List EntityCall) : ∀ (t t1 : TrackedManager),
    t.Partitioned → t.destroysInUse calls = true → t.run calls = some t1 → t1.Partitioned := by
  induction calls with
  | nil =>
    intro t t1 h _ hr
    simp only [TrackedManager.run, Option.some.injEq] at hr
    exact hr ▸ h
  | cons c cs ih =>
    intro t t1 h hd hr
    simp only [TrackedManager.run] at hr
    simp only [destroysInUse, Bool.and_eq_true] at hd
    obtain ⟨hd1, hd2⟩ := hd
    cases hs : t.step c with
    | none => simp [hs] at hr
    | some t2 =>
      simp only [hs] at hr hd2
      refine ih t2 t1 ?_ hd2 hr
      cases c with
      | createEntity =>
        simp only [step] at hs
        split at hs
        · simp at hs
        · rename_i id em hc
          simp only [Option.some.injEq] at hs
          exact hs ▸ h.after_create hc
      | createEntityNamed name =>
        simp only [step] at hs
        split at hs
        · simp at hs
        · rename_i id em hc
          simp only [Option.some.injEq] at hs
          exact hs ▸ h.after_createNamed hc
      | destroyEntity entity =>
        simp only [step] at hs
        split at hs
        · simp at hs
        · rename_i u em hc
          simp only [Option.some.injEq] at hs
          exact hs ▸ h.after_destroy (of_decide_eq_true hd1) hc
      | setEntityName entity name =>
        simp only [step] at hs
        split at hs
        · simp at hs
        · rename_i u em hc
          simp only [Option.some.injEq] at hs
          exact hs ▸ h.after_setName hc

end TrackedManager

/-- C7, the claim as stated fails: on a fresh `EntityManager` the single call
`destroyEntity(0)` passes its assertion (`0 < MAX_ENTITIES`) and leaves the counter
at `2^32 - 1`, above `MAX_ENTITIES`. -/
theorem destroy_on_fresh_counterexample :
    ∃ t, TrackedManager.new.run [EntityCall.destroyEntity 0] = some t ∧
      t.manager.m_numberOfEntities = 4294967295 ∧
      ¬ t.manager.m_numberOfEntities ≤ MAX_ENTITIES := by
  refine ⟨_, rfl, ?_, ?_⟩ <;> decide

/-- C7 (amended): after every sequence of `createEntity` / `createEntity(name)` /
`setEntityName` / `destroyEntity` calls on a fresh `EntityManager`, none of which
fails an assertion and in which every `destroyEntity` is passed an id in use, no
id is both in use and in the pool, the counter is at most `MAX_ENTITIES`, and a
`createEntity` that succeeds returns an id that is not in use. -/
theorem allocator_invariant (calls : List EntityCall) (t : TrackedManager)
    (hrun : TrackedManager.new.run calls = some t)
    (hdestroy : TrackedManager.new.destroysInUse calls = true) :
    (∀ id, id ∈ t.inUse → id ∉ t.manager.m_entities) ∧
    t.manager.m_numberOfEntities ≤ MAX_ENTITIES ∧
    (∀ id em, t.manager.createEntity = Outcome.ok id em → id ∉ t.inUse) := by
  have h := TrackedManager.Partitioned.after_calls calls _ _ TrackedManager.partitioned_new hdestroy hrun
  refine ⟨h.disjoint, h.count_le, ?_⟩
  intro id em hc hin
  have h1 := h.after_create hc
  have h2 := h1.nodup
  simp only [List.nodup_append, List.nodup_cons] at h2
  exact h2.2.1.1 hin

set_option maxRecDepth 100000 in
/-- C7 (amended), an instance: create twice (ids `0` and `1`), destroy `0`, create again
(id `2`); ids `2` and `1` are in use. -/
theorem allocator_invariant_witness :
    ∃ t, TrackedManager.new.run [EntityCall.createEntity, EntityCall.createEntity,
        EntityCall.destroyEntity 0, EntityCall.createEntity] = some t ∧
      t.inUse = [2, 1] ∧
      (∀ id, id ∈ t.inUse → id ∉ t.manager.m_entities) ∧
      t.manager.m_numberOfEntities ≤ MAX_ENTITIES ∧
      (∀ id em, t.manager.createEntity = Outcome.ok id em → id ∉ t.inUse) := by
  obtain ⟨t, ht⟩ := Option.isSome_iff_exists.1
    (show (TrackedManager.new.run [EntityCall.createEntity, EntityCall.createEntity,
      EntityCall.destroyEntity 0, EntityCall.createEntity]).isSome = true by decide)
  have hu : (TrackedManager.new.run [EntityCall.createEntity, EntityCall.createEntity,
      EntityCall.destroyEntity 0, EntityCall.createEntity]).map TrackedManager.inUse =
      some [2, 1] := by decide
  rw [ht] at hu
  exact ⟨t, ht, by simpa using hu, allocator_invariant _ t ht (by decide)⟩

/-! ## ComponentArray: the sparse set -/

namespace ComponentArray

variable {T : Type}

theorem wellFormed_new [Inhabited T] : (ComponentArray.new : ComponentArray T).WellFormed := by
  constructor
  · intro e i; simp [ComponentArray.new]
  · intro i; simp [ComponentArray.new]

theorem WellFormed.index_lt {ca : ComponentArray T} (h : ca.WellFormed) {e : Entity} {i : Nat}
    (he : ca.m_entityToIndex e = some i) : i < ca.m_validSize :=
  (h.2 i).1 ⟨e, (h.1 e i).1 he⟩

theorem decrSize_pos (n : Nat) (h : 0 < n) : decrSize n = n - 1 := by
  unfold decrSize
  split
  · omega
  · rfl

theorem WellFormed.wf_insertData {ca ca1 : ComponentArray T} (h : ca.WellFormed) {e : Entity} {v : T}
    (hc : ca.insertData e v = Outcome.ok () ca1) : ca1.WellFormed := by
  simp only [ComponentArray.insertData] at hc
  split at hc
  · simp at hc
  · rename_i hnone
    simp only [Outcome.ok.injEq, true_and] at hc
    subst hc
    have hfree : ∀ x, ca.m_indexToEntity ca.m_validSize ≠ some x := by
      intro x hx
      exact Nat.lt_irrefl _ ((h.2 _).1 ⟨x, hx⟩)
    constructor
    · intro e1 i
      simp only [Function.update_apply]
      by_cases he : e1 = e
      · subst he
        by_cases hi : i = ca.m_validSize
        · subst hi; simp
        · have : ca.m_indexToEntity i ≠ some e1 := by
            intro hx
            rw [← h.1, hnone] at hx
            simp at hx
          simp only [if_true, Option.some.injEq, hi, if_false, this, iff_false]
          exact fun hx => hi hx.symm
      · by_cases hi : i = ca.m_validSize
        · subst hi
          have : ca.m_entityToIndex e1 ≠ some ca.m_validSize := by
            intro hx
            exact hfree e1 ((h.1 _ _).1 hx)
          simp only [he, if_false, this, if_true, Option.some.injEq, false_iff]
          exact fun hx => he hx.symm
        · simp only [he, hi, if_false]
          exact h.1 e1 i
    · intro i
      simp only [Function.update_apply]
      by_cases hi : i = ca.m_validSize
      · subst hi; simp
      · simp only [hi, if_false, h.2 i]
        omega

theorem WellFormed.wf_removeData {ca ca1 : ComponentArray T} (h : ca.WellFormed) {e : Entity}
    (hc : ca.removeData e = Outcome.ok () ca1) : ca1.WellFormed := by
  simp only [ComponentArray.removeData] at hc
  split at hc
  · simp at hc
  · rename_i tmp htmp
    have hlt : tmp < ca.m_validSize := h.index_lt htmp
    have hlast : decrSize ca.m_validSize = ca.m_validSize - 1 := decrSize_pos _ (by omega)
    obtain ⟨el, hel⟩ := (h.2 (ca.m_validSize - 1)).2 (by omega)
    have hel2 : ca.m_entityToIndex el = some (ca.m_validSize - 1) := (h.1 _ _).2 hel
    have htmp2 : ca.m_indexToEntity tmp = some e := (h.1 _ _).1 htmp
    simp only [hlast, hel, Option.getD_some, Outcome.ok.injEq, true_and] at hc
    subst hc
    have key1 : el = e ↔ tmp = ca.m_validSize - 1 := by
      constructor
      · intro hx
        rw [hx, htmp] at hel2
        simpa using hel2
      · intro hx
        rw [hx, hel] at htmp2
        simpa using htmp2
    constructor
    · intro e1 i
      simp only [Function.update_apply]
      by_cases he : e1 = e
      · subst he
        simp only [if_true]
        by_cases hi : i = ca.m_validSize - 1
        · simp [hi]
        · by_cases hi2 : i = tmp
          · subst hi2
            simp [hi, key1]
          · have : ca.m_indexToEntity i ≠ some e1 := by
              intro hx
              rw [← h.1, htmp] at hx
              simp only [Option.some.injEq] at hx
              exact hi2 hx.symm
            simp [hi, hi2, this]
      · simp only [he, if_false]
        by_cases he2 : e1 = el
        · subst he2
          have hne : tmp ≠ ca.m_validSize - 1 := fun hx => he (key1.2 hx)
          by_cases hi : i = ca.m_validSize - 1
          · simp [hi, hne]
          · by_cases hi2 : i = tmp
            · simp [hi2, hne]
            · have : ca.m_indexToEntity i ≠ some e1 := by
                intro hx
                rw [← h.1, hel2] at hx
                simp only [Option.some.injEq] at hx
                exact hi hx.symm
              simp [hi, hi2, this, Ne.symm hi2]
        · simp only [he2, if_false]
          by_cases hi : i = ca.m_validSize - 1
          · have : ca.m_entityToIndex e1 ≠ some (ca.m_validSize - 1) := by
              intro hx
              rw [h.1, hel] at hx
              simp only [Option.some.injEq] at hx
              exact he2 hx.symm
            simp [hi, this]
          · by_cases hi2 : i = tmp
            · subst hi2
              have : ca.m_entityToIndex e1 ≠ some i := by
                intro hx
                rw [h.1, htmp2] at hx
                simp only [Option.some.injEq] at hx
                exact he hx.symm
              simp [hi, this, Ne.symm he2]
            · simp only [hi, hi2, if_false]
              exact h.1 e1 i
    · intro i
      simp only [Function.update_apply]
      by_cases hi : i = ca.m_validSize - 1
      · simp [hi]
      · by_cases hi2 : i = tmp
        · subst hi2
          simp only [hi, if_false, if_true, Option.some.injEq, exists_eq', true_iff]
          omega
        · simp only [hi, hi2, if_false, h.2 i]
          constructor <;> intro hx <;> omega

theorem entityDestroyed_eq (ca : ComponentArray T) (e : Entity) :
    ∃ ca1, ca.entityDestroyed e = Outcome.ok () ca1 ∧
      ((ca.m_entityToIndex e = none ∧ ca1 = ca) ∨
        ((ca.m_entityToIndex e).isSome ∧ ca.removeData e = Outcome.ok () ca1)) := by
  simp only [ComponentArray.entityDestroyed]
  cases he : ca.m_entityToIndex e with
  | none => exact ⟨ca, by simp, Or.inl ⟨rfl, rfl⟩⟩
  | some i =>
    simp only [Option.isSome_some, if_true, true_and]
    simp only [ComponentArray.removeData, he]
    exact ⟨_, rfl, Or.inr rfl⟩

theorem WellFormed.wf_step {ca ca1 : ComponentArray T} (h : ca.WellFormed) {c : StoreCall T}
    (hc : ca.step c = Outcome.ok () ca1) : ca1.WellFormed := by
  cases c with
  | insertData e v => exact h.wf_insertData hc
  | removeData e => exact h.wf_removeData hc
  | entityDestroyed e =>
    simp only [ComponentArray.step] at hc
    obtain ⟨ca2, h2, h3⟩ := entityDestroyed_eq ca e
    rw [h2] at hc
    simp only [Outcome.ok.injEq, true_and] at hc
    subst hc
    rcases h3 with ⟨_, rfl⟩ | ⟨_, h4⟩
    · exact h
    · exact h.wf_removeData h4

theorem WellFormed.wf_run (calls : List (StoreCall T)) : ∀ (ca ca1 : ComponentArray T),
    ca.WellFormed → ca.run calls = some ca1 → ca1.WellFormed := by
  induction calls with
  | nil =>
    intro ca ca1 h hr
    simp only [ComponentArray.run, Option.some.injEq] at hr
    exact hr ▸ h
  | cons c cs ih =>
    intro ca ca1 h hr
    simp only [ComponentArray.run] at hr
    split at hr
    · simp at hr
    · rename_i u ca2 hs
      exact ih ca2 ca1 (h.wf_step hs) hr

end ComponentArray

/-- C4 (sparse-set well-formedness): in every `ComponentArray` state reached from the
empty store by successful `insertData` / `removeData` / `entityDestroyed` calls,
`m_entityToIndex` maps `e` to `i` iff `m_indexToEntity` maps `i` to `e`, and the
dense indices in use (as keys of `m_indexToEntity`, and as values of
`m_entityToIndex`) are exactly those of `[0, m_validSize)`. -/
theorem sparse_set_well_formed {T : Type} [Inhabited T] (calls : List (StoreCall T))
    (ca : ComponentArray T) (hrun : (ComponentArray.new : ComponentArray T).run calls = some ca) :
    (∀ e i, ca.m_entityToIndex e = some i ↔ ca.m_indexToEntity i = some e) ∧
    (∀ i, (∃ e, ca.m_indexToEntity i = some e) ↔ i < ca.m_validSize) ∧
    (∀ i, (∃ e, ca.m_entityToIndex e = some i) ↔ i < ca.m_validSize) := by
  have h := ComponentArray.WellFormed.wf_run calls _ _ ComponentArray.wellFormed_new hrun
  refine ⟨h.1, h.2, ?_⟩
  intro i
  rw [← h.2 i]
  constructor
  · rintro ⟨e, he⟩; exact ⟨e, (h.1 e i).1 he⟩
  · rintro ⟨e, he⟩; exact ⟨e, (h.1 e i).2 he⟩

namespace ComponentArray

variable {T : Type}

theorem holdsDense_new [Inhabited T] : (ComponentArray.new : ComponentArray T).HoldsDense [] := by
  refine ⟨rfl, ?_, ?_, ?_⟩
  · intro i; simp [ComponentArray.new]
  · intro i p h; simp at h
  · intro e i; simp [ComponentArray.new]

theorem HoldsDense.absent {ca : ComponentArray T} {ps : List (Entity × T)} (h : ca.HoldsDense ps)
    {e : Entity} (he : e ∉ ps.map Prod.fst) : ca.m_entityToIndex e = none := by
  cases hx : ca.m_entityToIndex e with
  | none => rfl
  | some i =>
    exfalso
    have h1 := (h.2.2.2 e i).1 hx
    cases hp : ps[i]? with
    | none => simp [hp] at h1
    | some p =>
      simp only [hp, Option.map_some', Option.some.injEq] at h1
      apply he
      rw [List.mem_map]
      exact ⟨p, List.getElem?_mem hp, h1⟩

theorem HoldsDense.dense_insertData {ca : ComponentArray T} {ps : List (Entity × T)}
    (h : ca.HoldsDense ps) {e : Entity} (v : T) (he : e ∉ ps.map Prod.fst) :
    ∃ ca1, ca.insertData e v = Outcome.ok () ca1 ∧ ca1.HoldsDense (ps ++ [(e, v)]) := by
  obtain ⟨hsz, hi2e, hcomp, he2i⟩ := h
  have hnone : ca.m_entityToIndex e = none := HoldsDense.absent ⟨hsz, hi2e, hcomp, he2i⟩ he
  simp only [ComponentArray.insertData, hnone]
  refine ⟨_, rfl, ?_, ?_, ?_, ?_⟩
  · simp [hsz]
  · intro i
    simp only [Function.update_apply, hsz]
    by_cases hi : i = ps.length
    · subst hi; simp
    · simp only [hi, if_false, hi2e]
      rcases Nat.lt_or_gt_of_ne hi with hlt | hgt
      · rw [List.getElem?_append_left hlt]
      · rw [List.getElem?_eq_none (by omega), List.getElem?_eq_none (by simp; omega)]
  · intro i p hp
    simp only [Function.update_apply, hsz]
    by_cases hi : i = ps.length
    · subst hi
      simp at hp
      simp [← hp]
    · simp only [hi, if_false]
      rcases Nat.lt_or_gt_of_ne hi with hlt | hgt
      · rw [List.getElem?_append_left hlt] at hp
        exact hcomp i p hp
      · rw [List.getElem?_eq_none (by simp; omega)] at hp
        simp at hp
  · intro e1 i
    simp only [Function.update_apply, hsz]
    by_cases hi : i = ps.length
    · subst hi
      by_cases he1 : e1 = e
      · simp [he1]
      · have : ca.m_entityToIndex e1 ≠ some ps.length := by
          intro hx
          have := (he2i _ _).1 hx
          simp at this
        simp [he1, this, Ne.symm he1]
    · rcases Nat.lt_or_gt_of_ne hi with hlt | hgt
      · rw [List.getElem?_append_left hlt]
        by_cases he1 : e1 = e
        · subst he1
          have : (ps[i]?).map Prod.fst ≠ some e1 := by
            intro hx
            rw [← he2i, hnone] at hx
            simp at hx
          simp [this, Ne.symm hi]
        · simp only [he1, if_false]
          exact he2i e1 i
      · rw [List.getElem?_eq_none (by simp; omega)]
        by_cases he1 : e1 = e
        · simp [he1, Ne.symm hi]
        · have : ca.m_entityToIndex e1 ≠ some i := by
            intro hx
            have := (he2i _ _).1 hx
            rw [List.getElem?_eq_none (by omega)] at this
            simp at this
          simp [he1, this]

theorem HoldsDense.dense_insertAll (qs : List (Entity × T)) : ∀ (ca : ComponentArray T)
    (ps : List (Entity × T)), ca.HoldsDense ps → ((ps ++ qs).map Prod.fst).Nodup →
    ∃ ca1, ca.insertAll qs = some ca1 ∧ ca1.HoldsDense (ps ++ qs) := by
  induction qs with
  | nil =>
    intro ca ps h _
    exact ⟨ca, rfl, by simpa using h⟩
  | cons q qs ih =>
    intro ca ps h hnd
    have hq : q.1 ∉ ps.map Prod.fst := by
      simp only [List.map_append, List.map_cons, List.nodup_append, List.nodup_cons] at hnd
      intro hx
      exact hnd.2.2 hx (List.mem_cons_self _ _)
    obtain ⟨ca1, h1, h2⟩ := h.dense_insertData q.2 hq
    have hnd2 : ((ps ++ [(q.1, q.2)] ++ qs).map Prod.fst).Nodup := by
      simpa using hnd
    obtain ⟨ca2, h3, h4⟩ := ih ca1 _ h2 hnd2
    refine ⟨ca2, ?_, by simpa using h4⟩
    simp only [ComponentArray.insertAll, h1, h3]

end ComponentArray
namespace ComponentArray

variable {T : Type}

theorem HoldsDense.index_of {ca : ComponentArray T} {ps : List (Entity × T)} (h : ca.HoldsDense ps)
    (i : Nat) (hi : i < ps.length) : ca.m_entityToIndex ps[i].1 = some i := by
  rw [h.2.2.2]
  simp [List.getElem?_eq_getElem hi]

theorem HoldsDense.value_at {ca : ComponentArray T} {ps : List (Entity × T)} (h : ca.HoldsDense ps)
    (i : Nat) (hi : i < ps.length) : ca.m_components i = ps[i].2 :=
  h.2.2.1 i _ (List.getElem?_eq_getElem hi)

theorem HoldsDense.entity_at {ca : ComponentArray T} {ps : List (Entity × T)} (h : ca.HoldsDense ps)
    (i : Nat) (hi : i < ps.length) : ca.m_indexToEntity i = some ps[i].1 := by
  rw [h.2.1]
  simp [List.getElem?_eq_getElem hi]

theorem HoldsDense.index_inj {ca : ComponentArray T} {ps : List (Entity × T)} (h : ca.HoldsDense ps)
    {i j : Nat} (hi : i < ps.length) (hj : j < ps.length) (he : ps[i].1 = ps[j].1) : i = j := by
  have h1 := h.index_of i hi
  have h2 := h.index_of j hj
  rw [he, h2] at h1
  simpa using h1.symm

/-- The store after `removeData` of the entity in dense slot `j`, when the store holds `ps`. -/
theorem HoldsDense.removeData_at {ca : ComponentArray T} {ps : List (Entity × T)}
    (h : ca.HoldsDense ps) (j : Nat) (hj : j < ps.length) :
    ca.removeData ps[j].1 = Outcome.ok ()
      { m_components := Function.update ca.m_components j ps[ps.length - 1].2
        m_entityToIndex := Function.update
          (Function.update ca.m_entityToIndex ps[ps.length - 1].1 (some j)) ps[j].1 none
        m_indexToEntity := Function.update
          (Function.update ca.m_indexToEntity j (some ps[ps.length - 1].1)) (ps.length - 1) none
        m_validSize := ps.length - 1 } := by
  have hlast : decrSize ca.m_validSize = ps.length - 1 := by
    rw [h.1]
    exact decrSize_pos _ (by omega)
  simp only [ComponentArray.removeData, h.index_of j hj, hlast,
    h.entity_at (ps.length - 1) (by omega), h.value_at (ps.length - 1) (by omega),
    Option.getD_some]

end ComponentArray

/-- C3 (swap-remove postcondition): insert the distinct entities `e1, …, en` (`n ≥ 3`) with
values `v1, …, vn`, in this order, into an empty store, then call `removeData(ek)` with
`1 < k < n`. The size goes down by exactly one, `getData(ei)` is still `vi` for every
`i ≠ k`, `hasComponent(ek)` is false, and the dense slot `k - 1`, which held `ek`,
now holds the entity `en` that was last in dense order, with its value `vn`. -/
theorem swap_remove_postcondition {T : Type} [Inhabited T] (ps : List (Entity × T)) (k : Nat)
    (hdistinct : (ps.map Prod.fst).Nodup) (hn : 3 ≤ ps.length) (hk1 : 1 < k)
    (hk2 : k < ps.length) :
    ∃ ca ca1, (ComponentArray.new : ComponentArray T).insertAll ps = some ca ∧
      ca.m_validSize = ps.length ∧
      ca.m_indexToEntity (k - 1) = some ps[k - 1].1 ∧
      ca.removeData ps[k - 1].1 = Outcome.ok () ca1 ∧
      ca1.m_validSize + 1 = ca.m_validSize ∧
      (∀ i (hi : i < ps.length), i ≠ k - 1 → ca1.getData ps[i].1 = some ps[i].2) ∧
      ca1.hasComponent ps[k - 1].1 = false ∧
      ca1.m_indexToEntity (k - 1) = some ps[ps.length - 1].1 ∧
      ca1.m_components (k - 1) = ps[ps.length - 1].2 := by
  obtain ⟨ca, hins, h⟩ := ComponentArray.HoldsDense.dense_insertAll ps ComponentArray.new []
    ComponentArray.holdsDense_new (by simpa using hdistinct)
  simp only [List.nil_append] at h
  have hj : k - 1 < ps.length := by omega
  refine ⟨ca, _, hins, h.1, h.entity_at _ hj, h.removeData_at (k - 1) hj, ?_, ?_, ?_, ?_, ?_⟩
  · simp only [h.1]
    omega
  · intro i hi hne
    have hne2 : ps[i].1 ≠ ps[k - 1].1 := fun hx => hne (h.index_inj hi hj hx)
    simp only [ComponentArray.getData, Function.update_apply, hne2, if_false]
    by_cases hl : i = ps.length - 1
    · subst hl
      simp
    · have hne3 : ps[i].1 ≠ ps[ps.length - 1].1 :=
        fun hx => hl (h.index_inj hi (by omega) hx)
      simp [hne3, h.index_of i hi, hne, h.value_at i hi]
  · simp [ComponentArray.hasComponent]
  · have : k - 1 ≠ ps.length - 1 := by omega
    simp [Function.update_apply, this]
  · simp
/-- C3, an instance: entities `5, 9, 2, 7` with values `50, 90, 20, 70`, and `k = 2`
(entity `9`). Afterwards the store has size `3`, slot `1` holds entity `7` with value
`70`, entity `9` is gone, and the three others keep their values. -/
theorem swap_remove_postcondition_witness :
    ∃ ca1 : ComponentArray Nat,
      ca1.m_validSize = 3 ∧ ca1.m_indexToEntity 1 = some 7 ∧ ca1.m_components 1 = 70 ∧
      ca1.hasComponent 9 = false ∧ ca1.getData 5 = some 50 ∧ ca1.getData 2 = some 20 ∧
      ca1.getData 7 = some 70 := by
  obtain ⟨ca, ca1, _, hsz, _, _, hsz1, hget, hhas, hidx, hval⟩ :=
    swap_remove_postcondition [((5 : Entity), (50 : Nat)), (9, 90), (2, 20), (7, 70)] 2
      (by decide) (by decide) (by decide) (by decide)
  refine ⟨ca1, ?_, hidx, hval, hhas, hget 0 (by decide) (by decide),
    hget 2 (by decide) (by decide), hget 3 (by decide) (by decide)⟩
  rw [hsz] at hsz1
  simpa using hsz1

/-- C4, an instance: two insertions, the removal of the entity in the last dense slot,
the removal of the only element, a new insertion and a tolerant removal of an absent
entity. -/
theorem sparse_set_well_formed_witness :
    ∃ ca : ComponentArray Nat,
      (ComponentArray.new : ComponentArray Nat).run
        [StoreCall.insertData 7 10, StoreCall.insertData 3 20, StoreCall.removeData 3,
          StoreCall.removeData 7, StoreCall.insertData 5 30, StoreCall.entityDestroyed 9] =
        some ca ∧
      ca.m_validSize = 1 ∧
      (∀ e i, ca.m_entityToIndex e = some i ↔ ca.m_indexToEntity i = some e) ∧
      (∀ i, (∃ e, ca.m_indexToEntity i = some e) ↔ i < ca.m_validSize) ∧
      (∀ i, (∃ e, ca.m_entityToIndex e = some i) ↔ i < ca.m_validSize) := by
  have h : ∃ ca : ComponentArray Nat,
      (ComponentArray.new : ComponentArray Nat).run
        [StoreCall.insertData 7 10, StoreCall.insertData 3 20, StoreCall.removeData 3,
          StoreCall.removeData 7, StoreCall.insertData 5 30, StoreCall.entityDestroyed 9] =
        some ca ∧ ca.m_validSize = 1 := ⟨_, rfl, by decide⟩
  obtain ⟨ca, hrun, hsz⟩ := h
  exact ⟨ca, hrun, hsz, sparse_set_well_formed _ ca hrun⟩

/-! ## EntityManager: names -/

set_option maxRecDepth 100000 in
/-- C8, the code at the failing input: `createEntity("x")` returns entity `0`, then
`setEntityName(0, "y")` passes its assertion (`"y"` is not bound). Afterwards the
name `"x"` is still bound to entity `0`, whereas entity `0` is bound to `"y"`: the
two maps are not inverse to each other, and entity `0` is designated by two names.
After `destroyEntity(0)` the name `"x"` is still bound to the id `0`, which no
entity uses. -/
theorem rename_keeps_old_name :
    (∃ t, TrackedManager.new.run
        [EntityCall.createEntityNamed "x", EntityCall.setEntityName 0 "y"] = some t ∧
      t.manager.findEntityByName "x" = some 0 ∧
      t.manager.findEntityByName "y" = some 0 ∧
      t.manager.getEntityName 0 = some "y" ∧
      ¬ (∀ (n : String) (e : Entity),
          t.manager.m_nameToEntity n = some e ↔ t.manager.m_entityToName e = some n)) ∧
    (∃ t, TrackedManager.new.run
        [EntityCall.createEntityNamed "x", EntityCall.setEntityName 0 "y",
          EntityCall.destroyEntity 0] = some t ∧
      t.inUse = [] ∧
      t.manager.findEntityByName "x" = some 0 ∧
      t.manager.getEntityName 0 = none) := by
  constructor
  · obtain ⟨t, ht⟩ := Option.isSome_iff_exists.1
      (show (TrackedManager.new.run
        [EntityCall.createEntityNamed "x", EntityCall.setEntityName 0 "y"]).isSome = true
        by decide)
    have hx : (TrackedManager.new.run
        [EntityCall.createEntityNamed "x", EntityCall.setEntityName 0 "y"]).bind
        (fun t => t.manager.findEntityByName "x") = some 0 := by decide
    have hy : (TrackedManager.new.run
        [EntityCall.createEntityNamed "x", EntityCall.setEntityName 0 "y"]).bind
        (fun t => t.manager.findEntityByName "y") = some 0 := by decide
    have hn : (TrackedManager.new.run
        [EntityCall.createEntityNamed "x", EntityCall.setEntityName 0 "y"]).bind
        (fun t => t.manager.getEntityName 0) = some "y" := by decide
    rw [ht] at hx hy hn
    simp only [Option.some_bind] at hx hy hn
    refine ⟨t, ht, hx, hy, hn, ?_⟩
    intro h
    have h2 := (h "x" 0).1 hx
    rw [EntityManager.getEntityName] at hn
    rw [hn] at h2
    exact absurd h2 (by decide)
  · obtain ⟨t, ht⟩ := Option.isSome_iff_exists.1
      (show (TrackedManager.new.run
        [EntityCall.createEntityNamed "x", EntityCall.setEntityName 0 "y",
          EntityCall.destroyEntity 0]).isSome = true by decide)
    have hu : (TrackedManager.new.run
        [EntityCall.createEntityNamed "x", EntityCall.setEntityName 0 "y",
          EntityCall.destroyEntity 0]).map TrackedManager.inUse = some [] := by decide
    have hx : (TrackedManager.new.run
        [EntityCall.createEntityNamed "x", EntityCall.setEntityName 0 "y",
          EntityCall.destroyEntity 0]).bind
        (fun t => t.manager.findEntityByName "x") = some 0 := by decide
    have hn : (TrackedManager.new.run
        [EntityCall.createEntityNamed "x", EntityCall.setEntityName 0 "y",
          EntityCall.destroyEntity 0]).map
        (fun t => t.manager.getEntityName 0) = some none := by decide
    rw [ht] at hu hx hn
    simp only [Option.some_bind, Option.map_some', Option.some.injEq] at hu hx hn
    exact ⟨t, ht, hu, hx, hn⟩

/-- C9 (naming round trip): for every entity `e` and every name `x` that is not bound,
`setEntityName(e, x)` succeeds; afterwards `findEntityByName(x)` returns `e`,
`getEntityName(e)` returns `x`, and `createEntity(x)` fails, on the `EntityManager`
and on the facade alike, in the very state it was called in: no id has left the pool
and the counter is unchanged. -/
theorem naming_round_trip {V : Type} [Inhabited V] (ecs : ECS V) (e : Entity) (x : String)
    (hx : ecs.findEntityByName x = none) :
    ∃ ecs1, ecs.setEntityName e x = Outcome.ok () ecs1 ∧
      ecs.m_entityManager.setEntityName e x = Outcome.ok () ecs1.m_entityManager ∧
      ecs1.findEntityByName x = some e ∧
      ecs1.getEntityName e = some x ∧
      ecs1.m_entityManager.createEntityNamed x = Outcome.failed ecs1.m_entityManager ∧
      ecs1.createEntityNamed x = Outcome.failed ecs1 := by
  simp only [ECS.findEntityByName, EntityManager.findEntityByName] at hx
  refine ⟨{ ecs with
      m_entityManager :=
        { ecs.m_entityManager with
          m_nameToEntity := Function.update ecs.m_entityManager.m_nameToEntity x (some e)
          m_entityToName := Function.update ecs.m_entityManager.m_entityToName e (some x) } },
    ?_, ?_, ?_, ?_, ?_, ?_⟩
  · simp only [ECS.setEntityName, EntityManager.setEntityName, hx]
  · simp only [EntityManager.setEntityName, hx]
  · simp [ECS.findEntityByName, EntityManager.findEntityByName]
  · simp [ECS.getEntityName, EntityManager.getEntityName]
  · simp [EntityManager.createEntityNamed]
  · simp [ECS.createEntityNamed, EntityManager.createEntityNamed]

/-- C9, an instance: naming entity `0` `"x"` on a freshly initialised ECS. -/
theorem naming_round_trip_witness :
    ∃ ecs1 : ECS Nat, (ECS.init : ECS Nat).setEntityName 0 "x" = Outcome.ok () ecs1 ∧
      (ECS.init : ECS Nat).m_entityManager.setEntityName 0 "x" =
        Outcome.ok () ecs1.m_entityManager ∧
      ecs1.findEntityByName "x" = some 0 ∧
      ecs1.getEntityName 0 = some "x" ∧
      ecs1.m_entityManager.createEntityNamed "x" = Outcome.failed ecs1.m_entityManager ∧
      ecs1.createEntityNamed "x" = Outcome.failed ecs1 :=
  naming_round_trip ECS.init 0 "x" rfl

/-! ## The facade: systems and masks -/

namespace SystemManager

variable {V : Type}

/-! ### The loops over `m_systems` -/

/-- A loop over the pairs of `m_systems` leaves alone the objects that are not registered. -/
theorem foldl_update_not_mem (F : String → System V → System V)
    (l : List (String × SystemRef)) : ∀ (objects : SystemRef → System V) (r : SystemRef),
    r ∉ l.map Prod.snd →
    (l.foldl (fun (o : SystemRef → System V) (pair : String × SystemRef) =>
        Function.update o pair.2 (F pair.1 (o pair.2))) objects) r =
      objects r := by
  induction l with
  | nil => intro objects r _; rfl
  | cons p rest ih =>
    intro objects r hr
    simp only [List.map_cons, List.mem_cons, not_or] at hr
    simp only [List.foldl_cons]
    rw [ih _ r hr.2, Function.update_noteq hr.1]

/-- A loop over the pairs of `m_systems` applies its body once to an object that is
registered under one type name only. -/
theorem foldl_update_only (F : String → System V → System V)
    (l : List (String × SystemRef)) : ∀ (objects : SystemRef → System V) (r : SystemRef)
    (t : String), l.filter (fun pair => pair.2 = r) = [(t, r)] →
    (l.foldl (fun (o : SystemRef → System V) (pair : String × SystemRef) =>
        Function.update o pair.2 (F pair.1 (o pair.2))) objects) r =
      F t (objects r) := by
  induction l with
  | nil => intro objects r t h; simp at h
  | cons p rest ih =>
    intro objects r t h
    obtain ⟨t0, r0⟩ := p
    simp only [List.foldl_cons]
    by_cases hr : r0 = r
    · subst hr
      simp only [List.filter_cons, decide_True, if_true, List.cons.injEq, Prod.mk.injEq,
        and_true] at h
      obtain ⟨rfl, hrest⟩ := h
      have hnot : r0 ∉ rest.map Prod.snd := by
        intro hmem
        obtain ⟨q, hq, hq2⟩ := List.mem_map.1 hmem
        have : q ∈ rest.filter (fun pair => pair.2 = r0) :=
          List.mem_filter.2 ⟨hq, by simpa using hq2⟩
        rw [hrest] at this
        simp at this
      rw [foldl_update_not_mem F rest _ r0 hnot, Function.update_same]
    · simp only [List.filter_cons, hr, decide_False, Bool.false_eq_true, if_false] at h
      rw [ih _ r t h, Function.update_noteq (Ne.symm hr)]

/-- A loop over the pairs of `m_systems` keeps every relation between the object before
and the object after that its body keeps and that is reflexive and transitive. -/
theorem foldl_update_rel (F : String → System V → System V) (R : System V → System V → Prop)
    (hrefl : ∀ s, R s s) (htrans : ∀ s1 s2 s3, R s1 s2 → R s2 s3 → R s1 s3)
    (hstep : ∀ t s, R s (F t s)) (l : List (String × SystemRef)) :
    ∀ (objects : SystemRef → System V) (r : SystemRef),
    R (objects r)
      ((l.foldl (fun (o : SystemRef → System V) (pair : String × SystemRef) =>
        Function.update o pair.2 (F pair.1 (o pair.2))) objects) r) := by
  induction l with
  | nil => intro objects r; exact hrefl _
  | cons p rest ih =>
    intro objects r
    simp only [List.foldl_cons]
    refine htrans _ _ _ ?_ (ih _ r)
    by_cases hr : r = p.2
    · subst hr
      rw [Function.update_same]
      exact hstep _ _
    · rw [Function.update_noteq hr]
      exact hrefl _

theorem Unaliased.registeredOnlyAs {sm : SystemManager V} (h : sm.Unaliased) {t : String}
    {r : SystemRef} (hmem : (t, r) ∈ sm.m_systems) : sm.RegisteredOnlyAs r t := by
  unfold Unaliased at h
  unfold RegisteredOnlyAs
  generalize sm.m_systems = l at h hmem
  induction l with
  | nil => simp at hmem
  | cons p rest ih =>
    obtain ⟨t0, r0⟩ := p
    simp only [List.map_cons, List.nodup_cons] at h
    obtain ⟨hnot, hnd⟩ := h
    rcases List.mem_cons.1 hmem with heq | hrest
    · simp only [Prod.mk.injEq] at heq
      obtain ⟨rfl, rfl⟩ := heq
      have hnone : rest.filter (fun pair => pair.2 = r) = [] := by
        apply List.filter_eq_nil_iff.2
        intro q hq
        simp only [decide_eq_true_eq]
        intro hq2
        exact hnot (List.mem_map.2 ⟨q, hq, hq2⟩)
      simp [List.filter_cons, hnone]
    · have hne : r0 ≠ r := by
        intro h1
        subst h1
        exact hnot (List.mem_map.2 ⟨(t, r0), hrest, rfl⟩)
      simp only [List.filter_cons, hne, decide_False, Bool.false_eq_true, if_false]
      exact ih hnd hrest

theorem RegisteredOnlyAs.mem {sm : SystemManager V} {t : String} {r : SystemRef}
    (h : sm.RegisteredOnlyAs r t) : (t, r) ∈ sm.m_systems := by
  have : (t, r) ∈ sm.m_systems.filter (fun pair => pair.2 = r) := by
    rw [h]
    exact List.mem_singleton_self _
  exact (List.mem_filter.1 this).1

/-! ### The interest masks -/

theorem systemComponentMask_masksAfterRead (sm : SystemManager V) (type : String) :
    (sm.masksAfterRead type).getD 0 = sm.systemComponentMask type := by
  simp only [masksAfterRead]
  split <;> simp [systemComponentMask]

@[simp] theorem systemComponentMask_entityComponentMaskChanged (sm : SystemManager V)
    (world : World V) (e : Entity) (o n : ComponentMask) (c : Component) (type : String) :
    (sm.entityComponentMaskChanged world e o n c).systemComponentMask type =
      sm.systemComponentMask type :=
  systemComponentMask_masksAfterRead sm type

@[simp] theorem systemComponentMask_entityDestroyed (sm : SystemManager V) (world : World V)
    (e : Entity) (m : ComponentMask) (type : String) :
    (sm.entityDestroyed world e m).systemComponentMask type = sm.systemComponentMask type :=
  systemComponentMask_masksAfterRead sm type

/-! ### One notification, one registered object -/

/-- The object of a system registered under one type name only, after
`entityComponentMaskChanged`: the loop body has been applied to it once. -/
theorem objects_entityComponentMaskChanged (sm : SystemManager V) (world : World V)
    (e : Entity) (o n : ComponentMask) (c : Component) {type : String} {r : SystemRef}
    (h : sm.RegisteredOnlyAs r type) :
    (sm.entityComponentMaskChanged world e o n c).objects r =
      entityComponentMaskChangedStep (sm.objects r) world e o n (sm.systemComponentMask type) c :=
  foldl_update_only
    (fun t s => entityComponentMaskChangedStep s world e o n (sm.systemComponentMask t) c)
    sm.m_systems sm.objects r type h

/-- The object of a system registered under one type name only, after `entityDestroyed`:
the loop body has been applied to it once. -/
theorem objects_entityDestroyed (sm : SystemManager V) (world : World V) (e : Entity)
    (m : ComponentMask) {type : String} {r : SystemRef} (h : sm.RegisteredOnlyAs r type) :
    (sm.entityDestroyed world e m).objects r =
      entityDestroyedStep (sm.objects r) world e m (sm.systemComponentMask type) :=
  foldl_update_only (fun t s => entityDestroyedStep s world e m (sm.systemComponentMask t))
    sm.m_systems sm.objects r type h

/-- An object that is not registered is left alone by `entityComponentMaskChanged`. -/
theorem objects_entityComponentMaskChanged_of_not_mem (sm : SystemManager V) (world : World V)
    (e : Entity) (o n : ComponentMask) (c : Component) {r : SystemRef}
    (h : r ∉ sm.m_systems.map Prod.snd) :
    (sm.entityComponentMaskChanged world e o n c).objects r = sm.objects r :=
  foldl_update_not_mem
    (fun t s => entityComponentMaskChangedStep s world e o n (sm.systemComponentMask t) c)
    sm.m_systems sm.objects r h

/-- An object that is not registered is left alone by `entityDestroyed`. -/
theorem objects_entityDestroyed_of_not_mem (sm : SystemManager V) (world : World V)
    (e : Entity) (m : ComponentMask) {r : SystemRef} (h : r ∉ sm.m_systems.map Prod.snd) :
    (sm.entityDestroyed world e m).objects r = sm.objects r :=
  foldl_update_not_mem (fun t s => entityDestroyedStep s world e m (sm.systemComponentMask t))
    sm.m_systems sm.objects r h

/-! ### The visiting order -/

/-- The order in which `entityComponentMaskChanged` visits the pairs of `m_systems` (the
iteration order of the `std::unordered_map`) plays no part when no object is registered
under two type names: any rearrangement of the pairs leads to the same objects. -/
theorem entityComponentMaskChanged_perm (sm sm1 : SystemManager V) (world : World V)
    (e : Entity) (o n : ComponentMask) (c : Component) (hal : sm.Unaliased)
    (hperm : sm1.m_systems.Perm sm.m_systems)
    (hmasks : sm1.m_componentMasks = sm.m_componentMasks)
    (hobjects : sm1.objects = sm.objects) :
    (sm1.entityComponentMaskChanged world e o n c).objects =
      (sm.entityComponentMaskChanged world e o n c).objects := by
  have hal1 : sm1.Unaliased := (List.Perm.nodup_iff (hperm.map Prod.snd)).2 hal
  funext r
  by_cases hr : r ∈ sm.m_systems.map Prod.snd
  · obtain ⟨⟨t, r1⟩, hmem, rfl⟩ := List.mem_map.1 hr
    rw [objects_entityComponentMaskChanged sm1 world e o n c
        (hal1.registeredOnlyAs (hperm.mem_iff.2 hmem)),
      objects_entityComponentMaskChanged sm world e o n c (hal.registeredOnlyAs hmem), hobjects]
    simp only [systemComponentMask, hmasks]
  · have hr1 : r ∉ sm1.m_systems.map Prod.snd :=
      fun h => hr ((hperm.map Prod.snd).mem_iff.1 h)
    rw [objects_entityComponentMaskChanged_of_not_mem sm1 world e o n c hr1,
      objects_entityComponentMaskChanged_of_not_mem sm world e o n c hr, hobjects]

/-- The order in which `entityDestroyed` visits the pairs of `m_systems` plays no part when
no object is registered under two type names. -/
theorem entityDestroyed_perm (sm sm1 : SystemManager V) (world : World V) (e : Entity)
    (m : ComponentMask) (hal : sm.Unaliased) (hperm : sm1.m_systems.Perm sm.m_systems)
    (hmasks : sm1.m_componentMasks = sm.m_componentMasks)
    (hobjects : sm1.objects = sm.objects) :
    (sm1.entityDestroyed world e m).objects = (sm.entityDestroyed world e m).objects := by
  have hal1 : sm1.Unaliased := (List.Perm.nodup_iff (hperm.map Prod.snd)).2 hal
  funext r
  by_cases hr : r ∈ sm.m_systems.map Prod.snd
  · obtain ⟨⟨t, r1⟩, hmem, rfl⟩ := List.mem_map.1 hr
    rw [objects_entityDestroyed sm1 world e m (hal1.registeredOnlyAs (hperm.mem_iff.2 hmem)),
      objects_entityDestroyed sm world e m (hal.registeredOnlyAs hmem), hobjects]
    simp only [systemComponentMask, hmasks]
  · have hr1 : r ∉ sm1.m_systems.map Prod.snd :=
      fun h => hr ((hperm.map Prod.snd).mem_iff.1 h)
    rw [objects_entityDestroyed_of_not_mem sm1 world e m hr1,
      objects_entityDestroyed_of_not_mem sm world e m hr, hobjects]

/-- Membership after one notification, for a system whose membership of `e` agreed
with the old mask: membership of `e` agrees with the new mask, other entities are
untouched. -/
theorem mem_entityComponentMaskChangedStep (system : System V) (world : World V) (e : Entity)
    (o n M : ComponentMask) (c : Component) (h : e ∈ system.entities ↔ o &&& M ≠ 0) (x : Entity) :
    x ∈ (entityComponentMaskChangedStep system world e o n M c).entities ↔
      (if x = e then n &&& M ≠ 0 else x ∈ system.entities) := by
  simp only [entityComponentMaskChangedStep]
  by_cases hx : x = e
  · subst hx
    simp only [if_true]
    by_cases hne : o &&& M = n &&& M
    · simp only [hne, ne_eq, not_true_eq_false, if_false]
      rw [h, hne]
    · simp only [ne_eq, hne, not_false_eq_true, if_true, gt_iff_lt]
      by_cases hgt : o &&& M < n &&& M
      · simp only [hgt, if_true]
        have hn0 : n &&& M ≠ 0 := Nat.ne_of_gt (Nat.lt_of_le_of_lt (Nat.zero_le _) hgt)
        by_cases ho : o &&& M = 0
        · simp [ho, System.insertEntity, System.onEntityComponentAdded, hn0]
        · simp only [ho, if_false, System.onEntityComponentAdded]
          simp [h, ho, hn0]
      · have hlt : n &&& M < o &&& M :=
          Nat.lt_of_le_of_ne (Nat.le_of_not_lt hgt) (Ne.symm hne)
        have ho : o &&& M ≠ 0 := Nat.ne_of_gt (Nat.lt_of_le_of_lt (Nat.zero_le _) hlt)
        simp only [hgt, if_false, hlt, if_true]
        by_cases hn0 : n &&& M = 0
        · simp [hn0, System.eraseEntity, System.onEntityComponentRemoved]
        · simp only [hn0, if_false, System.onEntityComponentRemoved]
          simp [h, ho, hn0]
  · simp only [hx, if_false]
    split
    · split
      · split <;> simp [System.insertEntity, System.onEntityComponentAdded, hx]
      · split
        · split <;> simp [System.eraseEntity, System.onEntityComponentRemoved, hx]
        · rfl
    · rfl

end SystemManager

namespace EntityManager

theorem createEntity_masks {em em1 : EntityManager} {id : Entity}
    (h : em.createEntity = Outcome.ok id em1) :
    em1.m_componentMasks = em.m_componentMasks ∧ id ∈ em.m_entities := by
  simp only [createEntity] at h
  split at h
  · split at h
    · simp at h
    · rename_i a rest hp
      simp only [Outcome.ok.injEq] at h
      obtain ⟨rfl, rfl⟩ := h
      exact ⟨rfl, by rw [hp]; exact List.mem_cons_self _ _⟩
  · simp at h

theorem createEntityNamed_masks {em em1 : EntityManager} {id : Entity} {name : String}
    (h : em.createEntityNamed name = Outcome.ok id em1) :
    em1.m_componentMasks = em.m_componentMasks ∧ id ∈ em.m_entities := by
  simp only [createEntityNamed] at h
  split at h
  · simp at h
  · split at h
    · simp at h
    · rename_i id1 em2 hc
      simp only [Outcome.ok.injEq] at h
      obtain ⟨rfl, rfl⟩ := h
      exact ⟨(createEntity_masks hc).1, (createEntity_masks hc).2⟩

end EntityManager

namespace ECS

variable {V : Type}

/-- What a successful `addComponent` did: the systems are notified last, in the world
that holds the new component and the new mask. -/
theorem addComponent_ok {ecs ecs1 : ECS V} {typeName : String} {e : Entity} {v : V}
    (h : ecs.addComponent typeName e v = Outcome.ok () ecs1) :
    ∃ cm id newMask, e < MAX_ENTITIES ∧
      ecs.m_componentManager.addComponent typeName e v = Outcome.ok () cm ∧
      cm.getComponentId typeName = some id ∧
      maskSet (ecs.m_entityManager.m_componentMasks e) id true = some newMask ∧
      ecs1 =
        { m_componentManager := cm
          m_entityManager :=
            { ecs.m_entityManager with
              m_componentMasks := Function.update ecs.m_entityManager.m_componentMasks e newMask }
          m_systemManager := ecs.m_systemManager.entityComponentMaskChanged
            { m_entityManager :=
                { ecs.m_entityManager with
                  m_componentMasks :=
                    Function.update ecs.m_entityManager.m_componentMasks e newMask }
              m_componentManager := cm }
            e (ecs.m_entityManager.m_componentMasks e) newMask id } := by
  simp only [addComponent] at h
  split at h
  · simp at h
  · rename_i u cm hcm
    simp only [EntityManager.getComponents, EntityManager.setComponents] at h
    by_cases he : e < MAX_ENTITIES
    · simp only [he, if_true] at h
      split at h
      · simp at h
      · rename_i id hid
        split at h
        · simp at h
        · rename_i newMask hmask
          simp only [Outcome.ok.injEq, true_and] at h
          exact ⟨cm, id, newMask, he, hcm, hid, hmask, h.symm⟩
    · simp [he] at h

/-- What a successful `removeComponent` did: the systems are notified in the world that
holds the new mask and the store as it was before the call; the store is updated last. -/
theorem removeComponent_ok {ecs ecs1 : ECS V} {typeName : String} {e : Entity}
    (h : ecs.removeComponent typeName e = Outcome.ok () ecs1) :
    ∃ cm id newMask, e < MAX_ENTITIES ∧
      ecs.m_componentManager.removeComponent typeName e = Outcome.ok () cm ∧
      ecs.m_componentManager.getComponentId typeName = some id ∧
      maskSet (ecs.m_entityManager.m_componentMasks e) id false = some newMask ∧
      ecs1 =
        { m_componentManager := cm
          m_entityManager :=
            { ecs.m_entityManager with
              m_componentMasks := Function.update ecs.m_entityManager.m_componentMasks e newMask }
          m_systemManager := ecs.m_systemManager.entityComponentMaskChanged
            { m_entityManager :=
                { ecs.m_entityManager with
                  m_componentMasks :=
                    Function.update ecs.m_entityManager.m_componentMasks e newMask }
              m_componentManager := ecs.m_componentManager }
            e (ecs.m_entityManager.m_componentMasks e) newMask id } := by
  simp only [removeComponent, EntityManager.getComponents, EntityManager.setComponents] at h
  by_cases he : e < MAX_ENTITIES
  · simp only [he, if_true] at h
    split at h
    · simp at h
    · rename_i id hid
      split at h
      · simp at h
      · rename_i newMask hmask
        split at h
        · simp at h
        · rename_i u cm hcm
          simp only [Outcome.ok.injEq, true_and] at h
          exact ⟨cm, id, newMask, he, hcm, hid, hmask, h.symm⟩
  · simp [he] at h

end ECS
namespace ECS

variable {V : Type}

theorem Unpopulated.membersHoldSome {ecs : ECS V} (h : ecs.Unpopulated) : ecs.MembersHoldSome := by
  intro type system hs e
  rw [h.2 type system hs, h.1 e]
  simp

/-- A single-entity mask change followed by the notification of the systems keeps
every membership set equal to the set of entities whose mask meets the interest mask,
provided no system object is registered twice. -/
theorem MembersHoldSome.maskChanged {ecs : ECS V} (h : ecs.MembersHoldSome)
    (hal : ecs.m_systemManager.Unaliased) {e : Entity}
    (he : e < MAX_ENTITIES) (cm : ComponentManager V) (world : World V) (newMask : ComponentMask)
    (id : Component) (em : EntityManager)
    (hem : em.m_componentMasks = Function.update ecs.m_entityManager.m_componentMasks e newMask) :
    ({ m_componentManager := cm
       m_entityManager := em
       m_systemManager := ecs.m_systemManager.entityComponentMaskChanged world e
         (ecs.m_entityManager.m_componentMasks e) newMask id } : ECS V).MembersHoldSome := by
  intro type r hs x
  have hs0 : (type, r) ∈ ecs.m_systemManager.m_systems := hs
  have h0 := h type r hs0
  simp only [SystemManager.objects_entityComponentMaskChanged _ _ _ _ _ _
    (hal.registeredOnlyAs hs0)]
  rw [SystemManager.mem_entityComponentMaskChangedStep _ _ _ _ _ _ _ (by
    rw [h0 e]; simp [he])]
  simp only [SystemManager.systemComponentMask_entityComponentMaskChanged, hem,
    Function.update_apply]
  by_cases hx : x = e
  · subst hx; simp [he]
  · simp only [hx, if_false]
    exact h0 x

theorem MembersHoldSome.some_addComponent {ecs ecs1 : ECS V} (h : ecs.MembersHoldSome)
    (hal : ecs.m_systemManager.Unaliased) {typeName : String} {e : Entity} {v : V}
    (hc : ecs.addComponent typeName e v = Outcome.ok () ecs1) : ecs1.MembersHoldSome := by
  obtain ⟨cm, id, newMask, he, _, _, _, rfl⟩ := addComponent_ok hc
  exact h.maskChanged hal he cm _ newMask id _ rfl

theorem MembersHoldSome.some_removeComponent {ecs ecs1 : ECS V} (h : ecs.MembersHoldSome)
    (hal : ecs.m_systemManager.Unaliased) {typeName : String} {e : Entity}
    (hc : ecs.removeComponent typeName e = Outcome.ok () ecs1) : ecs1.MembersHoldSome := by
  obtain ⟨cm, id, newMask, he, _, _, _, rfl⟩ := removeComponent_ok hc
  exact h.maskChanged hal he cm _ newMask id _ rfl

/-- The membership property only reads the mask table and the system manager. -/
theorem MembersHoldSome.congr {ecs ecs1 : ECS V} (h : ecs.MembersHoldSome)
    (hm : ecs1.m_entityManager.m_componentMasks = ecs.m_entityManager.m_componentMasks)
    (hs : ecs1.m_systemManager = ecs.m_systemManager) : ecs1.MembersHoldSome := by
  intro type system hsys x
  rw [hm, hs]
  rw [hs] at hsys
  exact h type system hsys x

theorem MembersHoldSome.some_createEntity [Inhabited V] {ecs ecs1 : ECS V} (h : ecs.MembersHoldSome)
    (hal : ecs.m_systemManager.Unaliased)
    {id : Entity} (hc : ecs.createEntity = Outcome.ok id ecs1) : ecs1.MembersHoldSome := by
  simp only [ECS.createEntity] at hc
  split at hc
  · simp at hc
  · rename_i newEntity em hem
    split at hc
    · simp at hc
    · rename_i u st hadd
      simp only [Outcome.ok.injEq] at hc
      obtain ⟨_, rfl⟩ := hc
      have h1 : ({ ecs with m_entityManager := em } : ECS V).MembersHoldSome :=
        h.congr (EntityManager.createEntity_masks hem).1 rfl
      exact h1.some_addComponent hal hadd

theorem MembersHoldSome.some_createEntityNamed [Inhabited V] {ecs ecs1 : ECS V}
    (h : ecs.MembersHoldSome) (hal : ecs.m_systemManager.Unaliased) {name : String} {id : Entity}
    (hc : ecs.createEntityNamed name = Outcome.ok id ecs1) : ecs1.MembersHoldSome := by
  simp only [ECS.createEntityNamed] at hc
  split at hc
  · simp at hc
  · rename_i newEntity em hem
    split at hc
    · simp at hc
    · rename_i u st hadd
      simp only [Outcome.ok.injEq] at hc
      obtain ⟨_, rfl⟩ := hc
      have h1 : ({ ecs with m_entityManager := em } : ECS V).MembersHoldSome :=
        h.congr (EntityManager.createEntityNamed_masks hem).1 rfl
      exact h1.some_addComponent hal hadd

theorem state?_eq_some {σ α : Type} {o : Outcome σ α} {s : σ} (h : o.state? = some s) :
    ∃ a, o = Outcome.ok a s := by
  cases o with
  | ok a s1 =>
    simp only [Outcome.state?, Option.some.injEq] at h
    exact ⟨a, by rw [h]⟩
  | failed s1 => simp [Outcome.state?] at h

theorem MembersHoldSome.some_step [Inhabited V] {ecs ecs1 : ECS V} (h : ecs.MembersHoldSome)
    (hal : ecs.m_systemManager.Unaliased)
    {c : Call V} (hc : c.isCreateAddRemove = true) (hs : ecs.step c = some ecs1) :
    ecs1.MembersHoldSome := by
  cases c with
  | createEntity =>
    obtain ⟨a, ha⟩ := state?_eq_some hs
    exact h.some_createEntity hal ha
  | createEntityNamed name =>
    obtain ⟨a, ha⟩ := state?_eq_some hs
    exact h.some_createEntityNamed hal ha
  | addComponent t e v =>
    obtain ⟨a, ha⟩ := state?_eq_some hs
    exact h.some_addComponent hal ha
  | removeComponent t e =>
    obtain ⟨a, ha⟩ := state?_eq_some hs
    exact h.some_removeComponent hal ha
  | destroyEntity e => simp [Call.isCreateAddRemove] at hc
  | setEntityName e n => simp [Call.isCreateAddRemove] at hc
  | registerComponent t => simp [Call.isCreateAddRemove] at hc
  | registerSystem t s => simp [Call.isCreateAddRemove] at hc
  | setSystemComponents t m => simp [Call.isCreateAddRemove] at hc

/-- The systems: which pointers are registered, and with which interest mask. -/
theorem addComponent_systems {ecs ecs1 : ECS V} {typeName : String} {e : Entity} {v : V}
    (hc : ecs.addComponent typeName e v = Outcome.ok () ecs1) :
    ecs1.m_systemManager.m_systems = ecs.m_systemManager.m_systems ∧
    ∀ type, ecs1.m_systemManager.systemComponentMask type =
      ecs.m_systemManager.systemComponentMask type := by
  obtain ⟨cm, id, newMask, _, _, _, _, rfl⟩ := addComponent_ok hc
  exact ⟨rfl, fun type => by simp⟩

theorem removeComponent_systems {ecs ecs1 : ECS V} {typeName : String} {e : Entity}
    (hc : ecs.removeComponent typeName e = Outcome.ok () ecs1) :
    ecs1.m_systemManager.m_systems = ecs.m_systemManager.m_systems ∧
    ∀ type, ecs1.m_systemManager.systemComponentMask type =
      ecs.m_systemManager.systemComponentMask type := by
  obtain ⟨cm, id, newMask, _, _, _, _, rfl⟩ := removeComponent_ok hc
  exact ⟨rfl, fun type => by simp⟩

theorem step_systems [Inhabited V] {ecs ecs1 : ECS V} {c : Call V}
    (hc : c.isCreateAddRemove = true) (hs : ecs.step c = some ecs1) :
    ecs1.m_systemManager.m_systems = ecs.m_systemManager.m_systems ∧
    ∀ type, ecs1.m_systemManager.systemComponentMask type =
      ecs.m_systemManager.systemComponentMask type := by
  cases c with
  | createEntity =>
    obtain ⟨a, ha⟩ := state?_eq_some hs
    simp only [ECS.createEntity] at ha
    split at ha
    · simp at ha
    · split at ha
      · simp at ha
      · rename_i u st hadd
        simp only [Outcome.ok.injEq] at ha
        obtain ⟨_, rfl⟩ := ha
        have h := addComponent_systems hadd
        exact h
  | createEntityNamed name =>
    obtain ⟨a, ha⟩ := state?_eq_some hs
    simp only [ECS.createEntityNamed] at ha
    split at ha
    · simp at ha
    · split at ha
      · simp at ha
      · rename_i u st hadd
        simp only [Outcome.ok.injEq] at ha
        obtain ⟨_, rfl⟩ := ha
        have h := addComponent_systems hadd
        exact h
  | addComponent t e v =>
    obtain ⟨a, ha⟩ := state?_eq_some hs
    exact addComponent_systems ha
  | removeComponent t e =>
    obtain ⟨a, ha⟩ := state?_eq_some hs
    exact removeComponent_systems ha
  | destroyEntity e => simp [Call.isCreateAddRemove] at hc
  | setEntityName e n => simp [Call.isCreateAddRemove] at hc
  | registerComponent t => simp [Call.isCreateAddRemove] at hc
  | registerSystem t s => simp [Call.isCreateAddRemove] at hc
  | setSystemComponents t m => simp [Call.isCreateAddRemove] at hc

theorem MembersHoldSome.some_run [Inhabited V] (calls : List (Call V)) : ∀ (ecs ecs1 : ECS V),
    ecs.MembersHoldSome → ecs.m_systemManager.Unaliased →
    (∀ c ∈ calls, c.isCreateAddRemove = true) →
    ecs.run calls = some ecs1 →
    ecs1.MembersHoldSome ∧
      ecs1.m_systemManager.m_systems = ecs.m_systemManager.m_systems ∧
      ∀ type, ecs1.m_systemManager.systemComponentMask type =
        ecs.m_systemManager.systemComponentMask type := by
  induction calls with
  | nil =>
    intro ecs ecs1 h _ _ hr
    simp only [ECS.run, Option.some.injEq] at hr
    subst hr
    exact ⟨h, rfl, fun _ => rfl⟩
  | cons c cs ih =>
    intro ecs ecs1 h hal hall hr
    simp only [ECS.run] at hr
    cases hs : ecs.step c with
    | none => simp [hs] at hr
    | some ecs2 =>
      simp only [hs] at hr
      have hc := hall c (List.mem_cons_self _ _)
      obtain ⟨hsys, hmask⟩ := step_systems hc hs
      obtain ⟨h3, hsys3, hmask3⟩ := ih ecs2 ecs1 (h.some_step hal hc hs)
        (by unfold SystemManager.Unaliased; rw [hsys]; exact hal)
        (fun c1 hc1 => hall c1 (List.mem_cons_of_mem _ hc1)) hr
      exact ⟨h3, hsys3.trans hsys, fun type => (hmask3 type).trans (hmask type)⟩

end ECS

/-- C1 (amended): start from a facade state in which no entity holds a component, no
registered system has a member (types and systems registered, no entity created) and
no `System` object is registered under two type names. After any sequence of successful
`createEntity` / `addComponent` / `removeComponent` calls the registered systems and
their interest masks are the same, and for every registered system `S` with interest
mask `M`, `S.entities` is exactly the set `{ e : mask(e) & M != 0 }` of the entities
holding at least one component of `M`. -/
theorem membership_invariant {V : Type} [Inhabited V] (s0 s : ECS V) (calls : List (Call V))
    (hstart : s0.Unpopulated)
    (hdistinct : s0.m_systemManager.Unaliased)
    (hcalls : ∀ c ∈ calls, c.isCreateAddRemove = true)
    (hrun : s0.run calls = some s) :
    s.m_systemManager.m_systems = s0.m_systemManager.m_systems ∧
    (∀ type,
      s.m_systemManager.systemComponentMask type = s0.m_systemManager.systemComponentMask type) ∧
    ∀ type system, (type, system) ∈ s.m_systemManager.m_systems →
      ∀ e, e ∈ (s.m_systemManager.objects system).entities ↔
        (e < MAX_ENTITIES ∧
          s.m_entityManager.m_componentMasks e &&& s.m_systemManager.systemComponentMask type ≠ 0) :=
  ⟨(ECS.MembersHoldSome.some_run calls s0 s hstart.membersHoldSome hdistinct hcalls hrun).2.1,
    (ECS.MembersHoldSome.some_run calls s0 s hstart.membersHoldSome hdistinct hcalls hrun).2.2,
    (ECS.MembersHoldSome.some_run calls s0 s hstart.membersHoldSome hdistinct hcalls hrun).1⟩
namespace ECS

variable {V : Type}

/-- `addComponent` on an entity below `MAX_ENTITIES`, for a registered type whose id is
below `MAX_COMPONENTS` and whose store does not hold the entity: the call succeeds. -/
theorem addComponent_eq (ecs : ECS V) {typeName : String} {e : Entity} (v : V) {id : Component}
    {ca : ComponentArray V} (hT : ecs.m_componentManager.m_componentTypes typeName = some id)
    (hca : ecs.m_componentManager.m_componentArrays typeName = some ca)
    (habs : ca.m_entityToIndex e = none) (he : e < MAX_ENTITIES) (hid : id < MAX_COMPONENTS) :
    ecs.addComponent typeName e v = Outcome.ok ()
      { m_componentManager :=
          { ecs.m_componentManager with
            m_componentArrays := Function.update ecs.m_componentManager.m_componentArrays typeName
              (some
                { m_entityToIndex := Function.update ca.m_entityToIndex e (some ca.m_validSize)
                  m_indexToEntity := Function.update ca.m_indexToEntity ca.m_validSize (some e)
                  m_components := Function.update ca.m_components ca.m_validSize v
                  m_validSize := ca.m_validSize + 1 }) }
        m_entityManager :=
          { ecs.m_entityManager with
            m_componentMasks := Function.update ecs.m_entityManager.m_componentMasks e
              (ecs.m_entityManager.m_componentMasks e ||| 1 <<< id) }
        m_systemManager := ecs.m_systemManager.entityComponentMaskChanged
          { m_entityManager :=
              { ecs.m_entityManager with
                m_componentMasks := Function.update ecs.m_entityManager.m_componentMasks e
                  (ecs.m_entityManager.m_componentMasks e ||| 1 <<< id) }
            m_componentManager :=
              { ecs.m_componentManager with
                m_componentArrays :=
                  Function.update ecs.m_componentManager.m_componentArrays typeName
                    (some
                      { m_entityToIndex :=
                          Function.update ca.m_entityToIndex e (some ca.m_validSize)
                        m_indexToEntity :=
                          Function.update ca.m_indexToEntity ca.m_validSize (some e)
                        m_components := Function.update ca.m_components ca.m_validSize v
                        m_validSize := ca.m_validSize + 1 }) } }
          e (ecs.m_entityManager.m_componentMasks e)
          (ecs.m_entityManager.m_componentMasks e ||| 1 <<< id) id } := by
  simp only [addComponent, ComponentManager.addComponent, ComponentManager.getComponentArray, hT,
    hca, ComponentArray.insertData, habs, EntityManager.getComponents, he, if_true,
    ComponentManager.getComponentId, maskSet, hid, EntityManager.setComponents, ECS.world]

/-- `removeComponent` on an entity below `MAX_ENTITIES`, for a registered type whose id is
below `MAX_COMPONENTS` and whose store holds the entity: the call succeeds. -/
theorem removeComponent_eq (ecs : ECS V) {typeName : String} {e : Entity} {id : Component}
    {ca : ComponentArray V} {i : Nat}
    (hT : ecs.m_componentManager.m_componentTypes typeName = some id)
    (hca : ecs.m_componentManager.m_componentArrays typeName = some ca)
    (hpres : ca.m_entityToIndex e = some i) (he : e < MAX_ENTITIES) (hid : id < MAX_COMPONENTS) :
    ∃ ca1, ca.removeData e = Outcome.ok () ca1 ∧
    ecs.removeComponent typeName e = Outcome.ok ()
      { m_componentManager :=
          { ecs.m_componentManager with
            m_componentArrays :=
              Function.update ecs.m_componentManager.m_componentArrays typeName (some ca1) }
        m_entityManager :=
          { ecs.m_entityManager with
            m_componentMasks := Function.update ecs.m_entityManager.m_componentMasks e
              (ecs.m_entityManager.m_componentMasks e &&&
                ((2 ^ MAX_COMPONENTS - 1) ^^^ 1 <<< id)) }
        m_systemManager := ecs.m_systemManager.entityComponentMaskChanged
          { m_entityManager :=
              { ecs.m_entityManager with
                m_componentMasks := Function.update ecs.m_entityManager.m_componentMasks e
                  (ecs.m_entityManager.m_componentMasks e &&&
                    ((2 ^ MAX_COMPONENTS - 1) ^^^ 1 <<< id)) }
            m_componentManager := ecs.m_componentManager }
          e (ecs.m_entityManager.m_componentMasks e)
          (ecs.m_entityManager.m_componentMasks e &&& ((2 ^ MAX_COMPONENTS - 1) ^^^ 1 <<< id))
          id } := by
  have h1 : ∃ ca1, ca.removeData e = Outcome.ok () ca1 := by
    simp only [ComponentArray.removeData, hpres]
    exact ⟨_, rfl⟩
  obtain ⟨ca1, hca1⟩ := h1
  refine ⟨ca1, hca1, ?_⟩
  simp only [removeComponent, ComponentManager.removeComponent,
    ComponentManager.getComponentArray, hT, hca, hca1, EntityManager.getComponents, he, if_true,
    ComponentManager.getComponentId, maskSet, hid, EntityManager.setComponents, ECS.world]
  simp

/-- The state after a successful `addComponent`, field by field; the systems are
notified in the final world. -/
theorem addComponent_effect (ecs : ECS V) {typeName : String} {e : Entity} (v : V)
    {id : Component} {ca : ComponentArray V}
    (hT : ecs.m_componentManager.m_componentTypes typeName = some id)
    (hca : ecs.m_componentManager.m_componentArrays typeName = some ca)
    (habs : ca.m_entityToIndex e = none) (he : e < MAX_ENTITIES) (hid : id < MAX_COMPONENTS) :
    ∃ ecs1, ecs.addComponent typeName e v = Outcome.ok () ecs1 ∧
      ecs1.m_componentManager.m_componentTypes = ecs.m_componentManager.m_componentTypes ∧
      (∀ t, t ≠ typeName →
        ecs1.m_componentManager.m_componentArrays t = ecs.m_componentManager.m_componentArrays t) ∧
      (∃ ca1, ecs1.m_componentManager.m_componentArrays typeName = some ca1 ∧
        ca1.m_entityToIndex e = some ca.m_validSize ∧ ca1.m_components ca.m_validSize = v) ∧
      ecs1.m_entityManager.m_componentMasks =
        Function.update ecs.m_entityManager.m_componentMasks e
          (ecs.m_entityManager.m_componentMasks e ||| 1 <<< id) ∧
      ecs1.m_systemManager = ecs.m_systemManager.entityComponentMaskChanged ecs1.world e
        (ecs.m_entityManager.m_componentMasks e)
        (ecs.m_entityManager.m_componentMasks e ||| 1 <<< id) id := by
  refine ⟨_, addComponent_eq ecs v hT hca habs he hid, rfl, ?_, ?_, rfl, rfl⟩
  · intro t ht
    simp [Function.update_apply, ht]
  · exact ⟨{ m_entityToIndex := Function.update ca.m_entityToIndex e (some ca.m_validSize)
             m_indexToEntity := Function.update ca.m_indexToEntity ca.m_validSize (some e)
             m_components := Function.update ca.m_components ca.m_validSize v
             m_validSize := ca.m_validSize + 1 }, by simp, by simp, by simp⟩

/-- The state after a successful `removeComponent`, field by field; the systems are
notified in the world that has the new mask and the store as it was. -/
theorem removeComponent_effect (ecs : ECS V) {typeName : String} {e : Entity} {id : Component}
    {ca : ComponentArray V} {i : Nat}
    (hT : ecs.m_componentManager.m_componentTypes typeName = some id)
    (hca : ecs.m_componentManager.m_componentArrays typeName = some ca)
    (hpres : ca.m_entityToIndex e = some i) (he : e < MAX_ENTITIES) (hid : id < MAX_COMPONENTS) :
    ∃ ecs1, ecs.removeComponent typeName e = Outcome.ok () ecs1 ∧
      ecs1.m_componentManager.m_componentTypes = ecs.m_componentManager.m_componentTypes ∧
      (∀ t, t ≠ typeName →
        ecs1.m_componentManager.m_componentArrays t = ecs.m_componentManager.m_componentArrays t) ∧
      (∃ ca1, ecs1.m_componentManager.m_componentArrays typeName = some ca1 ∧
        ca.removeData e = Outcome.ok () ca1) ∧
      ecs1.m_entityManager.m_componentMasks =
        Function.update ecs.m_entityManager.m_componentMasks e
          (ecs.m_entityManager.m_componentMasks e &&& ((2 ^ MAX_COMPONENTS - 1) ^^^ 1 <<< id)) ∧
      ecs1.m_systemManager = ecs.m_systemManager.entityComponentMaskChanged
        { m_entityManager := ecs1.m_entityManager
          m_componentManager := ecs.m_componentManager } e
        (ecs.m_entityManager.m_componentMasks e)
        (ecs.m_entityManager.m_componentMasks e &&& ((2 ^ MAX_COMPONENTS - 1) ^^^ 1 <<< id))
        id := by
  obtain ⟨ca1, hca1, h⟩ := removeComponent_eq ecs hT hca hpres he hid
  refine ⟨_, h, rfl, ?_, ?_, rfl, rfl⟩
  · intro t ht
    simp [Function.update_apply, ht]
  · exact ⟨ca1, by simp, hca1⟩

end ECS

/-! ### Mask arithmetic for a two-bit interest mask -/

theorem mask3_add0 (m : Nat) (h : m &&& 3 = 0) : (m ||| 1 <<< 0) &&& 3 = 1 := by
  rw [Nat.and_comm, Nat.and_or_distrib_left, Nat.and_comm 3 m, h]
  decide

theorem mask3_add1 (m : Nat) (h : m &&& 3 = 0) : (m ||| 1 <<< 0 ||| 1 <<< 1) &&& 3 = 3 := by
  rw [Nat.and_comm, Nat.and_or_distrib_left, Nat.and_or_distrib_left, Nat.and_comm 3 m, h]
  decide

theorem mask3_remove0 (m : Nat) (h : m &&& 3 = 0) :
    ((m ||| 1 <<< 0 ||| 1 <<< 1) &&& ((2 ^ MAX_COMPONENTS - 1) ^^^ 1 <<< 0)) &&& 3 = 2 := by
  have h2 : ((2 ^ MAX_COMPONENTS - 1) ^^^ 1 <<< 0) &&& 3 = 2 := by decide
  have h3 : m &&& 2 = 0 := by
    have h32 : (3 &&& 2 : Nat) = 2 := by decide
    have : m &&& 2 = (m &&& 3) &&& 2 := by
      rw [Nat.and_assoc, h32]
    rw [this, h]
    decide
  rw [Nat.and_assoc, h2, Nat.and_comm, Nat.and_or_distrib_left, Nat.and_or_distrib_left,
    Nat.and_comm 2 m, h3]
  decide

namespace SystemManager

variable {V : Type}

/-- The notification step when the relevant part of the mask grew: the hook is invoked
on the system as it is, then the entity is inserted if it is new in the system. -/
theorem entityComponentMaskChangedStep_added (system : System V) (world : World V) (e : Entity)
    (o n M : ComponentMask) (c : Component) (h : o &&& M < n &&& M) :
    entityComponentMaskChangedStep system world e o n M c =
      if o &&& M = 0 then (system.onEntityComponentAdded world e c).insertEntity e
      else system.onEntityComponentAdded world e c := by
  simp only [entityComponentMaskChangedStep, ne_eq, Nat.ne_of_lt h, not_false_eq_true, if_true,
    gt_iff_lt, h]

/-- The notification step when the relevant part of the mask shrank: the hook is invoked
on the system as it is, then the entity is erased if it has no more component for the
system. -/
theorem entityComponentMaskChangedStep_removed (system : System V) (world : World V)
    (e : Entity) (o n M : ComponentMask) (c : Component) (h : n &&& M < o &&& M) :
    entityComponentMaskChangedStep system world e o n M c =
      if n &&& M = 0 then (system.onEntityComponentRemoved world e c).eraseEntity e
      else system.onEntityComponentRemoved world e c := by
  simp only [entityComponentMaskChangedStep, ne_eq, Nat.ne_of_gt h, not_false_eq_true, if_true,
    gt_iff_lt, Nat.lt_asymm h, if_false, h]

end SystemManager

/-- C10 (amended): types `A` (id 0) and `B` (id 1) are registered, the system `S` is
registered (its object under this type name only) with interest mask `{A, B}`, entity `e`
holds neither `A` nor `B`. Then `addComponent<A>(e)` fires `S.onEntityComponentAdded(e, 0)`
and inserts `e` into `S.entities`; `addComponent<B>(e)` fires
`S.onEntityComponentAdded(e, 1)` and leaves `S.entities` as it is;
`removeComponent<A>(e)` fires `S.onEntityComponentRemoved(e, 0)` and leaves `S.entities`
as it is, so that `e` is still a member. Each hook is recorded with the `entities` and the
world it is invoked in. -/
theorem end_to_end_scenario {V : Type} (ecs : ECS V) (A B S : String) (e : Entity) (a b : V)
    (system : SystemRef)
    (hA : ecs.getComponentId A = some 0) (hB : ecs.getComponentId B = some 1)
    (hasA : ecs.hasComponent A e = some false) (hasB : ecs.hasComponent B e = some false)
    (he : e < MAX_ENTITIES)
    (hm : ecs.m_entityManager.m_componentMasks e &&& 3 = 0)
    (hS : ecs.m_systemManager.RegisteredOnlyAs system S)
    (hM : ecs.m_systemManager.systemComponentMask S = 3) :
    ∃ ecs1 ecs2 ecs3,
      ecs.addComponent A e a = Outcome.ok () ecs1 ∧
      (ecs1.m_systemManager.objects system).calls =
        (ecs.m_systemManager.objects system).calls ++
          [{ call := HookCall.onEntityComponentAdded e 0
             entities := (ecs.m_systemManager.objects system).entities
             world := ecs1.world }] ∧
      (ecs1.m_systemManager.objects system).entities =
        (ecs.m_systemManager.objects system).entities.insert e ∧
      ecs1.addComponent B e b = Outcome.ok () ecs2 ∧
      (ecs2.m_systemManager.objects system).calls =
        (ecs1.m_systemManager.objects system).calls ++
          [{ call := HookCall.onEntityComponentAdded e 1
             entities := (ecs1.m_systemManager.objects system).entities
             world := ecs2.world }] ∧
      (ecs2.m_systemManager.objects system).entities =
        (ecs1.m_systemManager.objects system).entities ∧
      ecs2.removeComponent A e = Outcome.ok () ecs3 ∧
      (ecs3.m_systemManager.objects system).calls =
        (ecs2.m_systemManager.objects system).calls ++
          [{ call := HookCall.onEntityComponentRemoved e 0
             entities := (ecs2.m_systemManager.objects system).entities
             world :=
               { m_entityManager := ecs3.m_entityManager
                 m_componentManager := ecs2.m_componentManager } }] ∧
      (ecs3.m_systemManager.objects system).entities =
        (ecs2.m_systemManager.objects system).entities ∧
      e ∈ (ecs3.m_systemManager.objects system).entities := by
  simp only [ECS.getComponentId, ComponentManager.getComponentId] at hA hB
  have hAB : A ≠ B := by
    intro h
    rw [h, hB] at hA
    simp at hA
  simp only [ECS.hasComponent, ComponentManager.hasComponent, ComponentManager.getComponentArray,
    hA, hB] at hasA hasB
  cases hcaA : ecs.m_componentManager.m_componentArrays A with
  | none => simp [hcaA] at hasA
  | some caA =>
  cases hcaB : ecs.m_componentManager.m_componentArrays B with
  | none => simp [hcaB] at hasB
  | some caB =>
  have hasA1 : caA.m_entityToIndex e = none := by
    cases hx : caA.m_entityToIndex e with
    | none => rfl
    | some i => simp [hcaA, ComponentArray.hasComponent, hx] at hasA
  have hasB1 : caB.m_entityToIndex e = none := by
    cases hx : caB.m_entityToIndex e with
    | none => rfl
    | some i => simp [hcaB, ComponentArray.hasComponent, hx] at hasB
  have e1 : ∀ (sys : System V) (world : World V),
      SystemManager.entityComponentMaskChangedStep sys world e
        (ecs.m_entityManager.m_componentMasks e)
        (ecs.m_entityManager.m_componentMasks e ||| 1 <<< 0) 3 0 =
      (sys.onEntityComponentAdded world e 0).insertEntity e := by
    intro sys world
    rw [SystemManager.entityComponentMaskChangedStep_added _ _ _ _ _ _ _
      (by rw [hm, mask3_add0 _ hm]; decide), if_pos hm]
  have e2 : ∀ (sys : System V) (world : World V),
      SystemManager.entityComponentMaskChangedStep sys world e
        (ecs.m_entityManager.m_componentMasks e ||| 1 <<< 0)
        (ecs.m_entityManager.m_componentMasks e ||| 1 <<< 0 ||| 1 <<< 1) 3 1 =
      sys.onEntityComponentAdded world e 1 := by
    intro sys world
    rw [SystemManager.entityComponentMaskChangedStep_added _ _ _ _ _ _ _
      (by rw [mask3_add0 _ hm, mask3_add1 _ hm]; decide),
      if_neg (by rw [mask3_add0 _ hm]; decide)]
  have e3 : ∀ (sys : System V) (world : World V),
      SystemManager.entityComponentMaskChangedStep sys world e
        (ecs.m_entityManager.m_componentMasks e ||| 1 <<< 0 ||| 1 <<< 1)
        ((ecs.m_entityManager.m_componentMasks e ||| 1 <<< 0 ||| 1 <<< 1) &&&
          ((2 ^ MAX_COMPONENTS - 1) ^^^ 1 <<< 0)) 3 0 =
      sys.onEntityComponentRemoved world e 0 := by
    intro sys world
    rw [SystemManager.entityComponentMaskChangedStep_removed _ _ _ _ _ _ _
      (by rw [mask3_add1 _ hm, mask3_remove0 _ hm]; decide),
      if_neg (by rw [mask3_remove0 _ hm]; decide)]
  -- first call: `A` is added
  obtain ⟨ecs1, h1, hty1, harr1, ⟨caA1, hcaA1, hidxA1, _⟩, hmask1, hsm1⟩ :=
    ECS.addComponent_effect ecs a hA hcaA hasA1 he (by decide)
  have hO1 : ecs1.m_systemManager.objects system =
      ((ecs.m_systemManager.objects system).onEntityComponentAdded ecs1.world e 0).insertEntity
        e := by
    rw [hsm1, SystemManager.objects_entityComponentMaskChanged _ _ _ _ _ _ hS, hM, e1]
  have hS1 : ecs1.m_systemManager.RegisteredOnlyAs system S := by
    rw [hsm1]
    exact hS
  have hM1 : ecs1.m_systemManager.systemComponentMask S = 3 := by rw [hsm1]; simpa using hM
  have hm1 : ecs1.m_entityManager.m_componentMasks e =
      ecs.m_entityManager.m_componentMasks e ||| 1 <<< 0 := by
    rw [hmask1]; exact Function.update_same _ _ _
  -- second call: `B` is added
  obtain ⟨ecs2, h2, hty2, harr2, ⟨caB2, hcaB2, _, _⟩, hmask2, hsm2⟩ :=
    ECS.addComponent_effect ecs1 b (by rw [hty1]; exact hB)
      (by rw [harr1 B (Ne.symm hAB)]; exact hcaB) hasB1 he (by decide)
  have hO2 : ecs2.m_systemManager.objects system =
      (ecs1.m_systemManager.objects system).onEntityComponentAdded ecs2.world e 1 := by
    rw [hsm2, SystemManager.objects_entityComponentMaskChanged _ _ _ _ _ _ hS1, hM1, hm1, e2]
  have hS2 : ecs2.m_systemManager.RegisteredOnlyAs system S := by
    rw [hsm2]
    exact hS1
  have hM2 : ecs2.m_systemManager.systemComponentMask S = 3 := by rw [hsm2]; simpa using hM1
  have hm2 : ecs2.m_entityManager.m_componentMasks e =
      ecs.m_entityManager.m_componentMasks e ||| 1 <<< 0 ||| 1 <<< 1 := by
    rw [hmask2, hm1]; exact Function.update_same _ _ _
  -- third call: `A` is removed
  obtain ⟨ecs3, h3, _, _, _, _, hsm3⟩ :=
    ECS.removeComponent_effect ecs2 (by rw [hty2, hty1]; exact hA)
      (by rw [harr2 A hAB]; exact hcaA1) hidxA1 he (by decide)
  have hO3 : ecs3.m_systemManager.objects system =
      (ecs2.m_systemManager.objects system).onEntityComponentRemoved
        { m_entityManager := ecs3.m_entityManager
          m_componentManager := ecs2.m_componentManager } e 0 := by
    rw [hsm3, SystemManager.objects_entityComponentMaskChanged _ _ _ _ _ _ hS2, hM2, hm2, e3]
  refine ⟨ecs1, ecs2, ecs3, h1, ?_, ?_, h2, ?_, ?_, h3, ?_, ?_, ?_⟩
  · rw [hO1]; rfl
  · rw [hO1]; rfl
  · rw [hO2]; rfl
  · rw [hO2]; rfl
  · rw [hO3]; rfl
  · rw [hO3]; rfl
  · rw [hO3, hO2, hO1]
    simp [System.onEntityComponentRemoved, System.onEntityComponentAdded, System.insertEntity]
/-! ### The sample scenario -/

theorem sampleRegistered_run :
    (ECS.init : ECS Nat).run sampleRegistration = some ECS.sampleRegistered := rfl

theorem sampleRegistered_unpopulated : ECS.sampleRegistered.Unpopulated := by
  constructor
  · intro e; rfl
  · intro type system _
    rfl

theorem sampleRegistered_unaliased : ECS.sampleRegistered.m_systemManager.Unaliased := by
  decide

set_option maxRecDepth 100000 in
theorem sampleWithA_run :
    ECS.sampleRegistered.run [Call.createEntity, Call.addComponent "A" 0 7] =
      some ECS.sampleWithA := rfl

set_option maxRecDepth 100000 in
/-- C1, the claim as stated fails: on a fresh ECS register `A` (bit 0), `B` (bit 1),
`Transform` (bit 2) and a system `S` (the object at address `0`) with interest mask
`{A, B}`; then `createEntity()` returns entity `0` and `addComponent<A>(0)` succeeds.
Entity `0` is now in `S.entities` although its mask (`A` and `Transform`) does not
contain `B`. -/
theorem membership_all_counterexample :
    (ECS.init : ECS Nat).run sampleRegistration = some ECS.sampleRegistered ∧
    ECS.sampleRegistered.Unpopulated ∧
    ECS.sampleRegistered.m_systemManager.Unaliased ∧
    ECS.sampleRegistered.run [Call.createEntity, Call.addComponent "A" 0 7] =
      some ECS.sampleWithA ∧
    ECS.sampleWithA.m_systemManager.m_systems = [("S", 0)] ∧
    (ECS.sampleWithA.m_systemManager.objects 0).entities = [0] ∧
    ECS.sampleWithA.m_systemManager.systemComponentMask "S" = 3 ∧
    ECS.sampleWithA.m_entityManager.m_componentMasks 0 = 5 ∧
    ¬ ECS.sampleWithA.MembersHoldAll := by
  refine ⟨rfl, sampleRegistered_unpopulated, sampleRegistered_unaliased, sampleWithA_run,
    by decide, by decide, by decide, by decide, ?_⟩
  intro hall
  have h := hall "S" 0 (by decide) 0
  exact absurd (h.1 (by decide)).2 (by decide)

set_option maxRecDepth 100000 in
/-- C1 (amended), an instance: the sample registration, then `createEntity()` and
`addComponent<A>(0)`. -/
theorem membership_invariant_witness :
    ECS.sampleRegistered.Unpopulated ∧
    ECS.sampleRegistered.m_systemManager.Unaliased ∧
    (∀ c ∈ [Call.createEntity, Call.addComponent "A" 0 (7 : Nat)],
      c.isCreateAddRemove = true) ∧
    ECS.sampleRegistered.run [Call.createEntity, Call.addComponent "A" 0 7] =
      some ECS.sampleWithA ∧
    ECS.sampleWithA.m_systemManager.m_systems = ECS.sampleRegistered.m_systemManager.m_systems ∧
    (∀ type,
      ECS.sampleWithA.m_systemManager.systemComponentMask type =
        ECS.sampleRegistered.m_systemManager.systemComponentMask type) ∧
    ∀ type system, (type, system) ∈ ECS.sampleWithA.m_systemManager.m_systems →
      ∀ e, e ∈ (ECS.sampleWithA.m_systemManager.objects system).entities ↔
        (e < MAX_ENTITIES ∧
          ECS.sampleWithA.m_entityManager.m_componentMasks e &&&
            ECS.sampleWithA.m_systemManager.systemComponentMask type ≠ 0) :=
  ⟨sampleRegistered_unpopulated, sampleRegistered_unaliased, by decide, sampleWithA_run,
    membership_invariant ECS.sampleRegistered ECS.sampleWithA
      [Call.createEntity, Call.addComponent "A" 0 7] sampleRegistered_unpopulated
      sampleRegistered_unaliased (by decide) sampleWithA_run⟩
set_option maxRecDepth 100000 in
/-- C10, the claim as stated fails: in the sample scenario (`A` id 0, `B` id 1, `S` with
interest mask `{A, B}`, entity `0` created and holding neither `A` nor `B`),
`addComponent<A>(0)` already puts entity `0` into `S.entities`, which the claim says is
left empty, and after `addComponent<B>(0)` and `removeComponent<A>(0)` entity `0` is still
in `S.entities`, which the claim says it has been removed from. The hooks fire as
claimed. -/
theorem end_to_end_counterexample :
    ECS.sampleCreated.getComponentId "A" = some 0 ∧
    ECS.sampleCreated.getComponentId "B" = some 1 ∧
    ECS.sampleCreated.hasComponent "A" 0 = some false ∧
    ECS.sampleCreated.hasComponent "B" 0 = some false ∧
    ECS.sampleCreated.m_systemManager.m_systems = [("S", 0)] ∧
    (ECS.sampleCreated.m_systemManager.objects 0).entities = [] ∧
    (ECS.sampleCreated.m_systemManager.objects 0).calls.map HookRecord.call = [] ∧
    ECS.sampleCreated.m_systemManager.systemComponentMask "S" = 3 ∧
    ECS.sampleCreated.addComponent "A" 0 7 = Outcome.ok () ECS.sampleWithA ∧
    (ECS.sampleWithA.m_systemManager.objects 0).entities = [0] ∧
    (ECS.sampleWithA.m_systemManager.objects 0).calls.map HookRecord.call =
      [HookCall.onEntityComponentAdded 0 0] ∧
    (ECS.sampleWithA.m_systemManager.objects 0).entities ≠ [] ∧
    ECS.sampleWithA.addComponent "B" 0 8 = Outcome.ok () ECS.sampleWithAB ∧
    ECS.sampleWithAB.removeComponent "A" 0 = Outcome.ok () ECS.sampleWithB ∧
    ECS.sampleWithB.m_systemManager.m_systems = [("S", 0)] ∧
    (ECS.sampleWithB.m_systemManager.objects 0).entities = [0] ∧
    (ECS.sampleWithB.m_systemManager.objects 0).calls.map HookRecord.call =
      [HookCall.onEntityComponentAdded 0 0, HookCall.onEntityComponentAdded 0 1,
        HookCall.onEntityComponentRemoved 0 0] ∧
    ¬ (0 ∉ (ECS.sampleWithB.m_systemManager.objects 0).entities) := by
  refine ⟨by decide, by decide, by decide, by decide, by decide, by decide, by decide,
    by decide, rfl, by decide, by decide, by decide, rfl, rfl, by decide, by decide,
    by decide, by decide⟩

set_option maxRecDepth 100000 in
/-- C10 (amended), an instance: the sample scenario with entity `0` and the system object
at address `0`. -/
theorem end_to_end_scenario_witness :
    ∃ ecs1 ecs2 ecs3,
      ECS.sampleCreated.addComponent "A" 0 7 = Outcome.ok () ecs1 ∧
      (ecs1.m_systemManager.objects 0).calls =
        (ECS.sampleCreated.m_systemManager.objects 0).calls ++
          [{ call := HookCall.onEntityComponentAdded 0 0
             entities := (ECS.sampleCreated.m_systemManager.objects 0).entities
             world := ecs1.world }] ∧
      (ecs1.m_systemManager.objects 0).entities =
        (ECS.sampleCreated.m_systemManager.objects 0).entities.insert 0 ∧
      ecs1.addComponent "B" 0 8 = Outcome.ok () ecs2 ∧
      (ecs2.m_systemManager.objects 0).calls =
        (ecs1.m_systemManager.objects 0).calls ++
          [{ call := HookCall.onEntityComponentAdded 0 1
             entities := (ecs1.m_systemManager.objects 0).entities
             world := ecs2.world }] ∧
      (ecs2.m_systemManager.objects 0).entities = (ecs1.m_systemManager.objects 0).entities ∧
      ecs2.removeComponent "A" 0 = Outcome.ok () ecs3 ∧
      (ecs3.m_systemManager.objects 0).calls =
        (ecs2.m_systemManager.objects 0).calls ++
          [{ call := HookCall.onEntityComponentRemoved 0 0
             entities := (ecs2.m_systemManager.objects 0).entities
             world :=
               { m_entityManager := ecs3.m_entityManager
                 m_componentManager := ecs2.m_componentManager } }] ∧
      (ecs3.m_systemManager.objects 0).entities = (ecs2.m_systemManager.objects 0).entities ∧
      0 ∈ (ecs3.m_systemManager.objects 0).entities :=
  end_to_end_scenario ECS.sampleCreated "A" "B" "S" 0 7 8 0 (by decide) (by decide)
    (by decide) (by decide) (by decide) (by decide) (by decide) (by decide)
/-! ## The facade: masks and stores -/

theorem mapInsert_of_ne {K W : Type} [DecidableEq K] (m : K → Option W) (k : K) (v : W) {x : K}
    (h : x ≠ k) : mapInsert m k v x = m x := by
  unfold mapInsert
  cases m k with
  | none => simp [Function.update_apply, h]
  | some w => rfl

theorem mapInsert_of_none {K W : Type} [DecidableEq K] (m : K → Option W) (k : K) (v : W)
    (h : m k = none) : mapInsert m k v = Function.update m k (some v) := by
  unfold mapInsert
  rw [h]

theorem typeNameOf_injective : Function.Injective typeNameOf := by
  intro i j h
  have := congrArg (fun s : String => s.data.length) h
  simpa [typeNameOf] using this

namespace ECS

variable {V : Type}

theorem run_append [Inhabited V] (xs ys : List (Call V)) : ∀ (ecs ecs1 : ECS V),
    ecs.run xs = some ecs1 → ecs.run (xs ++ ys) = ecs1.run ys := by
  induction xs with
  | nil =>
    intro ecs ecs1 h
    simp only [ECS.run, Option.some.injEq] at h
    subst h
    rfl
  | cons c cs ih =>
    intro ecs ecs1 h
    simp only [ECS.run, List.cons_append] at h ⊢
    cases hs : ecs.step c with
    | none => simp [hs] at h
    | some ecs2 =>
      simp only [hs] at h ⊢
      exact ih ecs2 ecs1 h

theorem step_registerComponent_other [Inhabited V] {ecs ecs1 : ECS V} {m n : String}
    (h : ecs.step (Call.registerComponent m) = some ecs1) (hne : n ≠ m) :
    ecs1.m_componentManager.m_componentTypes n = ecs.m_componentManager.m_componentTypes n ∧
    ecs1.m_componentManager.m_componentArrays n = ecs.m_componentManager.m_componentArrays n := by
  simp only [ECS.step, ECS.registerComponent, ComponentManager.registerComponent] at h
  cases hm : ecs.m_componentManager.m_componentTypes m with
  | some id => simp [hm, Outcome.state?] at h
  | none =>
    simp only [hm, Outcome.state?, Option.some.injEq] at h
    subst h
    exact ⟨mapInsert_of_ne _ _ _ hne, mapInsert_of_ne _ _ _ hne⟩

/-- Registering pairwise distinct, not yet registered types: the `i`-th one receives the
id `(m_nextComponent + i) % 256` and an empty store; nothing else changes. -/
theorem run_registerComponents [Inhabited V] (names : List String) : ∀ (ecs : ECS V),
    names.Nodup →
    (∀ n ∈ names, ecs.m_componentManager.m_componentTypes n = none ∧
      ecs.m_componentManager.m_componentArrays n = none) →
    ecs.m_componentManager.m_nextComponent < 256 →
    ∃ ecs1, ecs.run (names.map Call.registerComponent) = some ecs1 ∧
      ecs1.m_entityManager = ecs.m_entityManager ∧
      ecs1.m_systemManager = ecs.m_systemManager ∧
      (∀ i (hi : i < names.length),
        ecs1.m_componentManager.m_componentTypes names[i] =
          some ((ecs.m_componentManager.m_nextComponent + i) % 256) ∧
        ecs1.m_componentManager.m_componentArrays names[i] = some ComponentArray.new) := by
  induction names with
  | nil =>
    intro ecs _ _ _
    exact ⟨ecs, rfl, rfl, rfl, fun i hi => absurd hi (by simp)⟩
  | cons n rest ih =>
    intro ecs hnd hfree hnext
    obtain ⟨hn1, hn2⟩ := hfree n (List.mem_cons_self _ _)
    have hnot : n ∉ rest := (List.nodup_cons.1 hnd).1
    have hstep : ecs.step (Call.registerComponent n) = some
        { ecs with
          m_componentManager :=
            { m_componentTypes := Function.update ecs.m_componentManager.m_componentTypes n
                (some ecs.m_componentManager.m_nextComponent)
              m_componentArrays := Function.update ecs.m_componentManager.m_componentArrays n
                (some ComponentArray.new)
              m_nextComponent := (ecs.m_componentManager.m_nextComponent + 1) % 256 } } := by
      simp [ECS.step, ECS.registerComponent, ComponentManager.registerComponent, hn1, hn2,
        mapInsert, Outcome.state?]
    obtain ⟨ecs0, hstep0, hem0, hsm0, hty0, harr0, hnext0⟩ : ∃ ecs0 : ECS V,
        ecs.step (Call.registerComponent n) = some ecs0 ∧
        ecs0.m_entityManager = ecs.m_entityManager ∧
        ecs0.m_systemManager = ecs.m_systemManager ∧
        ecs0.m_componentManager.m_componentTypes =
          Function.update ecs.m_componentManager.m_componentTypes n
            (some ecs.m_componentManager.m_nextComponent) ∧
        ecs0.m_componentManager.m_componentArrays =
          Function.update ecs.m_componentManager.m_componentArrays n
            (some ComponentArray.new) ∧
        ecs0.m_componentManager.m_nextComponent =
          (ecs.m_componentManager.m_nextComponent + 1) % 256 :=
      ⟨_, hstep, rfl, rfl, rfl, rfl, rfl⟩
    obtain ⟨ecs1, hrun, hem, hsm, hids⟩ := ih ecs0 (List.nodup_cons.1 hnd).2
      (by
        intro m hm
        have hne : m ≠ n := fun h => hnot (h ▸ hm)
        obtain ⟨h1, h2⟩ := hfree m (List.mem_cons_of_mem _ hm)
        rw [hty0, harr0]
        simp [Function.update_apply, hne, h1, h2])
      (by rw [hnext0]; exact Nat.mod_lt _ (by decide))
    refine ⟨ecs1, ?_, hem.trans hem0, hsm.trans hsm0, ?_⟩
    · simp only [List.map_cons, ECS.run, hstep0]
      exact hrun
    · intro i hi
      cases i with
      | zero =>
        have hfresh : ∀ (ecs2 : ECS V) (cs : List (Call V)),
            (∀ c ∈ cs, ∃ m, m ≠ n ∧ c = Call.registerComponent m) →
            ∀ ecs3, ecs2.run cs = some ecs3 →
              ecs3.m_componentManager.m_componentTypes n =
                ecs2.m_componentManager.m_componentTypes n ∧
              ecs3.m_componentManager.m_componentArrays n =
                ecs2.m_componentManager.m_componentArrays n := by
          intro ecs2 cs
          induction cs generalizing ecs2 with
          | nil =>
            intro _ ecs3 h3
            simp only [ECS.run, Option.some.injEq] at h3
            subst h3
            exact ⟨rfl, rfl⟩
          | cons c cs ih2 =>
            intro hall ecs3 h3
            obtain ⟨m, hm, rfl⟩ := hall c (List.mem_cons_self _ _)
            simp only [ECS.run] at h3
            cases hs : ecs2.step (Call.registerComponent m) with
            | none => simp [hs] at h3
            | some ecs4 =>
              simp only [hs] at h3
              obtain ⟨h5, h6⟩ := ih2 ecs4 (fun c hc => hall c (List.mem_cons_of_mem _ hc)) ecs3 h3
              obtain ⟨h7, h8⟩ := step_registerComponent_other hs (Ne.symm hm)
              exact ⟨h5.trans h7, h6.trans h8⟩
        obtain ⟨h5, h6⟩ := hfresh ecs0 (rest.map Call.registerComponent)
          (by
            intro c hc
            obtain ⟨m, hm, rfl⟩ := List.mem_map.1 hc
            exact ⟨m, fun h => hnot (h ▸ hm), rfl⟩) ecs1 hrun
        simp only [List.getElem_cons_zero, Nat.add_zero]
        rw [h5, h6, hty0, harr0, Nat.mod_eq_of_lt hnext]
        simp
      | succ i =>
        have hi2 : i < rest.length := by simpa using hi
        obtain ⟨h1, h2⟩ := hids i hi2
        simp only [List.getElem_cons_succ]
        refine ⟨?_, h2⟩
        rw [h1, hnext0]
        have key : ∀ x j : Nat, ((x + 1) % 256 + j) % 256 = (x + (j + 1)) % 256 := by
          intro x j
          omega
        rw [key]

end ECS
/-- The state after `registerManyTypes` on a freshly initialised ECS: type number `i`
has id `i % 256` and an empty store; no entity exists. -/
theorem registerManyTypes_run :
    ∃ ecs : ECS Nat, (ECS.init : ECS Nat).run registerManyTypes = some ecs ∧
      ecs.m_entityManager = EntityManager.new ∧
      ∀ i, i < 257 →
        ecs.m_componentManager.m_componentTypes (typeNameOf i) = some (i % 256) ∧
        ecs.m_componentManager.m_componentArrays (typeNameOf i) = some ComponentArray.new := by
  have hnd : ((List.range 257).map typeNameOf).Nodup :=
    List.Nodup.map typeNameOf_injective (List.nodup_range 257)
  obtain ⟨ecs, hrun, hem, _, hids⟩ :=
    ECS.run_registerComponents ((List.range 257).map typeNameOf) (ECS.init : ECS Nat) hnd
      (fun n _ => ⟨rfl, rfl⟩) (by decide)
  refine ⟨ecs, ?_, hem, ?_⟩
  · rw [← hrun]
    simp [registerManyTypes, List.map_map, Function.comp_def]
  · intro i hi
    have h := hids i (by simpa using hi)
    simpa [ECS.init, ECS.initWith, ComponentManager.new] using h

/-- C2, the code at the failing input: register 257 pairwise distinct component types
on a fresh ECS, then call `addComponent` for type number 0 on entity 0. All calls
succeed. Type number 256 has received id 0 as well (the `uint8_t` id wrapped around), so
bit 0 of the mask of entity 0 is set although `hasComponent` is false for type number 256. -/
theorem mask_store_mismatch :
    ∃ s : ECS Nat,
      (ECS.init : ECS Nat).run (registerManyTypes ++ [Call.addComponent (typeNameOf 0) 0 7]) =
        some s ∧
      s.getComponentId (typeNameOf 0) = some 0 ∧
      s.getComponentId (typeNameOf 256) = some 0 ∧
      s.hasComponent (typeNameOf 0) 0 = some true ∧
      s.hasComponent (typeNameOf 256) 0 = some false ∧
      s.m_entityManager.getComponents 0 = some 1 ∧
      ¬ s.MaskMatchesStores := by
  obtain ⟨ecs, hrun, hem, hids⟩ := registerManyTypes_run
  obtain ⟨hty0, harr0⟩ := hids 0 (by decide)
  obtain ⟨hty256, harr256⟩ := hids 256 (by decide)
  have hne : typeNameOf 256 ≠ typeNameOf 0 := fun h => absurd (typeNameOf_injective h) (by decide)
  obtain ⟨s, hadd, hty, harr, ⟨ca1, hca1, hidx, _⟩, hmask, _⟩ :=
    ECS.addComponent_effect ecs (7 : Nat) hty0 harr0 (e := 0) rfl (by decide) (by decide)
  have hm : s.m_entityManager.m_componentMasks 0 = 1 := by
    rw [hmask, hem]
    simp [EntityManager.new]
  have h1 : s.getComponentId (typeNameOf 256) = some 0 := by
    simp only [ECS.getComponentId, ComponentManager.getComponentId, hty, hty256]
  have h2 : s.hasComponent (typeNameOf 256) 0 = some false := by
    simp only [ECS.hasComponent, ComponentManager.hasComponent,
      ComponentManager.getComponentArray, hty, hty256, harr _ hne, harr256]
    rfl
  refine ⟨s, ?_, ?_, h1, ?_, h2, ?_, ?_⟩
  · rw [ECS.run_append _ _ _ _ hrun]
    simp only [ECS.run, ECS.step, hadd, Outcome.state?]
  · simp only [ECS.getComponentId, ComponentManager.getComponentId, hty, hty0]
  · simp only [ECS.hasComponent, ComponentManager.hasComponent,
      ComponentManager.getComponentArray, hty, hty0, hca1, ComponentArray.hasComponent, hidx]
    rfl
  · simp [EntityManager.getComponents, hm, MAX_ENTITIES]
  · intro hall
    have h3 := (hall (typeNameOf 256) 0 0 (by decide) h1).2 (by rw [hm]; decide)
    rw [h2] at h3
    simp at h3

/-! ### Mask/store consistency when the component ids are pairwise distinct -/

theorem maskSet_true {m m1 : ComponentMask} {id : Nat} (h : maskSet m id true = some m1) :
    id < MAX_COMPONENTS ∧ ∀ t, m1.testBit t = (m.testBit t || decide (id = t)) := by
  simp only [maskSet] at h
  split at h
  · rename_i hid
    simp only [if_true, Option.some.injEq] at h
    subst h
    refine ⟨hid, fun t => ?_⟩
    rw [Nat.testBit_or, Nat.one_shiftLeft, Nat.testBit_two_pow]
  · simp at h

theorem maskSet_false {m m1 : ComponentMask} {id : Nat} (h : maskSet m id false = some m1) :
    id < MAX_COMPONENTS ∧
      ∀ t, m1.testBit t = (m.testBit t && (decide (t < MAX_COMPONENTS) && !decide (id = t))) := by
  simp only [maskSet] at h
  split at h
  · rename_i hid
    simp only [Bool.false_eq_true, if_false, Option.some.injEq] at h
    subst h
    refine ⟨hid, fun t => ?_⟩
    rw [Nat.testBit_and, Nat.testBit_xor, Nat.one_shiftLeft, Nat.testBit_two_pow,
      Nat.testBit_two_pow_sub_one]
    by_cases h2 : id = t
    · subst h2
      simp [hid]
    · by_cases h1 : t < MAX_COMPONENTS <;> simp [h1, h2]
  · simp at h

namespace ComponentArray

variable {T : Type}

theorem insertData_keys {ca ca1 : ComponentArray T} {e : Entity} {v : T}
    (h : ca.insertData e v = Outcome.ok () ca1) :
    ca.m_entityToIndex e = none ∧
      ∀ x, (ca1.m_entityToIndex x).isSome = (decide (x = e) || (ca.m_entityToIndex x).isSome) := by
  simp only [ComponentArray.insertData] at h
  split at h
  · simp at h
  · rename_i hnone
    simp only [Outcome.ok.injEq, true_and] at h
    subst h
    refine ⟨hnone, fun x => ?_⟩
    by_cases hx : x = e <;> simp [Function.update_apply, hx]

theorem removeData_keys {ca ca1 : ComponentArray T} (hwf : ca.WellFormed) {e : Entity}
    (h : ca.removeData e = Outcome.ok () ca1) :
    (ca.m_entityToIndex e).isSome = true ∧
      ∀ x, (ca1.m_entityToIndex x).isSome = (!decide (x = e) && (ca.m_entityToIndex x).isSome) := by
  simp only [ComponentArray.removeData] at h
  split at h
  · simp at h
  · rename_i tmp htmp
    have hlt : tmp < ca.m_validSize := hwf.index_lt htmp
    have hlast : decrSize ca.m_validSize = ca.m_validSize - 1 := decrSize_pos _ (by omega)
    obtain ⟨el, hel⟩ := (hwf.2 (ca.m_validSize - 1)).2 (by omega)
    have hel2 : ca.m_entityToIndex el = some (ca.m_validSize - 1) := (hwf.1 _ _).2 hel
    simp only [hlast, hel, Option.getD_some, Outcome.ok.injEq, true_and] at h
    subst h
    refine ⟨by simp [htmp], fun x => ?_⟩
    by_cases hx : x = e
    · simp [Function.update_apply, hx]
    · by_cases hx2 : x = el
      · subst hx2
        simp [Function.update_apply, hx, hel2]
      · simp [Function.update_apply, hx, hx2]

theorem entityDestroyed_keys {ca : ComponentArray T} (hwf : ca.WellFormed) (e : Entity) :
    (ca.entityDestroyed e).state.WellFormed ∧
      ∀ x, ((ca.entityDestroyed e).state.m_entityToIndex x).isSome =
        (!decide (x = e) && (ca.m_entityToIndex x).isSome) := by
  obtain ⟨ca1, h1, h2⟩ := entityDestroyed_eq ca e
  rw [h1]
  simp only [Outcome.state]
  rcases h2 with ⟨hnone, rfl⟩ | ⟨_, hrem⟩
  · refine ⟨hwf, fun x => ?_⟩
    by_cases hx : x = e
    · simp [hx, hnone]
    · simp [hx]
  · exact ⟨hwf.wf_removeData hrem, (removeData_keys hwf hrem).2⟩

end ComponentArray

namespace ComponentManager

variable {V : Type}

theorem store_addComponent_ok {cm cm1 : ComponentManager V} {typeName : String} {e : Entity} {v : V}
    (h : cm.addComponent typeName e v = Outcome.ok () cm1) :
    ∃ t ca ca1, cm.m_componentTypes typeName = some t ∧
      cm.m_componentArrays typeName = some ca ∧ ca.insertData e v = Outcome.ok () ca1 ∧
      cm1 = { cm with m_componentArrays := Function.update cm.m_componentArrays typeName (some ca1) } := by
  simp only [addComponent, getComponentArray] at h
  cases ht : cm.m_componentTypes typeName with
  | none => simp [ht] at h
  | some t =>
    cases hca : cm.m_componentArrays typeName with
    | none => simp [ht, hca] at h
    | some ca =>
      simp only [ht, hca] at h
      split at h
      · simp at h
      · rename_i u ca1 hins
        simp only [Outcome.ok.injEq, true_and] at h
        exact ⟨t, ca, ca1, rfl, rfl, hins, h.symm⟩

theorem store_removeComponent_ok {cm cm1 : ComponentManager V} {typeName : String} {e : Entity}
    (h : cm.removeComponent typeName e = Outcome.ok () cm1) :
    ∃ t ca ca1, cm.m_componentTypes typeName = some t ∧
      cm.m_componentArrays typeName = some ca ∧ ca.removeData e = Outcome.ok () ca1 ∧
      cm1 = { cm with m_componentArrays := Function.update cm.m_componentArrays typeName (some ca1) } := by
  simp only [removeComponent, getComponentArray] at h
  cases ht : cm.m_componentTypes typeName with
  | none => simp [ht] at h
  | some t =>
    cases hca : cm.m_componentArrays typeName with
    | none => simp [ht, hca] at h
    | some ca =>
      simp only [ht, hca] at h
      split at h
      · simp at h
      · rename_i u ca1 hrem
        simp only [Outcome.ok.injEq, true_and] at h
        exact ⟨t, ca, ca1, rfl, rfl, hrem, h.symm⟩

end ComponentManager
namespace ECS

variable {V : Type}

theorem Consistent.matches {ecs : ECS V} (h : ecs.Consistent) : ecs.MaskMatchesStores := by
  intro typeName t e he ht
  simp only [ECS.getComponentId, ComponentManager.getComponentId] at ht
  obtain ⟨ca, hca⟩ := h.2.1 typeName t ht
  simp only [ECS.hasComponent, ComponentManager.hasComponent,
    ComponentManager.getComponentArray, ht, hca, Option.some.injEq,
    ComponentArray.hasComponent]
  exact h.2.2.2.2.1 typeName t ca e he ht hca

theorem Consistent.congr_entityManager {ecs : ECS V} (h : ecs.Consistent) (em : EntityManager)
    (hm : em.m_componentMasks = ecs.m_entityManager.m_componentMasks) :
    ({ ecs with m_entityManager := em } : ECS V).Consistent := by
  obtain ⟨h1, h2, h3, h4, h5, h6⟩ := h
  refine ⟨h1, h2, h3, ?_, ?_, h6⟩
  · intro e t
    simp only [hm]
    exact h4 e t
  · intro typeName t ca e
    simp only [hm]
    exact h5 typeName t ca e

theorem Consistent.consistent_addComponent {ecs ecs1 : ECS V} (h : ecs.Consistent)
    {typeName : String} {e : Entity} {v : V}
    (hc : ecs.addComponent typeName e v = Outcome.ok () ecs1) : ecs1.Consistent := by
  obtain ⟨cm, id, newMask, he, hcm, hid, hmask, rfl⟩ := addComponent_ok hc
  obtain ⟨t, ca, ca1, ht, hca, hins, rfl⟩ := ComponentManager.store_addComponent_ok hcm
  simp only [ComponentManager.getComponentId, ht, Option.some.injEq] at hid
  subst hid
  obtain ⟨hlt, hbits⟩ := maskSet_true hmask
  obtain ⟨habs, hkeys⟩ := ComponentArray.insertData_keys hins
  obtain ⟨h1, h2, h3, h4, h5, h6⟩ := h
  refine ⟨?_, ?_, h3, ?_, ?_, ?_⟩
  · intro type1 ca2 h
    simp only [Function.update_apply] at h
    split at h
    · simp only [Option.some.injEq] at h
      exact h ▸ (h1 typeName ca hca).wf_insertData hins
    · exact h1 type1 ca2 h
  · intro type1 t1 h
    simp only [Function.update_apply]
    split
    · exact ⟨ca1, rfl⟩
    · exact h2 type1 t1 h
  · intro x t1
    simp only [Function.update_apply]
    split
    · rw [hbits]
      intro hx
      simp only [Bool.or_eq_true, decide_eq_true_eq] at hx
      rcases hx with hx | hx
      · exact h4 _ _ hx
      · exact hx ▸ ⟨hlt, typeName, ht⟩
    · exact h4 x t1
  · intro type1 t1 ca2 x hx hty harr
    simp only [Function.update_apply] at harr ⊢
    by_cases htype : type1 = typeName
    · subst htype
      simp only [if_true, Option.some.injEq] at harr
      subst harr
      rw [ht] at hty
      simp only [Option.some.injEq] at hty
      subst hty
      rw [hkeys]
      by_cases hxe : x = e
      · subst hxe
        simp [hbits]
      · simp only [hxe, decide_False, Bool.false_or, if_false]
        exact h5 type1 t ca x hx ht hca
    · simp only [htype, if_false] at harr
      have hne : t ≠ t1 := fun hx => htype (h3 _ _ _ hty (hx ▸ ht))
      by_cases hxe : x = e
      · subst hxe
        simp only [if_true, hbits, hne, decide_False, Bool.or_false]
        exact h5 type1 t1 ca2 x hx hty harr
      · simp only [hxe, if_false]
        exact h5 type1 t1 ca2 x hx hty harr
  · intro type1 ca2 h
    simp only [Function.update_apply] at h
    split at h
    · rename_i heq
      exact ⟨t, heq ▸ ht⟩
    · exact h6 type1 ca2 h

theorem Consistent.consistent_removeComponent {ecs ecs1 : ECS V} (h : ecs.Consistent)
    {typeName : String} {e : Entity}
    (hc : ecs.removeComponent typeName e = Outcome.ok () ecs1) : ecs1.Consistent := by
  obtain ⟨cm, id, newMask, he, hcm, hid, hmask, rfl⟩ := removeComponent_ok hc
  obtain ⟨t, ca, ca1, ht, hca, hrem, rfl⟩ := ComponentManager.store_removeComponent_ok hcm
  simp only [ComponentManager.getComponentId, ht, Option.some.injEq] at hid
  subst hid
  obtain ⟨hlt, hbits⟩ := maskSet_false hmask
  obtain ⟨h1, h2, h3, h4, h5, h6⟩ := h
  obtain ⟨hpres, hkeys⟩ := ComponentArray.removeData_keys (h1 typeName ca hca) hrem
  refine ⟨?_, ?_, h3, ?_, ?_, ?_⟩
  · intro type1 ca2 h
    simp only [Function.update_apply] at h
    split at h
    · simp only [Option.some.injEq] at h
      exact h ▸ (h1 typeName ca hca).wf_removeData hrem
    · exact h1 type1 ca2 h
  · intro type1 t1 h
    simp only [Function.update_apply]
    split
    · exact ⟨ca1, rfl⟩
    · exact h2 type1 t1 h
  · intro x t1
    simp only [Function.update_apply]
    split
    · rw [hbits]
      intro hx
      simp only [Bool.and_eq_true, decide_eq_true_eq] at hx
      exact h4 _ _ hx.1
    · exact h4 x t1
  · intro type1 t1 ca2 x hx hty harr
    simp only [Function.update_apply] at harr ⊢
    by_cases htype : type1 = typeName
    · subst htype
      simp only [if_true, Option.some.injEq] at harr
      subst harr
      rw [ht] at hty
      simp only [Option.some.injEq] at hty
      subst hty
      rw [hkeys]
      by_cases hxe : x = e
      · subst hxe
        simp [hbits]
      · simp only [hxe, decide_False, Bool.not_false, Bool.true_and, if_false]
        exact h5 type1 t ca x hx ht hca
    · simp only [htype, if_false] at harr
      have hne : t ≠ t1 := fun hx => htype (h3 _ _ _ hty (hx ▸ ht))
      by_cases hxe : x = e
      · subst hxe
        simp only [if_true, hbits, hne, decide_False, Bool.not_false, Bool.and_true]
        rw [h5 type1 t1 ca2 x hx hty harr]
        constructor
        · intro hb
          simp [hb, (h4 _ _ hb).1]
        · intro hx2
          simp only [Bool.and_eq_true, decide_eq_true_eq] at hx2
          exact hx2.1
      · simp only [hxe, if_false]
        exact h5 type1 t1 ca2 x hx hty harr
  · intro type1 ca2 h
    simp only [Function.update_apply] at h
    split at h
    · rename_i heq
      exact ⟨t, heq ▸ ht⟩
    · exact h6 type1 ca2 h

end ECS
namespace ECS

variable {V : Type}

/-- What a successful `destroyEntity` did. -/
theorem facade_destroyEntity_ok {ecs ecs1 : ECS V} {e : Entity}
    (h : ecs.destroyEntity e = Outcome.ok () ecs1) :
    e < MAX_ENTITIES ∧
      ecs1.m_componentManager = ecs.m_componentManager.entityDestroyed e ∧
      ecs1.m_entityManager.m_componentMasks =
        Function.update ecs.m_entityManager.m_componentMasks e 0 ∧
      ecs1.m_systemManager =
        ecs.m_systemManager.entityDestroyed ecs.world e
          (ecs.m_entityManager.m_componentMasks e) := by
  simp only [destroyEntity, EntityManager.getComponents] at h
  by_cases he : e < MAX_ENTITIES
  · simp only [he, if_true] at h
    obtain ⟨em1, hem1, _, _, hmasks⟩ := EntityManager.destroyEntity_ok ecs.m_entityManager e he
    simp only [hem1, Outcome.ok.injEq, true_and] at h
    subst h
    exact ⟨he, rfl, hmasks, rfl⟩
  · simp [he] at h

theorem Consistent.consistent_destroyEntity {ecs ecs1 : ECS V} (h : ecs.Consistent) {e : Entity}
    (hc : ecs.destroyEntity e = Outcome.ok () ecs1) : ecs1.Consistent := by
  obtain ⟨he, hcm, hmasks, _⟩ := facade_destroyEntity_ok hc
  obtain ⟨h1, h2, h3, h4, h5, h6⟩ := h
  have harr : ∀ typeName ca1, ecs1.m_componentManager.m_componentArrays typeName = some ca1 →
      ∃ ca, ecs.m_componentManager.m_componentArrays typeName = some ca ∧
        ca1 = (ca.entityDestroyed e).state := by
    intro typeName ca1 hx
    rw [hcm] at hx
    simp only [ComponentManager.entityDestroyed, Option.map_eq_some'] at hx
    obtain ⟨ca, hca, rfl⟩ := hx
    exact ⟨ca, hca, rfl⟩
  have hty : ecs1.m_componentManager.m_componentTypes =
      ecs.m_componentManager.m_componentTypes := by rw [hcm]; rfl
  refine ⟨?_, ?_, ?_, ?_, ?_, ?_⟩
  pick_goal 6
  · intro typeName ca1 hx
    obtain ⟨ca, hca, rfl⟩ := harr typeName ca1 hx
    rw [hty]
    exact h6 typeName ca hca
  · intro typeName ca1 hx
    obtain ⟨ca, hca, rfl⟩ := harr typeName ca1 hx
    exact (ComponentArray.entityDestroyed_keys (h1 typeName ca hca) e).1
  · intro typeName t hx
    rw [hty] at hx
    obtain ⟨ca, hca⟩ := h2 typeName t hx
    exact ⟨(ca.entityDestroyed e).state, by rw [hcm]; simp [ComponentManager.entityDestroyed, hca]⟩
  · rw [hty]
    exact h3
  · intro x t
    rw [hmasks, hty]
    simp only [Function.update_apply]
    split
    · simp
    · exact h4 x t
  · intro typeName t ca1 x hx htx hax
    rw [hty] at htx
    obtain ⟨ca, hca, rfl⟩ := harr typeName ca1 hax
    rw [(ComponentArray.entityDestroyed_keys (h1 typeName ca hca) e).2, hmasks]
    simp only [Function.update_apply]
    by_cases hxe : x = e
    · simp [hxe]
    · simp only [hxe, decide_False, Bool.not_false, Bool.true_and, if_false]
      exact h5 typeName t ca x hx htx hca

theorem Consistent.consistent_createEntity [Inhabited V] {ecs ecs1 : ECS V} (h : ecs.Consistent)
    {id : Entity} (hc : ecs.createEntity = Outcome.ok id ecs1) : ecs1.Consistent := by
  simp only [ECS.createEntity] at hc
  split at hc
  · simp at hc
  · rename_i newEntity em hem
    split at hc
    · simp at hc
    · rename_i u st hadd
      simp only [Outcome.ok.injEq] at hc
      obtain ⟨_, rfl⟩ := hc
      exact (h.congr_entityManager em
        (EntityManager.createEntity_masks hem).1).consistent_addComponent hadd

theorem Consistent.consistent_createEntityNamed [Inhabited V] {ecs ecs1 : ECS V}
    (h : ecs.Consistent) {name : String} {id : Entity}
    (hc : ecs.createEntityNamed name = Outcome.ok id ecs1) : ecs1.Consistent := by
  simp only [ECS.createEntityNamed] at hc
  split at hc
  · simp at hc
  · rename_i newEntity em hem
    split at hc
    · simp at hc
    · rename_i u st hadd
      simp only [Outcome.ok.injEq] at hc
      obtain ⟨_, rfl⟩ := hc
      exact (h.congr_entityManager em
        (EntityManager.createEntityNamed_masks hem).1).consistent_addComponent hadd

end ECS
namespace ECS

variable {V : Type}

theorem addComponent_registry {ecs ecs1 : ECS V} {typeName : String} {e : Entity} {v : V}
    (hc : ecs.addComponent typeName e v = Outcome.ok () ecs1) :
    ecs1.m_componentManager.m_componentTypes = ecs.m_componentManager.m_componentTypes ∧
    ecs1.m_componentManager.m_nextComponent = ecs.m_componentManager.m_nextComponent := by
  obtain ⟨cm, id, newMask, _, hcm, _, _, rfl⟩ := addComponent_ok hc
  obtain ⟨t, ca, ca1, _, _, _, rfl⟩ := ComponentManager.store_addComponent_ok hcm
  exact ⟨rfl, rfl⟩

theorem removeComponent_registry {ecs ecs1 : ECS V} {typeName : String} {e : Entity}
    (hc : ecs.removeComponent typeName e = Outcome.ok () ecs1) :
    ecs1.m_componentManager.m_componentTypes = ecs.m_componentManager.m_componentTypes ∧
    ecs1.m_componentManager.m_nextComponent = ecs.m_componentManager.m_nextComponent := by
  obtain ⟨cm, id, newMask, _, hcm, _, _, rfl⟩ := removeComponent_ok hc
  obtain ⟨t, ca, ca1, _, _, _, rfl⟩ := ComponentManager.store_removeComponent_ok hcm
  exact ⟨rfl, rfl⟩

/-- A call other than `registerComponent` keeps the state consistent and leaves the
registry of component types as it is. -/
theorem Consistent.consistent_step [Inhabited V] {ecs ecs1 : ECS V} (h : ecs.Consistent)
    {c : Call V} (hc : c.isRegisterComponent = false) (hs : ecs.step c = some ecs1) :
    ecs1.Consistent ∧
    ecs1.m_componentManager.m_componentTypes = ecs.m_componentManager.m_componentTypes ∧
    ecs1.m_componentManager.m_nextComponent = ecs.m_componentManager.m_nextComponent := by
  cases c with
  | createEntity =>
    obtain ⟨a, ha⟩ := state?_eq_some hs
    refine ⟨h.consistent_createEntity ha, ?_⟩
    simp only [ECS.createEntity] at ha
    split at ha
    · simp at ha
    · split at ha
      · simp at ha
      · rename_i u st hadd
        simp only [Outcome.ok.injEq] at ha
        obtain ⟨_, rfl⟩ := ha
        have hreg := addComponent_registry hadd
        exact hreg
  | createEntityNamed name =>
    obtain ⟨a, ha⟩ := state?_eq_some hs
    refine ⟨h.consistent_createEntityNamed ha, ?_⟩
    simp only [ECS.createEntityNamed] at ha
    split at ha
    · simp at ha
    · split at ha
      · simp at ha
      · rename_i u st hadd
        simp only [Outcome.ok.injEq] at ha
        obtain ⟨_, rfl⟩ := ha
        have hreg := addComponent_registry hadd
        exact hreg
  | destroyEntity e =>
    obtain ⟨a, ha⟩ := state?_eq_some hs
    refine ⟨h.consistent_destroyEntity ha, ?_⟩
    obtain ⟨_, hcm, _, _⟩ := facade_destroyEntity_ok ha
    rw [hcm]
    exact ⟨rfl, rfl⟩
  | addComponent t e v =>
    obtain ⟨a, ha⟩ := state?_eq_some hs
    exact ⟨h.consistent_addComponent ha, addComponent_registry ha⟩
  | removeComponent t e =>
    obtain ⟨a, ha⟩ := state?_eq_some hs
    exact ⟨h.consistent_removeComponent ha, removeComponent_registry ha⟩
  | setEntityName e n =>
    obtain ⟨a, ha⟩ := state?_eq_some hs
    simp only [ECS.setEntityName] at ha
    split at ha
    · simp at ha
    · rename_i u em hem
      simp only [Outcome.ok.injEq, true_and] at ha
      subst ha
      have hm : em.m_componentMasks = ecs.m_entityManager.m_componentMasks := by
        simp only [EntityManager.setEntityName] at hem
        split at hem
        · simp at hem
        · simp only [Outcome.ok.injEq, true_and] at hem
          subst hem
          rfl
      exact ⟨h.congr_entityManager _ hm, rfl, rfl⟩
  | registerComponent t => simp [Call.isRegisterComponent] at hc
  | registerSystem t s =>
    obtain ⟨a, ha⟩ := state?_eq_some hs
    simp only [ECS.registerSystem] at ha
    split at ha
    · simp at ha
    · simp only [Outcome.ok.injEq, true_and] at ha
      subst ha
      exact ⟨h, rfl, rfl⟩
  | setSystemComponents t m =>
    obtain ⟨a, ha⟩ := state?_eq_some hs
    simp only [ECS.setSystemComponents] at ha
    split at ha
    · simp at ha
    · simp only [Outcome.ok.injEq, true_and] at ha
      subst ha
      exact ⟨h, rfl, rfl⟩

/-- `registerComponent` while fewer than 256 types are registered: the new type gets
the id `k`, which no type has and which no mask uses. -/
theorem Consistent.consistent_registerComponent [Inhabited V] {ecs ecs1 : ECS V}
    (h : ecs.Consistent) {k : Nat} (hk : ecs.RegisteredBelow k) (hlt : k < 256)
    {typeName : String} (hs : ecs.step (Call.registerComponent typeName) = some ecs1) :
    ecs1.Consistent ∧ ecs1.RegisteredBelow (k + 1) := by
  simp only [ECS.step, ECS.registerComponent, ComponentManager.registerComponent] at hs
  cases hty : ecs.m_componentManager.m_componentTypes typeName with
  | some id => simp [hty, Outcome.state?] at hs
  | none =>
    simp only [hty, Outcome.state?, Option.some.injEq] at hs
    subst hs
    obtain ⟨h1, h2, h3, h4, h5, h6⟩ := h
    obtain ⟨hk1, hk2⟩ := hk
    have hnext : ecs.m_componentManager.m_nextComponent = k := by
      rw [hk2]; exact Nat.mod_eq_of_lt hlt
    have harr : ecs.m_componentManager.m_componentArrays typeName = none := by
      cases hx : ecs.m_componentManager.m_componentArrays typeName with
      | none => rfl
      | some ca =>
        obtain ⟨t, ht⟩ := h6 typeName ca hx
        rw [hty] at ht
        simp at ht
    rw [mapInsert_of_none _ _ _ hty, mapInsert_of_none _ _ _ harr, hnext]
    have hfresh : ∀ x, ecs.m_componentManager.m_componentTypes x ≠ some k :=
      fun x hx => Nat.lt_irrefl _ (hk1 x k hx)
    refine ⟨⟨?_, ?_, ?_, ?_, ?_, ?_⟩, ?_, ?_⟩
    · intro type1 ca hx
      simp only [Function.update_apply] at hx
      split at hx
      · simp only [Option.some.injEq] at hx
        exact hx ▸ ComponentArray.wellFormed_new
      · exact h1 type1 ca hx
    · intro type1 t hx
      simp only [Function.update_apply] at hx ⊢
      split
      · exact ⟨_, rfl⟩
      · rename_i hne
        simp only [hne, if_false] at hx
        exact h2 type1 t hx
    · intro type1 type2 t hx1 hx2
      simp only [Function.update_apply] at hx1 hx2
      by_cases e1 : type1 = typeName <;> by_cases e2 : type2 = typeName
      · rw [e1, e2]
      · simp only [e1, if_true, Option.some.injEq, e2, if_false] at hx1 hx2
        exact absurd (hx1 ▸ hx2) (hfresh type2)
      · simp only [e1, if_false, e2, if_true, Option.some.injEq] at hx1 hx2
        exact absurd (hx2 ▸ hx1) (hfresh type1)
      · simp only [e1, e2, if_false] at hx1 hx2
        exact h3 type1 type2 t hx1 hx2
    · intro e t hx
      obtain ⟨hb, type1, ht1⟩ := h4 e t hx
      refine ⟨hb, type1, ?_⟩
      have hne : type1 ≠ typeName := fun heq => by rw [heq, hty] at ht1; simp at ht1
      simp [Function.update_apply, hne, ht1]
    · intro type1 t ca e he hx1 hx2
      simp only [Function.update_apply] at hx1 hx2
      by_cases e1 : type1 = typeName
      · simp only [e1, if_true, Option.some.injEq] at hx1 hx2
        subst hx1 hx2
        constructor
        · intro hx
          simp [ComponentArray.new] at hx
        · intro hx
          obtain ⟨_, type2, ht2⟩ := h4 e _ hx
          exact absurd ht2 (hfresh type2)
      · simp only [e1, if_false] at hx1 hx2
        exact h5 type1 t ca e he hx1 hx2
    · intro type1 ca hx
      simp only [Function.update_apply] at hx ⊢
      split
      · exact ⟨_, rfl⟩
      · rename_i hne
        simp only [hne, if_false] at hx
        exact h6 type1 ca hx
    · intro type1 t hx
      simp only [Function.update_apply] at hx
      split at hx
      · simp only [Option.some.injEq] at hx
        exact hx ▸ Nat.lt_succ_self k
      · exact Nat.lt_succ_of_lt (hk1 type1 t hx)
    · show (k + 1) % 256 = (k + 1) % 256
      rfl

end ECS
namespace ECS

variable {V : Type}

theorem consistent_init : (ECS.init : ECS V).Consistent ∧ (ECS.init : ECS V).RegisteredBelow 0 := by
  refine ⟨⟨?_, ?_, ?_, ?_, ?_, ?_⟩, ?_, rfl⟩
  · intro t ca h; simp [ECS.init, ECS.initWith, ComponentManager.new] at h
  · intro t id h; simp [ECS.init, ECS.initWith, ComponentManager.new] at h
  · intro t1 t2 id h; simp [ECS.init, ECS.initWith, ComponentManager.new] at h
  · intro e t h; simp [ECS.init, ECS.initWith, EntityManager.new] at h
  · intro t id ca e _ h; simp [ECS.init, ECS.initWith, ComponentManager.new] at h
  · intro t ca h; simp [ECS.init, ECS.initWith, ComponentManager.new] at h
  · intro t id h; simp [ECS.init, ECS.initWith, ComponentManager.new] at h

theorem Consistent.consistent_run [Inhabited V] (calls : List (Call V)) :
    ∀ (ecs ecs1 : ECS V) (k : Nat), ecs.Consistent → ecs.RegisteredBelow k →
    k + registrations calls ≤ 256 → ecs.run calls = some ecs1 →
    ecs1.Consistent ∧ ecs1.RegisteredBelow (k + registrations calls) := by
  induction calls with
  | nil =>
    intro ecs ecs1 k h hk _ hr
    simp only [ECS.run, Option.some.injEq] at hr
    subst hr
    exact ⟨h, hk⟩
  | cons c cs ih =>
    intro ecs ecs1 k h hk hle hr
    simp only [ECS.run] at hr
    cases hs : ecs.step c with
    | none => simp [hs] at hr
    | some ecs2 =>
      simp only [hs] at hr
      by_cases hc : c.isRegisterComponent = true
      · have hcount : registrations (c :: cs) = registrations cs + 1 := by
          simp [registrations, List.filter_cons, hc]
        rw [hcount] at hle ⊢
        cases c with
        | registerComponent typeName =>
          obtain ⟨h2, hk2⟩ := h.consistent_registerComponent hk (by omega) hs
          have := ih ecs2 ecs1 (k + 1) h2 hk2 (by omega) hr
          rw [show k + (registrations cs + 1) = k + 1 + registrations cs by omega]
          exact this
        | createEntity => simp [Call.isRegisterComponent] at hc
        | createEntityNamed n => simp [Call.isRegisterComponent] at hc
        | destroyEntity e => simp [Call.isRegisterComponent] at hc
        | setEntityName e n => simp [Call.isRegisterComponent] at hc
        | addComponent t e v => simp [Call.isRegisterComponent] at hc
        | removeComponent t e => simp [Call.isRegisterComponent] at hc
        | registerSystem t s => simp [Call.isRegisterComponent] at hc
        | setSystemComponents t m => simp [Call.isRegisterComponent] at hc
      · have hc2 : c.isRegisterComponent = false := by simpa using hc
        have hcount : registrations (c :: cs) = registrations cs := by
          simp [registrations, List.filter_cons, hc2]
        rw [hcount] at hle ⊢
        obtain ⟨h2, hty, hnx⟩ := h.consistent_step hc2 hs
        exact ih ecs2 ecs1 k h2 ⟨by rw [hty]; exact hk.1, by rw [hnx]; exact hk.2⟩ hle hr

end ECS

/-- Mask/store consistency away from the failing input of C2: after every sequence of
successful facade calls on a freshly initialised ECS that registers at most 256
component types (so that the `uint8_t` ids are pairwise distinct), for every entity
below `MAX_ENTITIES` and every registered type `T` with id `t`, `hasComponent<T>(e)` holds
iff bit `t` of the mask of `e` is set. -/
theorem mask_store_consistency {V : Type} [Inhabited V] (calls : List (Call V)) (s : ECS V)
    (hreg : registrations calls ≤ 256) (hrun : (ECS.init : ECS V).run calls = some s) :
    s.MaskMatchesStores :=
  (ECS.Consistent.consistent_run calls ECS.init s 0 ECS.consistent_init.1 ECS.consistent_init.2
    (by omega) hrun).1.matches


/-! ## Notification: single-bit changes -/

theorem and_lt_and_or_bit (o M t : Nat) (hM : M.testBit t = true) (ho : o.testBit t = false) :
    o &&& M < (o ||| 1 <<< t) &&& M := by
  apply Nat.lt_of_testBit t
  · simp [Nat.testBit_and, ho]
  · simp [Nat.testBit_and, Nat.testBit_or, Nat.one_shiftLeft, Nat.testBit_two_pow, hM]
  · intro j hj
    have hne : ¬ t = j := Nat.ne_of_lt hj
    simp [Nat.testBit_and, Nat.testBit_or, Nat.one_shiftLeft, Nat.testBit_two_pow, hne]

theorem and_or_bit_of_clear (o M t : Nat) (hM : M.testBit t = false) :
    (o ||| 1 <<< t) &&& M = o &&& M := by
  apply Nat.eq_of_testBit_eq
  intro j
  by_cases hj : t = j
  · subst hj
    simp [Nat.testBit_and, hM]
  · simp [Nat.testBit_and, Nat.testBit_or, Nat.one_shiftLeft, Nat.testBit_two_pow, hj]

theorem or_bit_of_set (o t : Nat) (ho : o.testBit t = true) : o ||| 1 <<< t = o := by
  apply Nat.eq_of_testBit_eq
  intro j
  by_cases hj : t = j
  · subst hj
    simp [Nat.testBit_or, ho]
  · simp [Nat.testBit_or, Nat.one_shiftLeft, Nat.testBit_two_pow, hj]

theorem testBit_xor_bit (o t j : Nat) :
    (o ^^^ 1 <<< t).testBit j = (o.testBit j ^^ decide (t = j)) := by
  rw [Nat.testBit_xor, Nat.one_shiftLeft, Nat.testBit_two_pow]

theorem and_lt_xor_bit (o M t : Nat) (hM : M.testBit t = true) (ho : o.testBit t = false) :
    o &&& M < (o ^^^ 1 <<< t) &&& M := by
  apply Nat.lt_of_testBit t
  · simp [Nat.testBit_and, ho]
  · simp only [Nat.testBit_and, testBit_xor_bit]
    simp [hM, ho]
  · intro j hj
    have hne : ¬ t = j := Nat.ne_of_lt hj
    simp only [Nat.testBit_and, testBit_xor_bit]
    simp [hne]

theorem xor_bit_lt_and (o M t : Nat) (hM : M.testBit t = true) (ho : o.testBit t = true) :
    (o ^^^ 1 <<< t) &&& M < o &&& M := by
  apply Nat.lt_of_testBit t
  · simp only [Nat.testBit_and, testBit_xor_bit]
    simp [ho]
  · simp [Nat.testBit_and, hM, ho]
  · intro j hj
    have hne : ¬ t = j := Nat.ne_of_lt hj
    simp only [Nat.testBit_and, testBit_xor_bit]
    simp [hne]

theorem xor_bit_and_of_clear (o M t : Nat) (hM : M.testBit t = false) :
    (o ^^^ 1 <<< t) &&& M = o &&& M := by
  apply Nat.eq_of_testBit_eq
  intro j
  by_cases hj : t = j
  · subst hj
    simp [Nat.testBit_and, hM]
  · simp only [Nat.testBit_and, testBit_xor_bit]
    simp [hj]

namespace SystemManager

variable {V : Type}

theorem calls_entityComponentMaskChangedStep_added (system : System V) (world : World V)
    (e : Entity) (o n M : ComponentMask) (c : Component) (h : o &&& M < n &&& M) :
    (entityComponentMaskChangedStep system world e o n M c).calls =
      system.calls ++
        [{ call := HookCall.onEntityComponentAdded e c
           entities := system.entities
           world := world }] := by
  rw [entityComponentMaskChangedStep_added _ _ _ _ _ _ _ h]
  split <;> rfl

theorem calls_entityComponentMaskChangedStep_removed (system : System V) (world : World V)
    (e : Entity) (o n M : ComponentMask) (c : Component) (h : n &&& M < o &&& M) :
    (entityComponentMaskChangedStep system world e o n M c).calls =
      system.calls ++
        [{ call := HookCall.onEntityComponentRemoved e c
           entities := system.entities
           world := world }] := by
  rw [entityComponentMaskChangedStep_removed _ _ _ _ _ _ _ h]
  split <;> rfl

theorem entityComponentMaskChangedStep_same (system : System V) (world : World V) (e : Entity)
    (o n M : ComponentMask) (c : Component) (h : n &&& M = o &&& M) :
    entityComponentMaskChangedStep system world e o n M c = system := by
  simp [entityComponentMaskChangedStep, h]

/-- One visit of the loop of `entityComponentMaskChanged`, for any object and any interest
mask `M`, when the new mask is the old one with exactly bit `t` flipped. -/
theorem entityComponentMaskChangedStep_flip (object : System V) (world : World V) (e : Entity)
    (old M : ComponentMask) (t : Component) :
    ((entityComponentMaskChangedStep object world e old (old ^^^ 1 <<< t) M t).calls =
        object.calls ++
          [{ call := HookCall.onEntityComponentAdded e t
             entities := object.entities
             world := world }] ↔
      (M.testBit t = true ∧ old.testBit t = false)) ∧
    ((entityComponentMaskChangedStep object world e old (old ^^^ 1 <<< t) M t).calls =
        object.calls ++
          [{ call := HookCall.onEntityComponentRemoved e t
             entities := object.entities
             world := world }] ↔
      (M.testBit t = true ∧ old.testBit t = true)) ∧
    (entityComponentMaskChangedStep object world e old (old ^^^ 1 <<< t) M t = object ↔
      M.testBit t = false) ∧
    (old &&& M < (old ^^^ 1 <<< t) &&& M ↔ (M.testBit t = true ∧ old.testBit t = false)) ∧
    ((old ^^^ 1 <<< t) &&& M < old &&& M ↔ (M.testBit t = true ∧ old.testBit t = true)) := by
  cases hM : M.testBit t with
  | false =>
    have hn := xor_bit_and_of_clear old M t hM
    rw [entityComponentMaskChangedStep_same _ _ _ _ _ _ _ hn, hn]
    simp
  | true =>
    cases ho : old.testBit t with
    | false =>
      have hlt := and_lt_xor_bit old M t hM ho
      have hc := calls_entityComponentMaskChangedStep_added object world e old
        (old ^^^ 1 <<< t) M t hlt
      refine ⟨by simp [hc], by simp [hc], ?_, by simp [hlt], by simp [Nat.lt_asymm hlt]⟩
      constructor
      · intro h
        rw [h] at hc
        simp at hc
      · intro h
        simp at h
    | true =>
      have hlt := xor_bit_lt_and old M t hM ho
      have hc := calls_entityComponentMaskChangedStep_removed object world e old
        (old ^^^ 1 <<< t) M t hlt
      refine ⟨by simp [hc], by simp [hc], ?_, by simp [Nat.lt_asymm hlt], by simp [hlt]⟩
      constructor
      · intro h
        rw [h] at hc
        simp at hc
      · intro h
        simp at h

end SystemManager

/-- `std::bitset::set(t, b)` with `b` the negation of bit `t` flips exactly bit `t`. -/
theorem maskSet_flip (old : ComponentMask) (t : Nat) (hold : old < 2 ^ MAX_COMPONENTS)
    (ht : t < MAX_COMPONENTS) :
    maskSet old t (!old.testBit t) = some (old ^^^ 1 <<< t) := by
  simp only [maskSet, ht, if_true, Option.some.injEq]
  apply Nat.eq_of_testBit_eq
  intro j
  rw [testBit_xor_bit]
  cases hot : old.testBit t with
  | false =>
    simp only [Bool.not_false, if_true, Nat.testBit_or, Nat.one_shiftLeft, Nat.testBit_two_pow]
    by_cases hj : t = j
    · subst hj
      simp [hot]
    · simp [hj]
  | true =>
    simp only [Bool.not_true, Nat.testBit_and, Nat.testBit_xor, Nat.testBit_two_pow_sub_one,
      Nat.one_shiftLeft, Nat.testBit_two_pow]
    by_cases hj : t = j
    · subst hj
      simp [hot, ht]
    · cases hoj : Nat.testBit old j with
      | false => simp [hoj, hj]
      | true =>
        have hlt : j < MAX_COMPONENTS := by
          by_contra hge
          have h1 : 2 ^ MAX_COMPONENTS ≤ 2 ^ j :=
            Nat.pow_le_pow_right (by decide) (Nat.le_of_not_lt hge)
          have h2 : 2 ^ j ≤ old := Nat.testBit_implies_ge hoj
          exact absurd (Nat.lt_of_le_of_lt (Nat.le_trans h1 h2) hold) (Nat.lt_irrefl _)
        simp [hoj, hj, hlt]

/-- C16: let `new` be `old` with exactly bit `t` flipped, and let `S` be a registered
system (its object registered under this type name only) with interest mask `M`. Then
`entityComponentMaskChanged(e, old, new, t)` invokes `S.onEntityComponentAdded(e, t)` (and
nothing else) iff `M[t]` is set and `old[t]` is clear, invokes
`S.onEntityComponentRemoved(e, t)` (and nothing else) iff `M[t]` is set and `old[t]` is
set, and leaves `S` untouched (no hook, no membership change) iff `M[t]` is clear; the
unsigned comparison `(new & M) > (old & M)` holds exactly when a relevant bit was added
and `(new & M) < (old & M)` exactly when a relevant bit was removed. Each hook is recorded
with the `entities` of the system at the invocation, that is before the membership
change. The same holds for one visit of the loop, whatever the object and the interest
mask `M` of the visited pair are. -/
theorem single_bit_comparison {V : Type} (sm : SystemManager V) (world : World V) (S : String)
    (system : SystemRef) (e : Entity) (old : ComponentMask) (t : Component)
    (hS : sm.RegisteredOnlyAs system S) :
    ((((sm.entityComponentMaskChanged world e old (old ^^^ 1 <<< t) t).objects system).calls =
          (sm.objects system).calls ++
            [{ call := HookCall.onEntityComponentAdded e t
               entities := (sm.objects system).entities
               world := world }] ↔
        ((sm.systemComponentMask S).testBit t = true ∧ old.testBit t = false)) ∧
      (((sm.entityComponentMaskChanged world e old (old ^^^ 1 <<< t) t).objects system).calls =
          (sm.objects system).calls ++
            [{ call := HookCall.onEntityComponentRemoved e t
               entities := (sm.objects system).entities
               world := world }] ↔
        ((sm.systemComponentMask S).testBit t = true ∧ old.testBit t = true)) ∧
      ((sm.entityComponentMaskChanged world e old (old ^^^ 1 <<< t) t).objects system =
          sm.objects system ↔
        (sm.systemComponentMask S).testBit t = false) ∧
      (old &&& sm.systemComponentMask S < (old ^^^ 1 <<< t) &&& sm.systemComponentMask S ↔
        ((sm.systemComponentMask S).testBit t = true ∧ old.testBit t = false)) ∧
      ((old ^^^ 1 <<< t) &&& sm.systemComponentMask S < old &&& sm.systemComponentMask S ↔
        ((sm.systemComponentMask S).testBit t = true ∧ old.testBit t = true))) ∧
    ∀ (object : System V) (M : ComponentMask),
      (((SystemManager.entityComponentMaskChangedStep object world e old (old ^^^ 1 <<< t) M
            t).calls =
          object.calls ++
            [{ call := HookCall.onEntityComponentAdded e t
               entities := object.entities
               world := world }] ↔
        (M.testBit t = true ∧ old.testBit t = false)) ∧
      ((SystemManager.entityComponentMaskChangedStep object world e old (old ^^^ 1 <<< t) M
            t).calls =
          object.calls ++
            [{ call := HookCall.onEntityComponentRemoved e t
               entities := object.entities
               world := world }] ↔
        (M.testBit t = true ∧ old.testBit t = true)) ∧
      (SystemManager.entityComponentMaskChangedStep object world e old (old ^^^ 1 <<< t) M t =
          object ↔
        M.testBit t = false) ∧
      (old &&& M < (old ^^^ 1 <<< t) &&& M ↔ (M.testBit t = true ∧ old.testBit t = false)) ∧
      ((old ^^^ 1 <<< t) &&& M < old &&& M ↔ (M.testBit t = true ∧ old.testBit t = true))) := by
  refine ⟨?_, fun object M =>
    SystemManager.entityComponentMaskChangedStep_flip object world e old M t⟩
  rw [SystemManager.objects_entityComponentMaskChanged sm world e old _ t hS]
  exact SystemManager.entityComponentMaskChangedStep_flip _ world e old _ t

set_option maxRecDepth 100000 in
/-- C16, an instance: entity `0` of the sample scenario holds `A` and `Transform`
(mask `5`); bit `1` (`B`) is flipped, the system `S` (the object at address `0`) has
interest mask `{A, B}`. -/
theorem single_bit_comparison_witness :
    ECS.sampleWithA.m_systemManager.RegisteredOnlyAs 0 "S" ∧
    ((((ECS.sampleWithA.m_systemManager.entityComponentMaskChanged ECS.sampleWithA.world 0 5
            (5 ^^^ 1 <<< 1) 1).objects 0).calls =
          (ECS.sampleWithA.m_systemManager.objects 0).calls ++
            [{ call := HookCall.onEntityComponentAdded 0 1
               entities := (ECS.sampleWithA.m_systemManager.objects 0).entities
               world := ECS.sampleWithA.world }] ↔
        ((ECS.sampleWithA.m_systemManager.systemComponentMask "S").testBit 1 = true ∧
          Nat.testBit 5 1 = false)) ∧
      (((ECS.sampleWithA.m_systemManager.entityComponentMaskChanged ECS.sampleWithA.world 0 5
            (5 ^^^ 1 <<< 1) 1).objects 0).calls =
          (ECS.sampleWithA.m_systemManager.objects 0).calls ++
            [{ call := HookCall.onEntityComponentRemoved 0 1
               entities := (ECS.sampleWithA.m_systemManager.objects 0).entities
               world := ECS.sampleWithA.world }] ↔
        ((ECS.sampleWithA.m_systemManager.systemComponentMask "S").testBit 1 = true ∧
          Nat.testBit 5 1 = true)) ∧
      ((ECS.sampleWithA.m_systemManager.entityComponentMaskChanged ECS.sampleWithA.world 0 5
            (5 ^^^ 1 <<< 1) 1).objects 0 =
          ECS.sampleWithA.m_systemManager.objects 0 ↔
        (ECS.sampleWithA.m_systemManager.systemComponentMask "S").testBit 1 = false) ∧
      (5 &&& ECS.sampleWithA.m_systemManager.systemComponentMask "S" <
          (5 ^^^ 1 <<< 1) &&& ECS.sampleWithA.m_systemManager.systemComponentMask "S" ↔
        ((ECS.sampleWithA.m_systemManager.systemComponentMask "S").testBit 1 = true ∧
          Nat.testBit 5 1 = false)) ∧
      ((5 ^^^ 1 <<< 1) &&& ECS.sampleWithA.m_systemManager.systemComponentMask "S" <
          5 &&& ECS.sampleWithA.m_systemManager.systemComponentMask "S" ↔
        ((ECS.sampleWithA.m_systemManager.systemComponentMask "S").testBit 1 = true ∧
          Nat.testBit 5 1 = true))) ∧
    ∀ (object : System Nat) (M : ComponentMask),
      (((SystemManager.entityComponentMaskChangedStep object ECS.sampleWithA.world 0 5
            (5 ^^^ 1 <<< 1) M 1).calls =
          object.calls ++
            [{ call := HookCall.onEntityComponentAdded 0 1
               entities := object.entities
               world := ECS.sampleWithA.world }] ↔
        (M.testBit 1 = true ∧ Nat.testBit 5 1 = false)) ∧
      ((SystemManager.entityComponentMaskChangedStep object ECS.sampleWithA.world 0 5
            (5 ^^^ 1 <<< 1) M 1).calls =
          object.calls ++
            [{ call := HookCall.onEntityComponentRemoved 0 1
               entities := object.entities
               world := ECS.sampleWithA.world }] ↔
        (M.testBit 1 = true ∧ Nat.testBit 5 1 = true)) ∧
      (SystemManager.entityComponentMaskChangedStep object ECS.sampleWithA.world 0 5
            (5 ^^^ 1 <<< 1) M 1 =
          object ↔
        M.testBit 1 = false) ∧
      (5 &&& M < (5 ^^^ 1 <<< 1) &&& M ↔ (M.testBit 1 = true ∧ Nat.testBit 5 1 = false)) ∧
      ((5 ^^^ 1 <<< 1) &&& M < 5 &&& M ↔ (M.testBit 1 = true ∧ Nat.testBit 5 1 = true))) :=
  ⟨by decide,
    single_bit_comparison ECS.sampleWithA.m_systemManager ECS.sampleWithA.world "S" 0 0 5 1
      (by decide)⟩

/-! ## Notification: an entity that newly holds the whole interest mask -/

theorem maskSet_true_eq {m m1 : ComponentMask} {id : Nat} (h : maskSet m id true = some m1) :
    id < MAX_COMPONENTS ∧ m1 = m ||| 1 <<< id := by
  simp only [maskSet] at h
  split at h
  · rename_i hid
    simp only [if_true, Option.some.injEq] at h
    exact ⟨hid, h.symm⟩
  · simp at h

/-- Setting bit `t` turns a mask that does not contain `M` into one that does only if
bit `t` is a bit of `M` that was clear: the relevant part of the mask grows. -/
theorem and_lt_of_newly_matching (o M t : Nat) (hb : o &&& M ≠ M)
    (ha : (o ||| 1 <<< t) &&& M = M) : o &&& M < (o ||| 1 <<< t) &&& M := by
  cases hM : M.testBit t with
  | false =>
    rw [and_or_bit_of_clear o M t hM] at ha
    exact absurd ha hb
  | true =>
    cases ho : o.testBit t with
    | false => exact and_lt_and_or_bit o M t hM ho
    | true =>
      rw [or_bit_of_set o t ho] at ha
      exact absurd ha hb

set_option maxRecDepth 100000 in
/-- C11, the claim as stated fails, in two ways. First: in the sample scenario entity `0`
holds `A` and `Transform`, and the system `S` has interest mask `{A, B}`. Entity `0` is
already in `S.entities`, because it holds `A`. Then `addComponent<B>(0)` makes the mask of
entity `0` contain the whole interest mask (`mask & M` was `1`, not `M = 3`, and is `3`
afterwards); the hook is invoked, with entity `0` in the `entities` it observes, and no
insertion takes place: entity `0` was a member before the call. Second: when one system
object is registered as `S1` with interest mask `{A}` and as `S2` with interest mask
`{A, B}`, `addComponent<A>(0)` makes entity `0` newly match `S1`, and the hook of the object
is invoked twice during the call. -/
theorem newly_matching_counterexample :
    (ECS.sampleWithA.m_systemManager.m_systems = [("S", 0)] ∧
      ECS.sampleWithA.m_systemManager.systemComponentMask "S" = 3 ∧
      ECS.sampleWithA.m_entityManager.m_componentMasks 0 &&& 3 ≠ 3 ∧
      ECS.sampleWithA.addComponent "B" 0 8 = Outcome.ok () ECS.sampleWithAB ∧
      ECS.sampleWithAB.m_entityManager.m_componentMasks 0 &&& 3 = 3 ∧
      (ECS.sampleWithA.m_systemManager.objects 0).entities = [0] ∧
      (ECS.sampleWithAB.m_systemManager.objects 0).entities = [0] ∧
      (ECS.sampleWithAB.m_systemManager.objects 0).calls.map
          (fun record => (record.call, record.entities)) =
        (ECS.sampleWithA.m_systemManager.objects 0).calls.map
            (fun record => (record.call, record.entities)) ++
          [(HookCall.onEntityComponentAdded 0 1, [0])] ∧
      ¬ (0 ∉ (ECS.sampleWithA.m_systemManager.objects 0).entities)) ∧
    ((ECS.init : ECS Nat).run sharedRegistration = some ECS.sampleShared ∧
      ECS.sampleShared.run [Call.createEntity] = some ECS.sampleSharedCreated ∧
      ECS.sampleSharedCreated.m_systemManager.m_systems = [("S1", 0), ("S2", 0)] ∧
      ECS.sampleSharedCreated.m_systemManager.systemComponentMask "S1" = 1 ∧
      ECS.sampleSharedCreated.m_entityManager.m_componentMasks 0 &&& 1 ≠ 1 ∧
      ECS.sampleSharedCreated.addComponent "A" 0 7 = Outcome.ok () ECS.sampleSharedWithA ∧
      ECS.sampleSharedWithA.m_entityManager.m_componentMasks 0 &&& 1 = 1 ∧
      (ECS.sampleSharedCreated.m_systemManager.objects 0).calls.map HookRecord.call = [] ∧
      (ECS.sampleSharedWithA.m_systemManager.objects 0).calls.map HookRecord.call =
        [HookCall.onEntityComponentAdded 0 0, HookCall.onEntityComponentAdded 0 0]) := by
  refine ⟨⟨by decide, by decide, by decide, rfl, by decide, by decide, by decide, by decide,
    by decide⟩, rfl, rfl, by decide, by decide, by decide, rfl, by decide, by decide, by decide⟩

/-- C11 (amended): let `S` be a registered system, its object registered under this type
name only, with interest mask `M`, and let `addComponent<T>(e, v)` succeed with
`mask(e) & M != M` before the call and `mask(e) & M == M` after it. Then, when the call
returns, the object has received exactly one more hook invocation,
`S.onEntityComponentAdded(e, id(T))`; the hook observed `S.entities` as it was before the
call, that is before any insertion, and the entity manager and the component stores as
they are when the call returns (the component stored, the new mask written). `e` is
inserted into `S.entities` exactly when `mask(e) & M` was zero before the call (the entity
held no component of `M`); when `mask(e) & M` was not zero, `S.entities` is left as it is.
In both cases an entity that was in `S.entities` or held no component of `M` is in
`S.entities` afterwards. -/
theorem newly_matching_notification {V : Type} (ecs ecs1 : ECS V) (S T : String) (e : Entity)
    (v : V) (system : SystemRef)
    (hS : ecs.m_systemManager.RegisteredOnlyAs system S)
    (hadd : ecs.addComponent T e v = Outcome.ok () ecs1)
    (hbefore : ecs.m_entityManager.m_componentMasks e &&&
      ecs.m_systemManager.systemComponentMask S ≠ ecs.m_systemManager.systemComponentMask S)
    (hafter : ecs1.m_entityManager.m_componentMasks e &&&
      ecs.m_systemManager.systemComponentMask S = ecs.m_systemManager.systemComponentMask S) :
    ∃ id,
      ecs.getComponentId T = some id ∧
      (ecs1.m_systemManager.objects system).calls =
        (ecs.m_systemManager.objects system).calls ++
          [{ call := HookCall.onEntityComponentAdded e id
             entities := (ecs.m_systemManager.objects system).entities
             world := ecs1.world }] ∧
      (ecs.m_entityManager.m_componentMasks e &&& ecs.m_systemManager.systemComponentMask S = 0 →
        (ecs1.m_systemManager.objects system).entities =
          (ecs.m_systemManager.objects system).entities.insert e) ∧
      (ecs.m_entityManager.m_componentMasks e &&& ecs.m_systemManager.systemComponentMask S ≠ 0 →
        (ecs1.m_systemManager.objects system).entities =
          (ecs.m_systemManager.objects system).entities) ∧
      (e ∈ (ecs.m_systemManager.objects system).entities ∨
        ecs.m_entityManager.m_componentMasks e &&& ecs.m_systemManager.systemComponentMask S = 0 →
        e ∈ (ecs1.m_systemManager.objects system).entities) := by
  obtain ⟨cm, id, newMask, he, hcm, hid, hmask, rfl⟩ := ECS.addComponent_ok hadd
  obtain ⟨_, _, _, _, _, _, rfl⟩ := ComponentManager.store_addComponent_ok hcm
  obtain ⟨_, rfl⟩ := maskSet_true_eq hmask
  simp only [Function.update_same] at hafter
  have hlt := and_lt_of_newly_matching _ _ _ hbefore hafter
  refine ⟨id, hid, ?_, ?_, ?_, ?_⟩
  · show ((ecs.m_systemManager.entityComponentMaskChanged _ e _ _ id).objects system).calls = _
    rw [SystemManager.objects_entityComponentMaskChanged _ _ _ _ _ _ hS]
    exact SystemManager.calls_entityComponentMaskChangedStep_added _ _ _ _ _ _ _ hlt
  · intro h0
    show ((ecs.m_systemManager.entityComponentMaskChanged _ e _ _ id).objects system).entities = _
    rw [SystemManager.objects_entityComponentMaskChanged _ _ _ _ _ _ hS,
      SystemManager.entityComponentMaskChangedStep_added _ _ _ _ _ _ _ hlt, if_pos h0]
    rfl
  · intro h0
    show ((ecs.m_systemManager.entityComponentMaskChanged _ e _ _ id).objects system).entities = _
    rw [SystemManager.objects_entityComponentMaskChanged _ _ _ _ _ _ hS,
      SystemManager.entityComponentMaskChangedStep_added _ _ _ _ _ _ _ hlt, if_neg h0]
    rfl
  · intro h
    show e ∈ ((ecs.m_systemManager.entityComponentMaskChanged _ e _ _ id).objects system).entities
    rw [SystemManager.objects_entityComponentMaskChanged _ _ _ _ _ _ hS,
      SystemManager.entityComponentMaskChangedStep_added _ _ _ _ _ _ _ hlt]
    split
    · simp [System.insertEntity, System.onEntityComponentAdded]
    · rename_i h0
      rcases h with h | h
      · exact h
      · exact absurd h h0

set_option maxRecDepth 100000 in
/-- C11 (amended), an instance: `addComponent<B>(0, 8)` in the sample scenario, where
entity `0` holds `A` and the system `S` (the object at address `0`) has interest mask
`{A, B}`. -/
theorem newly_matching_notification_witness :
    ECS.sampleWithA.m_systemManager.RegisteredOnlyAs 0 "S" ∧
    ECS.sampleWithA.addComponent "B" 0 8 = Outcome.ok () ECS.sampleWithAB ∧
    ECS.sampleWithA.m_entityManager.m_componentMasks 0 &&&
      ECS.sampleWithA.m_systemManager.systemComponentMask "S" ≠
        ECS.sampleWithA.m_systemManager.systemComponentMask "S" ∧
    ECS.sampleWithAB.m_entityManager.m_componentMasks 0 &&&
      ECS.sampleWithA.m_systemManager.systemComponentMask "S" =
        ECS.sampleWithA.m_systemManager.systemComponentMask "S" ∧
    ∃ id,
      ECS.sampleWithA.getComponentId "B" = some id ∧
      (ECS.sampleWithAB.m_systemManager.objects 0).calls =
        (ECS.sampleWithA.m_systemManager.objects 0).calls ++
          [{ call := HookCall.onEntityComponentAdded 0 id
             entities := (ECS.sampleWithA.m_systemManager.objects 0).entities
             world := ECS.sampleWithAB.world }] ∧
      (ECS.sampleWithA.m_entityManager.m_componentMasks 0 &&&
          ECS.sampleWithA.m_systemManager.systemComponentMask "S" = 0 →
        (ECS.sampleWithAB.m_systemManager.objects 0).entities =
          (ECS.sampleWithA.m_systemManager.objects 0).entities.insert 0) ∧
      (ECS.sampleWithA.m_entityManager.m_componentMasks 0 &&&
          ECS.sampleWithA.m_systemManager.systemComponentMask "S" ≠ 0 →
        (ECS.sampleWithAB.m_systemManager.objects 0).entities =
          (ECS.sampleWithA.m_systemManager.objects 0).entities) ∧
      (0 ∈ (ECS.sampleWithA.m_systemManager.objects 0).entities ∨
        ECS.sampleWithA.m_entityManager.m_componentMasks 0 &&&
          ECS.sampleWithA.m_systemManager.systemComponentMask "S" = 0 →
        0 ∈ (ECS.sampleWithAB.m_systemManager.objects 0).entities) :=
  ⟨by decide, rfl, by decide, by decide,
    newly_matching_notification ECS.sampleWithA ECS.sampleWithAB "S" "B" 0 8 0 (by decide) rfl
      (by decide) (by decide)⟩
/-! ## The facade: destruction and the membership sets -/

namespace SystemManager

variable {V : Type}

/-- The inner loop of `entityDestroyed`, over any list of bit positions. -/
theorem foldl_entityDestroyed (world : World V) (e : Entity) (k : Nat) (l : List Nat) :
    ∀ (b : Bool) (s : System V),
    l.foldl
      (fun (acc : Bool × System V) i =>
        if k.testBit i then (true, acc.2.onEntityComponentRemoved world e i) else acc) (b, s) =
      (b || l.any (fun i => k.testBit i),
        { s with calls := s.calls ++
            (l.filter (fun i => k.testBit i)).map (fun i =>
              ⟨HookCall.onEntityComponentRemoved e i, s.entities, world⟩) }) := by
  induction l with
  | nil => intro b s; simp
  | cons i l ih =>
    intro b s
    simp only [List.foldl_cons]
    cases hi : k.testBit i with
    | false =>
      simp only [Bool.false_eq_true, if_false]
      rw [ih]
      simp [List.filter_cons, hi]
    | true =>
      simp only [if_true]
      rw [ih]
      simp [List.filter_cons, hi, System.onEntityComponentRemoved]

/-- The hooks fired by `entityDestroyed` for one system: one `onEntityComponentRemoved`
per bit of `entityComponents & systemComponentMask` below `MAX_COMPONENTS`, in
increasing order of the bits, each of them observing the `entities` of the system as they
were before the visit. -/
theorem calls_entityDestroyedStep (system : System V) (world : World V) (e : Entity)
    (m M : ComponentMask) :
    (entityDestroyedStep system world e m M).calls =
      system.calls ++
        ((List.range MAX_COMPONENTS).filter (fun i => (m &&& M).testBit i)).map
          (fun i =>
            { call := HookCall.onEntityComponentRemoved e i
              entities := system.entities
              world := world }) := by
  simp only [entityDestroyedStep, foldl_entityDestroyed]
  split <;> rfl

/-- Membership after `entityDestroyed` for one system: the entity is erased iff a hook
was fired; nothing else changes. -/
theorem mem_entityDestroyedStep (system : System V) (world : World V) (e : Entity)
    (m M : ComponentMask) (x : Entity) :
    x ∈ (entityDestroyedStep system world e m M).entities ↔
      (x ∈ system.entities ∧
        ¬ (x = e ∧ ∃ i, i < MAX_COMPONENTS ∧ (m &&& M).testBit i = true)) := by
  simp only [entityDestroyedStep, foldl_entityDestroyed, Bool.false_or]
  split
  · rename_i hany
    simp only [List.any_eq_true, List.mem_range] at hany
    simp only [System.eraseEntity, List.mem_filter, decide_eq_true_eq]
    constructor
    · rintro ⟨hx, hne⟩
      exact ⟨hx, fun h => hne h.1⟩
    · rintro ⟨hx, hn⟩
      exact ⟨hx, fun h => hn ⟨h, hany⟩⟩
  · rename_i hany
    simp only [List.any_eq_true, List.mem_range] at hany
    constructor
    · intro hx
      exact ⟨hx, fun h => hany h.2⟩
    · exact fun h => h.1

/-- Membership after one notification, for a system none of whose members is stale:
the entity is a member afterwards only if the new mask meets the interest mask, and
other entities are untouched. -/
theorem stale_entityComponentMaskChangedStep (system : System V) (world : World V)
    (e : Entity) (o n M : ComponentMask) (c : Component)
    (h : e ∈ system.entities → o &&& M ≠ 0) (x : Entity)
    (hx : x ∈ (entityComponentMaskChangedStep system world e o n M c).entities) :
    (x = e → n &&& M ≠ 0) ∧ (x ≠ e → x ∈ system.entities) := by
  rcases Nat.lt_trichotomy (o &&& M) (n &&& M) with hlt | heq | hgt
  · rw [entityComponentMaskChangedStep_added _ _ _ _ _ _ _ hlt] at hx
    refine ⟨fun _ => Nat.ne_of_gt (Nat.lt_of_le_of_lt (Nat.zero_le _) hlt), fun hne => ?_⟩
    split at hx
    · simpa [System.insertEntity, System.onEntityComponentAdded, hne] using hx
    · exact hx
  · rw [entityComponentMaskChangedStep_same _ _ _ _ _ _ _ heq.symm] at hx
    exact ⟨fun hxe => by rw [← heq]; exact h (hxe ▸ hx), fun _ => hx⟩
  · rw [entityComponentMaskChangedStep_removed _ _ _ _ _ _ _ hgt] at hx
    split at hx
    · simp only [System.eraseEntity, System.onEntityComponentRemoved, List.mem_filter,
        decide_eq_true_eq] at hx
      exact ⟨fun hxe => absurd hxe hx.2, fun _ => hx.1⟩
    · rename_i hn0
      exact ⟨fun _ => hn0, fun _ => hx⟩

end SystemManager

namespace ECS

variable {V : Type}

/-- What a successful `createEntity` did. -/
theorem createEntity_ok [Inhabited V] {ecs ecs1 : ECS V} {id : Entity}
    (h : ecs.createEntity = Outcome.ok id ecs1) :
    ∃ em, ecs.m_entityManager.createEntity = Outcome.ok id em ∧
      ({ ecs with m_entityManager := em } : ECS V).addComponent TransformName id default =
        Outcome.ok () ecs1 := by
  simp only [ECS.createEntity] at h
  split at h
  · simp at h
  · rename_i newEntity em hem
    split at h
    · simp at h
    · rename_i u st hadd
      simp only [Outcome.ok.injEq] at h
      obtain ⟨rfl, rfl⟩ := h
      exact ⟨em, hem, hadd⟩

/-- What a successful `createEntity(name)` did. -/
theorem createEntityNamed_ok [Inhabited V] {ecs ecs1 : ECS V} {name : String} {id : Entity}
    (h : ecs.createEntityNamed name = Outcome.ok id ecs1) :
    ∃ em, ecs.m_entityManager.createEntityNamed name = Outcome.ok id em ∧
      ({ ecs with m_entityManager := em } : ECS V).addComponent TransformName id default =
        Outcome.ok () ecs1 := by
  simp only [ECS.createEntityNamed] at h
  split at h
  · simp at h
  · rename_i newEntity em hem
    split at h
    · simp at h
    · rename_i u st hadd
      simp only [Outcome.ok.injEq] at h
      obtain ⟨rfl, rfl⟩ := h
      exact ⟨em, hem, hadd⟩

/-- What a successful `setEntityName` did. -/
theorem facade_setEntityName_ok {ecs ecs1 : ECS V} {e : Entity} {name : String}
    (h : ecs.setEntityName e name = Outcome.ok () ecs1) :
    ecs1.m_componentManager = ecs.m_componentManager ∧
      ecs1.m_systemManager = ecs.m_systemManager ∧
      ecs1.m_entityManager.m_componentMasks = ecs.m_entityManager.m_componentMasks ∧
      ecs1.m_entityManager.m_entities = ecs.m_entityManager.m_entities ∧
      ecs1.m_entityManager.m_numberOfEntities = ecs.m_entityManager.m_numberOfEntities := by
  simp only [ECS.setEntityName, EntityManager.setEntityName] at h
  cases hn : ecs.m_entityManager.m_nameToEntity name with
  | some x => simp [hn] at h
  | none =>
    simp only [hn, Outcome.ok.injEq, true_and] at h
    subst h
    exact ⟨rfl, rfl, rfl, rfl, rfl⟩

/-- What a successful `registerComponent` did. -/
theorem facade_registerComponent_ok [Inhabited V] {ecs ecs1 : ECS V} {typeName : String}
    (h : ecs.registerComponent typeName = Outcome.ok () ecs1) :
    ecs.m_componentManager.m_componentTypes typeName = none ∧
      ecs1.m_entityManager = ecs.m_entityManager ∧
      ecs1.m_systemManager = ecs.m_systemManager ∧
      ecs1.m_componentManager.m_componentTypes =
        Function.update ecs.m_componentManager.m_componentTypes typeName
          (some ecs.m_componentManager.m_nextComponent) ∧
      ecs1.m_componentManager.m_componentArrays =
        mapInsert ecs.m_componentManager.m_componentArrays typeName ComponentArray.new ∧
      ecs1.m_componentManager.m_nextComponent =
        (ecs.m_componentManager.m_nextComponent + 1) % 256 := by
  simp only [ECS.registerComponent, ComponentManager.registerComponent] at h
  cases ht : ecs.m_componentManager.m_componentTypes typeName with
  | some t => simp [ht] at h
  | none =>
    simp only [ht, Outcome.ok.injEq, true_and] at h
    subst h
    exact ⟨rfl, rfl, rfl, mapInsert_of_none _ _ _ ht, rfl, rfl⟩

/-- What a successful `registerSystem` did. -/
theorem facade_registerSystem_ok {ecs ecs1 : ECS V} {typeName : String} {system : SystemRef}
    (h : ecs.registerSystem typeName system = Outcome.ok () ecs1) :
    lookupSystem ecs.m_systemManager.m_systems typeName = none ∧
      ecs1.m_entityManager = ecs.m_entityManager ∧
      ecs1.m_componentManager = ecs.m_componentManager ∧
      ecs1.m_systemManager.m_componentMasks = ecs.m_systemManager.m_componentMasks ∧
      ecs1.m_systemManager.m_systems = ecs.m_systemManager.m_systems ++ [(typeName, system)] ∧
      ecs1.m_systemManager.objects = ecs.m_systemManager.objects := by
  simp only [ECS.registerSystem, SystemManager.registerSystem] at h
  cases ht : lookupSystem ecs.m_systemManager.m_systems typeName with
  | some t => simp [ht] at h
  | none =>
    simp only [ht, Outcome.ok.injEq, true_and] at h
    subst h
    exact ⟨rfl, rfl, rfl, rfl, rfl, rfl⟩

/-- What a successful `setSystemComponents` did. -/
theorem facade_setSystemComponents_ok {ecs ecs1 : ECS V} {typeName : String}
    {componentMask : ComponentMask}
    (h : ecs.setSystemComponents typeName componentMask = Outcome.ok () ecs1) :
    ecs1.m_entityManager = ecs.m_entityManager ∧
      ecs1.m_componentManager = ecs.m_componentManager ∧
      ecs1.m_systemManager.m_systems = ecs.m_systemManager.m_systems ∧
      ecs1.m_systemManager.m_componentMasks =
        mapInsert ecs.m_systemManager.m_componentMasks typeName componentMask ∧
      ecs1.m_systemManager.objects = ecs.m_systemManager.objects := by
  simp only [ECS.setSystemComponents, SystemManager.setComponents] at h
  cases ht : lookupSystem ecs.m_systemManager.m_systems typeName with
  | none => simp [ht] at h
  | some t =>
    simp only [ht, Outcome.ok.injEq, true_and] at h
    subst h
    exact ⟨rfl, rfl, rfl, rfl, rfl⟩

/-! ### Masks stay in range -/

theorem MasksInRange.range_congr {ecs ecs1 : ECS V} (h : ecs.MasksInRange)
    (hm : ecs1.m_entityManager.m_componentMasks = ecs.m_entityManager.m_componentMasks) :
    ecs1.MasksInRange := by
  intro e t ht
  rw [hm] at ht
  exact h e t ht

theorem MasksInRange.range_update {ecs ecs1 : ECS V} (h : ecs.MasksInRange) {e : Entity}
    {m : ComponentMask}
    (hm : ecs1.m_entityManager.m_componentMasks =
      Function.update ecs.m_entityManager.m_componentMasks e m)
    (hb : ∀ t, m.testBit t = true → t < MAX_COMPONENTS) : ecs1.MasksInRange := by
  intro x t ht
  rw [hm, Function.update_apply] at ht
  split at ht
  · exact hb t ht
  · exact h x t ht

theorem MasksInRange.range_addComponent {ecs ecs1 : ECS V} (h : ecs.MasksInRange)
    {typeName : String} {e : Entity} {v : V}
    (hc : ecs.addComponent typeName e v = Outcome.ok () ecs1) : ecs1.MasksInRange := by
  obtain ⟨cm, id, newMask, he, _, _, hmask, rfl⟩ := addComponent_ok hc
  obtain ⟨hid, hbits⟩ := maskSet_true hmask
  refine h.range_update rfl ?_
  intro t ht
  rw [hbits t] at ht
  simp only [Bool.or_eq_true, decide_eq_true_eq] at ht
  rcases ht with ht | ht
  · exact h e t ht
  · exact ht ▸ hid

theorem MasksInRange.range_removeComponent {ecs ecs1 : ECS V} (h : ecs.MasksInRange)
    {typeName : String} {e : Entity}
    (hc : ecs.removeComponent typeName e = Outcome.ok () ecs1) : ecs1.MasksInRange := by
  obtain ⟨cm, id, newMask, he, _, _, hmask, rfl⟩ := removeComponent_ok hc
  obtain ⟨hid, hbits⟩ := maskSet_false hmask
  refine h.range_update rfl ?_
  intro t ht
  rw [hbits t] at ht
  simp only [Bool.and_eq_true] at ht
  exact h e t ht.1

theorem MasksInRange.range_destroyEntity {ecs ecs1 : ECS V} (h : ecs.MasksInRange) {e : Entity}
    (hc : ecs.destroyEntity e = Outcome.ok () ecs1) : ecs1.MasksInRange := by
  obtain ⟨_, _, hmasks, _⟩ := facade_destroyEntity_ok hc
  refine h.range_update hmasks ?_
  intro t ht
  simp at ht

theorem MasksInRange.range_step [Inhabited V] {ecs ecs1 : ECS V} (h : ecs.MasksInRange)
    {c : Call V} (hs : ecs.step c = some ecs1) : ecs1.MasksInRange := by
  cases c with
  | createEntity =>
    obtain ⟨a, ha⟩ := state?_eq_some hs
    obtain ⟨em, hem, hadd⟩ := createEntity_ok ha
    have h1 : ({ ecs with m_entityManager := em } : ECS V).MasksInRange :=
      h.range_congr (EntityManager.createEntity_masks hem).1
    exact h1.range_addComponent hadd
  | createEntityNamed name =>
    obtain ⟨a, ha⟩ := state?_eq_some hs
    obtain ⟨em, hem, hadd⟩ := createEntityNamed_ok ha
    have h1 : ({ ecs with m_entityManager := em } : ECS V).MasksInRange :=
      h.range_congr (EntityManager.createEntityNamed_masks hem).1
    exact h1.range_addComponent hadd
  | destroyEntity e =>
    obtain ⟨a, ha⟩ := state?_eq_some hs
    exact h.range_destroyEntity ha
  | setEntityName e n =>
    obtain ⟨a, ha⟩ := state?_eq_some hs
    exact h.range_congr (facade_setEntityName_ok ha).2.2.1
  | registerComponent t =>
    obtain ⟨a, ha⟩ := state?_eq_some hs
    exact h.range_congr (by rw [(facade_registerComponent_ok ha).2.1])
  | addComponent t e v =>
    obtain ⟨a, ha⟩ := state?_eq_some hs
    exact h.range_addComponent ha
  | removeComponent t e =>
    obtain ⟨a, ha⟩ := state?_eq_some hs
    exact h.range_removeComponent ha
  | registerSystem t s =>
    obtain ⟨a, ha⟩ := state?_eq_some hs
    exact h.range_congr (by rw [(facade_registerSystem_ok ha).2.1])
  | setSystemComponents t m =>
    obtain ⟨a, ha⟩ := state?_eq_some hs
    exact h.range_congr (by rw [(facade_setSystemComponents_ok ha).1])

theorem MasksInRange.range_run [Inhabited V] (calls : List (Call V)) : ∀ (ecs ecs1 : ECS V),
    ecs.MasksInRange → ecs.run calls = some ecs1 → ecs1.MasksInRange := by
  induction calls with
  | nil =>
    intro ecs ecs1 h hr
    simp only [ECS.run, Option.some.injEq] at hr
    exact hr ▸ h
  | cons c cs ih =>
    intro ecs ecs1 h hr
    simp only [ECS.run] at hr
    split at hr
    · simp at hr
    · rename_i ecs2 hs
      exact ih ecs2 ecs1 (h.range_step hs) hr

/-- A mask in range that meets an interest mask meets it in a bit below `MAX_COMPONENTS`. -/
theorem MasksInRange.exists_bit {ecs : ECS V} (h : ecs.MasksInRange) (e : Entity)
    (M : ComponentMask) (hne : ecs.m_entityManager.m_componentMasks e &&& M ≠ 0) :
    ∃ i, i < MAX_COMPONENTS ∧ (ecs.m_entityManager.m_componentMasks e &&& M).testBit i = true := by
  obtain ⟨i, hi⟩ := Nat.ne_zero_implies_bit_true hne
  refine ⟨i, h e i ?_, hi⟩
  rw [Nat.testBit_and, Bool.and_eq_true] at hi
  exact hi.1

/-! ### Membership sets after `destroyEntity` -/

theorem MembersHoldSome.some_destroyEntity {ecs ecs1 : ECS V} (h : ecs.MembersHoldSome)
    (hr : ecs.MasksInRange) (hal : ecs.m_systemManager.Unaliased) {e : Entity}
    (hc : ecs.destroyEntity e = Outcome.ok () ecs1) : ecs1.MembersHoldSome := by
  obtain ⟨he, _, hmasks, hsm⟩ := facade_destroyEntity_ok hc
  intro type system hs x
  rw [hsm] at hs ⊢
  have hs0 : (type, system) ∈ ecs.m_systemManager.m_systems := hs
  have h0 := h type system hs0
  rw [SystemManager.objects_entityDestroyed _ _ _ _ (hal.registeredOnlyAs hs0),
    SystemManager.mem_entityDestroyedStep, SystemManager.systemComponentMask_entityDestroyed,
    hmasks, Function.update_apply]
  by_cases hx : x = e
  · subst hx
    simp only [if_true, Nat.zero_and, ne_eq, not_true_eq_false, and_false, iff_false, true_and,
      not_and, not_not]
    intro hmem
    exact hr.exists_bit x _ ((h0 x).1 hmem).2
  · simp only [hx, if_false, false_and, not_false_eq_true, and_true]
    exact h0 x

end ECS
namespace ECS

variable {V : Type}

theorem destroyEntity_systems {ecs ecs1 : ECS V} {e : Entity}
    (hc : ecs.destroyEntity e = Outcome.ok () ecs1) :
    ecs1.m_systemManager.m_systems = ecs.m_systemManager.m_systems ∧
    ∀ type, ecs1.m_systemManager.systemComponentMask type =
      ecs.m_systemManager.systemComponentMask type := by
  obtain ⟨_, _, _, hsm⟩ := facade_destroyEntity_ok hc
  rw [hsm]
  exact ⟨rfl, fun type => by simp⟩

theorem lifecycle_cases {c : Call V} (hc : c.isLifecycle = true) :
    c.isCreateAddRemove = true ∨ ∃ e, c = Call.destroyEntity e := by
  cases c with
  | createEntity => exact Or.inl rfl
  | createEntityNamed name => exact Or.inl rfl
  | addComponent t e v => exact Or.inl rfl
  | removeComponent t e => exact Or.inl rfl
  | destroyEntity e => exact Or.inr ⟨e, rfl⟩
  | setEntityName e n => simp [Call.isLifecycle] at hc
  | registerComponent t => simp [Call.isLifecycle] at hc
  | registerSystem t s => simp [Call.isLifecycle] at hc
  | setSystemComponents t m => simp [Call.isLifecycle] at hc

theorem MembersHoldSome.lifecycle_step [Inhabited V] {ecs ecs1 : ECS V} (h : ecs.MembersHoldSome)
    (hr : ecs.MasksInRange) (hal : ecs.m_systemManager.Unaliased) {c : Call V}
    (hc : c.isLifecycle = true) (hs : ecs.step c = some ecs1) :
    ecs1.MembersHoldSome ∧
      ecs1.m_systemManager.m_systems = ecs.m_systemManager.m_systems ∧
      ∀ type, ecs1.m_systemManager.systemComponentMask type =
        ecs.m_systemManager.systemComponentMask type := by
  rcases lifecycle_cases hc with hc1 | ⟨e, rfl⟩
  · exact ⟨h.some_step hal hc1 hs, step_systems hc1 hs⟩
  · obtain ⟨a, ha⟩ := state?_eq_some hs
    exact ⟨h.some_destroyEntity hr hal ha, destroyEntity_systems ha⟩

theorem MembersHoldSome.lifecycle_run [Inhabited V] (calls : List (Call V)) :
    ∀ (ecs ecs1 : ECS V), ecs.MembersHoldSome → ecs.MasksInRange →
    ecs.m_systemManager.Unaliased →
    (∀ c ∈ calls, c.isLifecycle = true) → ecs.run calls = some ecs1 →
    ecs1.MembersHoldSome ∧
      ecs1.m_systemManager.m_systems = ecs.m_systemManager.m_systems ∧
      ∀ type, ecs1.m_systemManager.systemComponentMask type =
        ecs.m_systemManager.systemComponentMask type := by
  induction calls with
  | nil =>
    intro ecs ecs1 h _ _ _ hrun
    simp only [ECS.run, Option.some.injEq] at hrun
    subst hrun
    exact ⟨h, rfl, fun _ => rfl⟩
  | cons c cs ih =>
    intro ecs ecs1 h hr hal hall hrun
    simp only [ECS.run] at hrun
    cases hs : ecs.step c with
    | none => simp [hs] at hrun
    | some ecs2 =>
      simp only [hs] at hrun
      obtain ⟨h2, hsys2, hmask2⟩ := h.lifecycle_step hr hal (hall c (List.mem_cons_self _ _)) hs
      have hal2 : ecs2.m_systemManager.Unaliased := by
        unfold SystemManager.Unaliased
        rw [hsys2]
        exact hal
      obtain ⟨h3, hsys3, hmask3⟩ := ih ecs2 ecs1 h2 (hr.range_step hs) hal2
        (fun c1 hc1 => hall c1 (List.mem_cons_of_mem _ hc1)) hrun
      exact ⟨h3, hsys3.trans hsys2, fun type => (hmask3 type).trans (hmask2 type)⟩

theorem Unpopulated.masksInRange {ecs : ECS V} (h : ecs.Unpopulated) : ecs.MasksInRange := by
  intro e t ht
  rw [h.1 e] at ht
  simp at ht

end ECS

set_option maxRecDepth 100000 in
/-- C18, the claim as stated fails: `registerSystem<T>(System*)` stores the pointer, so one
system object can be registered under two type names. On a fresh ECS register `A`
(bit 0), `B` (bit 1), `Transform` (bit 2), and the object at address `0` as `S1` with
interest mask `{A}` and as `S2` with interest mask `{B}`. Then `createEntity()` returns
entity `0`, and `addComponent<A>(0)`, `addComponent<B>(0)`, `removeComponent<A>(0)` succeed.
The last call erases entity `0` from the `entities` of the object on behalf of `S1`;
entity `0` still holds `B` (its mask is `6`), so for `S2` a member is missing. Each of the
calls changes the object on behalf of one of the two registrations only, so the order in
which the registrations are visited plays no part. -/
theorem actual_membership_counterexample :
    (ECS.init : ECS Nat).run aliasedRegistration = some ECS.sampleAliased ∧
    ECS.sampleAliased.Unpopulated ∧
    (∀ c ∈ addAddRemove, c.isLifecycle = true) ∧
    ECS.sampleAliased.run addAddRemove = some ECS.sampleAliasedWithB ∧
    ECS.sampleAliasedWithB.m_systemManager.m_systems = [("S1", 0), ("S2", 0)] ∧
    ECS.sampleAliasedWithB.m_systemManager.systemComponentMask "S2" = 2 ∧
    ECS.sampleAliasedWithB.m_entityManager.m_componentMasks 0 = 6 ∧
    (ECS.sampleAliasedWithB.m_systemManager.objects 0).entities = [] ∧
    (ECS.sampleAliasedWithB.m_systemManager.objects 0).calls.map HookRecord.call =
      [HookCall.onEntityComponentAdded 0 0, HookCall.onEntityComponentAdded 0 1,
        HookCall.onEntityComponentRemoved 0 0] ∧
    ¬ ECS.sampleAliasedWithB.MembersHoldSome := by
  refine ⟨rfl, ⟨fun _ => rfl, fun _ _ _ => rfl⟩, by decide, rfl, by decide, by decide, by decide,
    by decide, by decide, ?_⟩
  intro hsome
  have h := hsome "S2" 0 (by decide) 0
  have hmem : (0 : Entity) ∈ (ECS.sampleAliasedWithB.m_systemManager.objects 0).entities :=
    h.2 ⟨by decide, by decide⟩
  exact absurd hmem (by decide)

/-- C18 (amended): start from a facade state in which no entity holds a component, no
system has a member (systems registered with their interest masks, no entity created) and
no system object is registered under two type names. After every sequence of successful
`createEntity` / `createEntity(name)` / `destroyEntity` / `addComponent` /
`removeComponent` calls the registered systems and their interest masks are the same, and
for every registered system `S` with interest mask `M`, `S.entities` is exactly the set
`{ e : mask(e) & M != 0 }` of the entities holding at least one component of `M`: no stale
and no missing member. -/
theorem actual_membership_invariant {V : Type} [Inhabited V] (s0 s : ECS V)
    (calls : List (Call V)) (hstart : s0.Unpopulated)
    (hdistinct : s0.m_systemManager.Unaliased)
    (hcalls : ∀ c ∈ calls, c.isLifecycle = true)
    (hrun : s0.run calls = some s) :
    s.m_systemManager.m_systems = s0.m_systemManager.m_systems ∧
    (∀ type,
      s.m_systemManager.systemComponentMask type = s0.m_systemManager.systemComponentMask type) ∧
    ∀ type system, (type, system) ∈ s.m_systemManager.m_systems →
      ∀ e, e ∈ (s.m_systemManager.objects system).entities ↔
        (e < MAX_ENTITIES ∧
          s.m_entityManager.m_componentMasks e &&& s.m_systemManager.systemComponentMask type ≠ 0) :=
  ⟨(ECS.MembersHoldSome.lifecycle_run calls s0 s hstart.membersHoldSome hstart.masksInRange
      hdistinct hcalls hrun).2.1,
    (ECS.MembersHoldSome.lifecycle_run calls s0 s hstart.membersHoldSome hstart.masksInRange
      hdistinct hcalls hrun).2.2,
    (ECS.MembersHoldSome.lifecycle_run calls s0 s hstart.membersHoldSome hstart.masksInRange
      hdistinct hcalls hrun).1⟩

set_option maxRecDepth 100000 in
theorem sampleDestroyed_run :
    ECS.sampleRegistered.run
        [Call.createEntity, Call.addComponent "A" 0 7, Call.destroyEntity 0] =
      some ECS.sampleDestroyed := rfl

set_option maxRecDepth 100000 in
/-- C18 (amended), an instance: the sample registration, then `createEntity()`,
`addComponent<A>(0)` and `destroyEntity(0)`. -/
theorem actual_membership_invariant_witness :
    ECS.sampleRegistered.Unpopulated ∧
    ECS.sampleRegistered.m_systemManager.Unaliased ∧
    (∀ c ∈ [Call.createEntity, Call.addComponent "A" 0 (7 : Nat), Call.destroyEntity 0],
      c.isLifecycle = true) ∧
    ECS.sampleRegistered.run
        [Call.createEntity, Call.addComponent "A" 0 7, Call.destroyEntity 0] =
      some ECS.sampleDestroyed ∧
    ECS.sampleDestroyed.m_systemManager.m_systems =
      ECS.sampleRegistered.m_systemManager.m_systems ∧
    (∀ type,
      ECS.sampleDestroyed.m_systemManager.systemComponentMask type =
        ECS.sampleRegistered.m_systemManager.systemComponentMask type) ∧
    ∀ type system, (type, system) ∈ ECS.sampleDestroyed.m_systemManager.m_systems →
      ∀ e, e ∈ (ECS.sampleDestroyed.m_systemManager.objects system).entities ↔
        (e < MAX_ENTITIES ∧
          ECS.sampleDestroyed.m_entityManager.m_componentMasks e &&&
            ECS.sampleDestroyed.m_systemManager.systemComponentMask type ≠ 0) :=
  ⟨sampleRegistered_unpopulated, sampleRegistered_unaliased, by decide, sampleDestroyed_run,
    actual_membership_invariant ECS.sampleRegistered ECS.sampleDestroyed
      [Call.createEntity, Call.addComponent "A" 0 7, Call.destroyEntity 0]
      sampleRegistered_unpopulated sampleRegistered_unaliased (by decide) sampleDestroyed_run⟩

/-! ## The facade: teardown of an entity -/

theorem mapInsert_of_some {K W : Type} [DecidableEq K] (m : K → Option W) (k : K) (v : W) {w : W}
    (h : m k = some w) : mapInsert m k v = m := by
  unfold mapInsert
  rw [h]

theorem mapInsert_self {K W : Type} [DecidableEq K] (m : K → Option W) (k : K) (v : W) :
    ∃ w, mapInsert m k v k = some w := by
  cases h : m k with
  | none =>
    rw [mapInsert_of_none _ _ _ h]
    exact ⟨v, by simp⟩
  | some w =>
    rw [mapInsert_of_some _ _ _ h]
    exact ⟨w, h⟩

theorem ComponentArray.entityDestroyed_absent {T : Type} (ca : ComponentArray T) (e : Entity) :
    (ca.entityDestroyed e).state.m_entityToIndex e = none := by
  simp only [ComponentArray.entityDestroyed]
  cases h : ca.m_entityToIndex e with
  | none => simp [h, Outcome.state]
  | some i => simp [h, ComponentArray.removeData, Outcome.state]

namespace ECS

variable {V : Type}

/-! ### The registrations only grow -/

theorem step_systems_extend [Inhabited V] {ecs ecs1 : ECS V} {c : Call V}
    (hs : ecs.step c = some ecs1) :
    ecs.m_systemManager.m_systems <+: ecs1.m_systemManager.m_systems := by
  cases c with
  | createEntity =>
    obtain ⟨a, ha⟩ := state?_eq_some hs
    obtain ⟨em, hem, hadd⟩ := createEntity_ok ha
    have h := (addComponent_systems hadd).1
    rw [h]
  | createEntityNamed name =>
    obtain ⟨a, ha⟩ := state?_eq_some hs
    obtain ⟨em, hem, hadd⟩ := createEntityNamed_ok ha
    have h := (addComponent_systems hadd).1
    rw [h]
  | destroyEntity e =>
    obtain ⟨a, ha⟩ := state?_eq_some hs
    rw [(destroyEntity_systems ha).1]
  | setEntityName e n =>
    obtain ⟨a, ha⟩ := state?_eq_some hs
    rw [(facade_setEntityName_ok ha).2.1]
  | registerComponent t =>
    obtain ⟨a, ha⟩ := state?_eq_some hs
    rw [(facade_registerComponent_ok ha).2.2.1]
  | addComponent t e v =>
    obtain ⟨a, ha⟩ := state?_eq_some hs
    rw [(addComponent_systems ha).1]
  | removeComponent t e =>
    obtain ⟨a, ha⟩ := state?_eq_some hs
    rw [(removeComponent_systems ha).1]
  | registerSystem t s =>
    obtain ⟨a, ha⟩ := state?_eq_some hs
    rw [(facade_registerSystem_ok ha).2.2.2.2.1]
    exact List.prefix_append _ _
  | setSystemComponents t m =>
    obtain ⟨a, ha⟩ := state?_eq_some hs
    rw [(facade_setSystemComponents_ok ha).2.2.1]

theorem run_systems_extend [Inhabited V] (calls : List (Call V)) : ∀ (ecs ecs1 : ECS V),
    ecs.run calls = some ecs1 →
    ecs.m_systemManager.m_systems <+: ecs1.m_systemManager.m_systems := by
  induction calls with
  | nil =>
    intro ecs ecs1 hrun
    simp only [ECS.run, Option.some.injEq] at hrun
    subst hrun
    exact List.prefix_refl _
  | cons c cs ih =>
    intro ecs ecs1 hrun
    simp only [ECS.run] at hrun
    cases hs : ecs.step c with
    | none => simp [hs] at hrun
    | some ecs2 =>
      simp only [hs] at hrun
      exact (step_systems_extend hs).trans (ih ecs2 ecs1 hrun)

/-- A state whose registrations are a prefix of registrations without a shared object has
no shared object either. -/
theorem unaliased_of_extend {ecs ecs1 : ECS V}
    (hp : ecs.m_systemManager.m_systems <+: ecs1.m_systemManager.m_systems)
    (h : ecs1.m_systemManager.Unaliased) : ecs.m_systemManager.Unaliased :=
  List.Nodup.sublist (List.IsPrefix.sublist (List.IsPrefix.map Prod.snd hp)) h

/-! ### Objects that are not registered have no member -/

theorem UnregisteredEmpty.empty_congr {ecs ecs1 : ECS V} (h : ecs.UnregisteredEmpty)
    (hs : ecs1.m_systemManager.m_systems = ecs.m_systemManager.m_systems)
    (ho : ecs1.m_systemManager.objects = ecs.m_systemManager.objects) :
    ecs1.UnregisteredEmpty := by
  intro r hr
  rw [hs] at hr
  rw [ho]
  exact h r hr

theorem UnregisteredEmpty.empty_addComponent {ecs ecs1 : ECS V} (h : ecs.UnregisteredEmpty)
    {typeName : String} {e : Entity} {v : V}
    (hc : ecs.addComponent typeName e v = Outcome.ok () ecs1) : ecs1.UnregisteredEmpty := by
  obtain ⟨cm, id, newMask, _, _, _, _, rfl⟩ := addComponent_ok hc
  intro r hr
  have hr0 : r ∉ ecs.m_systemManager.m_systems.map Prod.snd := hr
  exact (congrArg System.entities
    (SystemManager.objects_entityComponentMaskChanged_of_not_mem _ _ _ _ _ _ hr0)).trans
      (h r hr0)

theorem UnregisteredEmpty.empty_removeComponent {ecs ecs1 : ECS V} (h : ecs.UnregisteredEmpty)
    {typeName : String} {e : Entity}
    (hc : ecs.removeComponent typeName e = Outcome.ok () ecs1) : ecs1.UnregisteredEmpty := by
  obtain ⟨cm, id, newMask, _, _, _, _, rfl⟩ := removeComponent_ok hc
  intro r hr
  have hr0 : r ∉ ecs.m_systemManager.m_systems.map Prod.snd := hr
  exact (congrArg System.entities
    (SystemManager.objects_entityComponentMaskChanged_of_not_mem _ _ _ _ _ _ hr0)).trans
      (h r hr0)

theorem UnregisteredEmpty.empty_destroyEntity {ecs ecs1 : ECS V} (h : ecs.UnregisteredEmpty)
    {e : Entity} (hc : ecs.destroyEntity e = Outcome.ok () ecs1) : ecs1.UnregisteredEmpty := by
  obtain ⟨_, _, _, hsm⟩ := facade_destroyEntity_ok hc
  intro r hr
  rw [hsm] at hr ⊢
  have hr0 : r ∉ ecs.m_systemManager.m_systems.map Prod.snd := hr
  rw [SystemManager.objects_entityDestroyed_of_not_mem _ _ _ _ hr0]
  exact h r hr0

theorem UnregisteredEmpty.empty_step [Inhabited V] {ecs ecs1 : ECS V}
    (h : ecs.UnregisteredEmpty) {c : Call V} (hs : ecs.step c = some ecs1) :
    ecs1.UnregisteredEmpty := by
  cases c with
  | createEntity =>
    obtain ⟨a, ha⟩ := state?_eq_some hs
    obtain ⟨em, hem, hadd⟩ := createEntity_ok ha
    have h1 : ({ ecs with m_entityManager := em } : ECS V).UnregisteredEmpty :=
      h.empty_congr rfl rfl
    exact h1.empty_addComponent hadd
  | createEntityNamed name =>
    obtain ⟨a, ha⟩ := state?_eq_some hs
    obtain ⟨em, hem, hadd⟩ := createEntityNamed_ok ha
    have h1 : ({ ecs with m_entityManager := em } : ECS V).UnregisteredEmpty :=
      h.empty_congr rfl rfl
    exact h1.empty_addComponent hadd
  | destroyEntity e =>
    obtain ⟨a, ha⟩ := state?_eq_some hs
    exact h.empty_destroyEntity ha
  | setEntityName e n =>
    obtain ⟨a, ha⟩ := state?_eq_some hs
    exact h.empty_congr (by rw [(facade_setEntityName_ok ha).2.1])
      (by rw [(facade_setEntityName_ok ha).2.1])
  | registerComponent t =>
    obtain ⟨a, ha⟩ := state?_eq_some hs
    exact h.empty_congr (by rw [(facade_registerComponent_ok ha).2.2.1])
      (by rw [(facade_registerComponent_ok ha).2.2.1])
  | addComponent t e v =>
    obtain ⟨a, ha⟩ := state?_eq_some hs
    exact h.empty_addComponent ha
  | removeComponent t e =>
    obtain ⟨a, ha⟩ := state?_eq_some hs
    exact h.empty_removeComponent ha
  | registerSystem t s =>
    obtain ⟨a, ha⟩ := state?_eq_some hs
    obtain ⟨_, _, _, _, hsys, hobj⟩ := facade_registerSystem_ok ha
    intro r hr
    rw [hsys] at hr
    rw [hobj]
    refine h r (fun hmem => hr ?_)
    rw [List.map_append]
    exact List.mem_append_left _ hmem
  | setSystemComponents t m =>
    obtain ⟨a, ha⟩ := state?_eq_some hs
    exact h.empty_congr (facade_setSystemComponents_ok ha).2.2.1
      (facade_setSystemComponents_ok ha).2.2.2.2

/-! ### No stale member -/

theorem MembersHoldOne.one_congr {ecs ecs1 : ECS V} (h : ecs.MembersHoldOne)
    (hm : ecs1.m_entityManager.m_componentMasks = ecs.m_entityManager.m_componentMasks)
    (hs : ecs1.m_systemManager = ecs.m_systemManager) : ecs1.MembersHoldOne := by
  intro type system hsys x hx
  rw [hm, hs]
  rw [hs] at hsys hx
  exact h type system hsys x hx

theorem MembersHoldOne.one_maskChanged {ecs : ECS V} (h : ecs.MembersHoldOne)
    (hal : ecs.m_systemManager.Unaliased) (e : Entity)
    (cm : ComponentManager V) (world : World V) (newMask : ComponentMask) (id : Component)
    (em : EntityManager)
    (hem : em.m_componentMasks = Function.update ecs.m_entityManager.m_componentMasks e newMask) :
    ({ m_componentManager := cm
       m_entityManager := em
       m_systemManager := ecs.m_systemManager.entityComponentMaskChanged world e
         (ecs.m_entityManager.m_componentMasks e) newMask id } : ECS V).MembersHoldOne := by
  intro type system hs x hx
  have hs0 : (type, system) ∈ ecs.m_systemManager.m_systems := hs
  have hx0 : x ∈ ((ecs.m_systemManager.entityComponentMaskChanged world e
      (ecs.m_entityManager.m_componentMasks e) newMask id).objects system).entities := hx
  rw [SystemManager.objects_entityComponentMaskChanged _ _ _ _ _ _ (hal.registeredOnlyAs hs0)]
    at hx0
  obtain ⟨h1, h2⟩ := SystemManager.stale_entityComponentMaskChangedStep _ _ e _ _ _ _
    (h type system hs0 e) x hx0
  simp only [SystemManager.systemComponentMask_entityComponentMaskChanged, hem,
    Function.update_apply]
  by_cases hxe : x = e
  · simp only [hxe, if_true]
    exact h1 hxe
  · simp only [hxe, if_false]
    exact h type system hs0 x (h2 hxe)

theorem MembersHoldOne.one_addComponent {ecs ecs1 : ECS V} (h : ecs.MembersHoldOne)
    (hal : ecs.m_systemManager.Unaliased) {typeName : String} {e : Entity} {v : V}
    (hc : ecs.addComponent typeName e v = Outcome.ok () ecs1) : ecs1.MembersHoldOne := by
  obtain ⟨cm, id, newMask, _, _, _, _, rfl⟩ := addComponent_ok hc
  exact h.one_maskChanged hal e cm _ newMask id _ rfl

theorem MembersHoldOne.one_removeComponent {ecs ecs1 : ECS V} (h : ecs.MembersHoldOne)
    (hal : ecs.m_systemManager.Unaliased) {typeName : String} {e : Entity}
    (hc : ecs.removeComponent typeName e = Outcome.ok () ecs1) : ecs1.MembersHoldOne := by
  obtain ⟨cm, id, newMask, _, _, _, _, rfl⟩ := removeComponent_ok hc
  exact h.one_maskChanged hal e cm _ newMask id _ rfl

/-- After `destroyEntity(e)` no system has a stale member, and `e` is in no system. -/
theorem MembersHoldOne.one_destroyEntity {ecs ecs1 : ECS V} (h : ecs.MembersHoldOne)
    (hr : ecs.MasksInRange) (hal : ecs.m_systemManager.Unaliased) {e : Entity}
    (hc : ecs.destroyEntity e = Outcome.ok () ecs1) :
    ecs1.MembersHoldOne ∧
      ∀ type system, (type, system) ∈ ecs1.m_systemManager.m_systems →
        e ∉ (ecs1.m_systemManager.objects system).entities := by
  obtain ⟨he, _, hmasks, hsm⟩ := facade_destroyEntity_ok hc
  have key : ∀ type system, (type, system) ∈ ecs1.m_systemManager.m_systems →
      ∀ x, x ∈ (ecs1.m_systemManager.objects system).entities → x ≠ e ∧
        ecs.m_entityManager.m_componentMasks x &&& ecs.m_systemManager.systemComponentMask type ≠
          0 := by
    intro type system hs x hx
    rw [hsm] at hs hx
    have hs0 : (type, system) ∈ ecs.m_systemManager.m_systems := hs
    rw [SystemManager.objects_entityDestroyed _ _ _ _ (hal.registeredOnlyAs hs0),
      SystemManager.mem_entityDestroyedStep] at hx
    obtain ⟨hx0, hn⟩ := hx
    have hm := h type system hs0 x hx0
    refine ⟨fun hxe => hn ⟨hxe, ?_⟩, hm⟩
    subst hxe
    exact hr.exists_bit x _ hm
  constructor
  · intro type system hs x hx
    obtain ⟨hne, hm⟩ := key type system hs x hx
    rw [hmasks, hsm, SystemManager.systemComponentMask_entityDestroyed, Function.update_apply,
      if_neg hne]
    exact hm
  · intro type system hs hx
    exact (key type system hs e hx).1 rfl

theorem MembersHoldOne.one_registerSystem {ecs ecs1 : ECS V} (h : ecs.MembersHoldOne)
    (hu : ecs.UnregisteredEmpty) (hal1 : ecs1.m_systemManager.Unaliased)
    {typeName : String} {system : SystemRef}
    (hc : ecs.registerSystem typeName system = Outcome.ok () ecs1) : ecs1.MembersHoldOne := by
  obtain ⟨_, hem, _, hmasks, hsys, hobj⟩ := facade_registerSystem_ok hc
  intro type system1 hs x hx
  rw [hobj] at hx
  rw [hsys, List.mem_append] at hs
  rcases hs with hs | hs
  · have := h type system1 hs x hx
    simpa only [hem, SystemManager.systemComponentMask, hmasks] using this
  · simp only [List.mem_singleton, Prod.mk.injEq] at hs
    obtain ⟨rfl, rfl⟩ := hs
    have hnot : system1 ∉ ecs.m_systemManager.m_systems.map Prod.snd := by
      unfold SystemManager.Unaliased at hal1
      rw [hsys, List.map_append, List.nodup_append] at hal1
      intro hmem
      exact hal1.2.2 hmem (by simp)
    rw [hu system1 hnot] at hx
    simp at hx

theorem MembersHoldOne.one_setSystemComponents {ecs ecs1 : ECS V} (h : ecs.MembersHoldOne)
    {typeName : String} {componentMask : ComponentMask}
    (hc : ecs.setSystemComponents typeName componentMask = Outcome.ok () ecs1) :
    ecs1.MembersHoldOne := by
  obtain ⟨hem, _, hsys, hmasks, hobj⟩ := facade_setSystemComponents_ok hc
  intro type system1 hs x hx
  rw [hsys] at hs
  rw [hobj] at hx
  have h0 := h type system1 hs x hx
  rw [hem]
  simp only [SystemManager.systemComponentMask, hmasks] at h0 ⊢
  by_cases ht : type = typeName
  · subst ht
    cases hm : ecs.m_systemManager.m_componentMasks type with
    | none =>
      rw [hm] at h0
      simp at h0
    | some M0 =>
      rw [mapInsert_of_some _ _ _ hm]
      exact h0
  · rw [mapInsert_of_ne _ _ _ ht]
    exact h0

theorem MembersHoldOne.one_step [Inhabited V] {ecs ecs1 : ECS V} (h : ecs.MembersHoldOne)
    (hr : ecs.MasksInRange) (hu : ecs.UnregisteredEmpty)
    (hal1 : ecs1.m_systemManager.Unaliased) {c : Call V}
    (hs : ecs.step c = some ecs1) : ecs1.MembersHoldOne := by
  have hal : ecs.m_systemManager.Unaliased := unaliased_of_extend (step_systems_extend hs) hal1
  cases c with
  | createEntity =>
    obtain ⟨a, ha⟩ := state?_eq_some hs
    obtain ⟨em, hem, hadd⟩ := createEntity_ok ha
    have h1 : ({ ecs with m_entityManager := em } : ECS V).MembersHoldOne :=
      h.one_congr (EntityManager.createEntity_masks hem).1 rfl
    exact h1.one_addComponent hal hadd
  | createEntityNamed name =>
    obtain ⟨a, ha⟩ := state?_eq_some hs
    obtain ⟨em, hem, hadd⟩ := createEntityNamed_ok ha
    have h1 : ({ ecs with m_entityManager := em } : ECS V).MembersHoldOne :=
      h.one_congr (EntityManager.createEntityNamed_masks hem).1 rfl
    exact h1.one_addComponent hal hadd
  | destroyEntity e =>
    obtain ⟨a, ha⟩ := state?_eq_some hs
    exact (h.one_destroyEntity hr hal ha).1
  | setEntityName e n =>
    obtain ⟨a, ha⟩ := state?_eq_some hs
    exact h.one_congr (facade_setEntityName_ok ha).2.2.1 (facade_setEntityName_ok ha).2.1
  | registerComponent t =>
    obtain ⟨a, ha⟩ := state?_eq_some hs
    exact h.one_congr (by rw [(facade_registerComponent_ok ha).2.1])
      (facade_registerComponent_ok ha).2.2.1
  | addComponent t e v =>
    obtain ⟨a, ha⟩ := state?_eq_some hs
    exact h.one_addComponent hal ha
  | removeComponent t e =>
    obtain ⟨a, ha⟩ := state?_eq_some hs
    exact h.one_removeComponent hal ha
  | registerSystem t s =>
    obtain ⟨a, ha⟩ := state?_eq_some hs
    exact h.one_registerSystem hu hal1 ha
  | setSystemComponents t m =>
    obtain ⟨a, ha⟩ := state?_eq_some hs
    exact h.one_setSystemComponents ha

/-! ### Every registered type has a store -/

theorem TypesHaveStores.stores_step [Inhabited V] {ecs ecs1 : ECS V} (h : ecs.TypesHaveStores)
    {c : Call V} (hs : ecs.step c = some ecs1) : ecs1.TypesHaveStores := by
  have hadd : ∀ {s s1 : ECS V} {t : String} {e : Entity} {v : V}, s.TypesHaveStores →
      s.addComponent t e v = Outcome.ok () s1 → s1.TypesHaveStores := by
    intro s s1 t e v hs0 hc
    obtain ⟨cm, id, newMask, _, hcm, _, _, rfl⟩ := addComponent_ok hc
    obtain ⟨_, _, ca1, _, _, _, rfl⟩ := ComponentManager.store_addComponent_ok hcm
    intro name id1 hname
    by_cases hn : name = t
    · subst hn
      exact ⟨ca1, Function.update_same _ _ _⟩
    · obtain ⟨ca, hca⟩ := hs0 name id1 hname
      exact ⟨ca, (Function.update_noteq hn _ _).trans hca⟩
  cases c with
  | createEntity =>
    obtain ⟨a, ha⟩ := state?_eq_some hs
    obtain ⟨em, hem, hadd1⟩ := createEntity_ok ha
    exact hadd (s := { ecs with m_entityManager := em }) h hadd1
  | createEntityNamed name =>
    obtain ⟨a, ha⟩ := state?_eq_some hs
    obtain ⟨em, hem, hadd1⟩ := createEntityNamed_ok ha
    exact hadd (s := { ecs with m_entityManager := em }) h hadd1
  | destroyEntity e =>
    obtain ⟨a, ha⟩ := state?_eq_some hs
    obtain ⟨_, hcm, _, _⟩ := facade_destroyEntity_ok ha
    intro name id hname
    rw [hcm] at hname ⊢
    obtain ⟨ca, hca⟩ := h name id hname
    exact ⟨(ca.entityDestroyed e).state,
      by simp only [ComponentManager.entityDestroyed, hca, Option.map_some']⟩
  | setEntityName e n =>
    obtain ⟨a, ha⟩ := state?_eq_some hs
    intro name id hname
    rw [(facade_setEntityName_ok ha).1] at hname ⊢
    exact h name id hname
  | registerComponent t =>
    obtain ⟨a, ha⟩ := state?_eq_some hs
    obtain ⟨_, _, _, hty, harr, _⟩ := facade_registerComponent_ok ha
    intro name id hname
    rw [harr]
    by_cases hn : name = t
    · subst hn
      exact mapInsert_self _ _ _
    · rw [hty, Function.update_apply, if_neg hn] at hname
      rw [mapInsert_of_ne _ _ _ hn]
      exact h name id hname
  | addComponent t e v =>
    obtain ⟨a, ha⟩ := state?_eq_some hs
    exact hadd h ha
  | removeComponent t e =>
    obtain ⟨a, ha⟩ := state?_eq_some hs
    obtain ⟨cm, id, newMask, _, hcm, _, _, rfl⟩ := removeComponent_ok ha
    obtain ⟨_, _, ca1, _, _, _, rfl⟩ := ComponentManager.store_removeComponent_ok hcm
    intro name id1 hname
    by_cases hn : name = t
    · subst hn
      exact ⟨ca1, Function.update_same _ _ _⟩
    · obtain ⟨ca, hca⟩ := h name id1 hname
      exact ⟨ca, (Function.update_noteq hn _ _).trans hca⟩
  | registerSystem t s =>
    obtain ⟨a, ha⟩ := state?_eq_some hs
    intro name id hname
    rw [(facade_registerSystem_ok ha).2.2.1] at hname ⊢
    exact h name id hname
  | setSystemComponents t m =>
    obtain ⟨a, ha⟩ := state?_eq_some hs
    intro name id hname
    rw [(facade_setSystemComponents_ok ha).2.1] at hname ⊢
    exact h name id hname

/-- The state after successful facade calls on a freshly initialised ECS whose system
objects have no member, no object ending up registered under two type names: masks are in
range, no system has a stale member, every registered type has a store. -/
theorem tidy_run [Inhabited V] (calls : List (Call V)) : ∀ (ecs ecs1 : ECS V),
    ecs.MasksInRange → ecs.MembersHoldOne → ecs.UnregisteredEmpty → ecs.TypesHaveStores →
    ecs1.m_systemManager.Unaliased → ecs.run calls = some ecs1 →
    ecs1.MasksInRange ∧ ecs1.MembersHoldOne ∧ ecs1.TypesHaveStores := by
  induction calls with
  | nil =>
    intro ecs ecs1 h1 h2 _ h3 _ hrun
    simp only [ECS.run, Option.some.injEq] at hrun
    subst hrun
    exact ⟨h1, h2, h3⟩
  | cons c cs ih =>
    intro ecs ecs1 h1 h2 hu h3 hal hrun
    simp only [ECS.run] at hrun
    cases hs : ecs.step c with
    | none => simp [hs] at hrun
    | some ecs2 =>
      simp only [hs] at hrun
      have hal2 : ecs2.m_systemManager.Unaliased :=
        unaliased_of_extend (run_systems_extend cs ecs2 ecs1 hrun) hal
      exact ih ecs2 ecs1 (h1.range_step hs) (h2.one_step h1 hu hal2 hs) (hu.empty_step hs)
        (h3.stores_step hs) hal hrun

theorem tidy_init (objects : SystemRef → System V) (hobjects : ∀ r, (objects r).entities = []) :
    (ECS.initWith objects).MasksInRange ∧ (ECS.initWith objects).MembersHoldOne ∧
    (ECS.initWith objects).UnregisteredEmpty ∧ (ECS.initWith objects).TypesHaveStores := by
  refine ⟨?_, ?_, ?_, ?_⟩
  · intro e t ht
    simp [ECS.initWith, EntityManager.new] at ht
  · intro type system hs
    simp [ECS.initWith, SystemManager.newWith] at hs
  · intro r _
    exact hobjects r
  · intro name id hname
    simp [ECS.initWith, ComponentManager.new] at hname

end ECS
set_option maxRecDepth 100000 in
/-- C12, the claim as stated fails: `entities` is a public member of `System`, and
`registerSystem` takes the object as it is. Let the object at address `0` hold the id `0`
in its `entities` when it is registered as `S` with interest mask `{A, B}` (after `A`,
`B` and `Transform`), and let `createEntity()` return entity `0`, which holds a
`Transform` only (mask `4`). The interest mask of `S` does not intersect the mask of
entity `0`, so `destroyEntity(0)` invokes no hook of `S` and does not erase: entity `0` is
still in `S.entities` afterwards. -/
theorem destroy_teardown_counterexample :
    (ECS.initWith staleObjects).run sampleRegistration = some ECS.sampleStale ∧
    ECS.sampleStale.run [Call.createEntity] = some ECS.sampleStaleCreated ∧
    ECS.sampleStaleCreated.m_systemManager.m_systems = [("S", 0)] ∧
    ECS.sampleStaleCreated.m_systemManager.systemComponentMask "S" = 3 ∧
    ECS.sampleStaleCreated.m_entityManager.m_componentMasks 0 = 4 ∧
    (ECS.sampleStaleCreated.m_systemManager.objects 0).entities = [0] ∧
    ECS.sampleStaleCreated.destroyEntity 0 = Outcome.ok () ECS.sampleStaleDestroyed ∧
    (ECS.sampleStaleDestroyed.m_systemManager.objects 0).calls.map HookRecord.call = [] ∧
    (ECS.sampleStaleDestroyed.m_systemManager.objects 0).entities = [0] ∧
    ¬ (∀ S system, (S, system) ∈ ECS.sampleStaleDestroyed.m_systemManager.m_systems →
        0 ∉ (ECS.sampleStaleDestroyed.m_systemManager.objects system).entities) := by
  refine ⟨rfl, rfl, by decide, by decide, by decide, by decide, rfl, by decide, by decide, ?_⟩
  intro h
  exact h "S" 0 (by decide) (by decide)

/-- C12 (amended): let the facade be in a state reached by successful calls from a
freshly initialised ECS next to system objects whose `entities` are empty, let no system
object be registered under two type names, and let `e` be an entity id below
`MAX_ENTITIES` (as every live entity is) with mask `m`. Then `destroyEntity(e)` succeeds;
for every registered system `S` with interest mask `M` it invokes
`S.onEntityComponentRemoved(e, i)` exactly once for each bit `i` set in `m & M` and invokes
nothing else (so nothing at all when `M` does not intersect `m`), each hook observing
`S.entities`, the masks and the stores as they were before the call; afterwards `e` is in
no `S.entities`, the mask of `e` is all-zero, `hasComponent<T>(e)` is false for every
registered type `T` (the registered types are the same as before), and
`getComponent<T>(e)` fails for every `T`. -/
theorem destroy_notification_teardown {V : Type} [Inhabited V]
    (objects : SystemRef → System V) (calls : List (Call V)) (ecs : ECS V) (e : Entity)
    (hobjects : ∀ r, (objects r).entities = [])
    (hrun : (ECS.initWith objects).run calls = some ecs)
    (hdistinct : ecs.m_systemManager.Unaliased)
    (he : e < MAX_ENTITIES) :
    ∃ ecs1, ecs.destroyEntity e = Outcome.ok () ecs1 ∧
      (∀ S system, (S, system) ∈ ecs.m_systemManager.m_systems →
        ∃ fired,
          (ecs1.m_systemManager.objects system).calls =
            (ecs.m_systemManager.objects system).calls ++ fired ∧
          (fired.map HookRecord.call).Nodup ∧
          (∀ c, c ∈ fired.map HookRecord.call ↔
            ∃ i, (ecs.m_entityManager.m_componentMasks e &&&
                ecs.m_systemManager.systemComponentMask S).testBit i = true ∧
              c = HookCall.onEntityComponentRemoved e i) ∧
          ∀ record ∈ fired,
            record.entities = (ecs.m_systemManager.objects system).entities ∧
              record.world = ecs.world) ∧
      (∀ S system, (S, system) ∈ ecs1.m_systemManager.m_systems →
        e ∉ (ecs1.m_systemManager.objects system).entities) ∧
      ecs1.m_entityManager.getComponents e = some 0 ∧
      (∀ T id, ecs.getComponentId T = some id →
        ecs1.getComponentId T = some id ∧ ecs1.hasComponent T e = some false) ∧
      (∀ T, ecs1.getComponent T e = none) := by
  obtain ⟨hinit1, hinit2, hinit3, hinit4⟩ := ECS.tidy_init objects hobjects
  obtain ⟨hrange, hone, hstores⟩ := ECS.tidy_run calls (ECS.initWith objects) ecs hinit1
    hinit2 hinit3 hinit4 hdistinct hrun
  obtain ⟨em1, hem1, _, _, _⟩ := EntityManager.destroyEntity_ok ecs.m_entityManager e he
  obtain ⟨ecs1, hd⟩ : ∃ ecs1, ecs.destroyEntity e = Outcome.ok () ecs1 :=
    ⟨{ m_entityManager := em1
       m_componentManager := ecs.m_componentManager.entityDestroyed e
       m_systemManager := ecs.m_systemManager.entityDestroyed ecs.world e
         (ecs.m_entityManager.m_componentMasks e) },
      by simp only [ECS.destroyEntity, EntityManager.getComponents, he, if_true, hem1]⟩
  obtain ⟨_, hcm, hmasks, hsm⟩ := ECS.facade_destroyEntity_ok hd
  have harr : ∀ T ca1, ecs1.m_componentManager.m_componentArrays T = some ca1 →
      ca1.m_entityToIndex e = none := by
    intro T ca1 h1
    rw [hcm] at h1
    simp only [ComponentManager.entityDestroyed, Option.map_eq_some'] at h1
    obtain ⟨ca, _, rfl⟩ := h1
    exact ComponentArray.entityDestroyed_absent ca e
  refine ⟨ecs1, hd, ?_, (hone.one_destroyEntity hrange hdistinct hd).2, ?_, ?_, ?_⟩
  · intro S system hS
    refine ⟨((List.range MAX_COMPONENTS).filter (fun i =>
        (ecs.m_entityManager.m_componentMasks e &&&
          ecs.m_systemManager.systemComponentMask S).testBit i)).map
        (fun i => ⟨HookCall.onEntityComponentRemoved e i,
          (ecs.m_systemManager.objects system).entities, ecs.world⟩), ?_, ?_, ?_, ?_⟩
    · rw [hsm, SystemManager.objects_entityDestroyed _ _ _ _ (hdistinct.registeredOnlyAs hS)]
      exact SystemManager.calls_entityDestroyedStep _ _ _ _ _
    · rw [List.map_map]
      refine List.Nodup.map ?_ ((List.nodup_range _).filter _)
      intro i j hij
      simpa using hij
    · intro c
      simp only [List.map_map, List.mem_map, List.mem_filter, List.mem_range,
        Function.comp_apply]
      constructor
      · rintro ⟨i, ⟨_, hi⟩, rfl⟩
        exact ⟨i, by simpa using hi, rfl⟩
      · rintro ⟨i, hi, rfl⟩
        refine ⟨i, ⟨hrange e i ?_, by simpa using hi⟩, rfl⟩
        rw [Nat.testBit_and, Bool.and_eq_true] at hi
        exact hi.1
    · intro record hrec
      simp only [List.mem_map] at hrec
      obtain ⟨i, _, rfl⟩ := hrec
      exact ⟨rfl, rfl⟩
  · simp [EntityManager.getComponents, he, hmasks]
  · intro T id hid
    simp only [ECS.getComponentId, ComponentManager.getComponentId] at hid
    have hty : ecs1.m_componentManager.m_componentTypes T = some id := by
      rw [hcm]
      exact hid
    obtain ⟨ca, hca⟩ := hstores T id hid
    have hca1 : ecs1.m_componentManager.m_componentArrays T =
        some (ca.entityDestroyed e).state := by
      rw [hcm]
      simp only [ComponentManager.entityDestroyed, hca, Option.map_some']
    refine ⟨hty, ?_⟩
    simp only [ECS.hasComponent, ComponentManager.hasComponent,
      ComponentManager.getComponentArray, hty, hca1, ComponentArray.hasComponent,
      harr T _ hca1]
    rfl
  · intro T
    simp only [ECS.getComponent, ComponentManager.getComponent,
      ComponentManager.getComponentArray]
    split
    · rfl
    · rename_i ca1 hca1
      split at hca1
      · simp at hca1
      · simp only [ComponentArray.getData, harr T ca1 hca1]

set_option maxRecDepth 100000 in
theorem sampleWithA_reached :
    (ECS.initWith (fun _ => System.new) : ECS Nat).run
        (sampleRegistration ++ [Call.createEntity, Call.addComponent "A" 0 7]) =
      some ECS.sampleWithA := by
  show (ECS.init : ECS Nat).run _ = _
  rw [ECS.run_append _ _ _ _ sampleRegistered_run]
  exact sampleWithA_run

set_option maxRecDepth 100000 in
/-- C12 (amended), an instance: `destroyEntity(0)` in the sample scenario, where entity `0`
holds `A` and `Transform` and the system `S` has interest mask `{A, B}`. -/
theorem destroy_notification_teardown_witness :
    (∀ r : SystemRef, ((fun _ => System.new : SystemRef → System Nat) r).entities = []) ∧
    (ECS.initWith (fun _ => System.new) : ECS Nat).run
        (sampleRegistration ++ [Call.createEntity, Call.addComponent "A" 0 7]) =
      some ECS.sampleWithA ∧
    ECS.sampleWithA.m_systemManager.Unaliased ∧
    ∃ ecs1, ECS.sampleWithA.destroyEntity 0 = Outcome.ok () ecs1 ∧
      (∀ S system, (S, system) ∈ ECS.sampleWithA.m_systemManager.m_systems →
        ∃ fired,
          (ecs1.m_systemManager.objects system).calls =
            (ECS.sampleWithA.m_systemManager.objects system).calls ++ fired ∧
          (fired.map HookRecord.call).Nodup ∧
          (∀ c, c ∈ fired.map HookRecord.call ↔
            ∃ i, (ECS.sampleWithA.m_entityManager.m_componentMasks 0 &&&
                ECS.sampleWithA.m_systemManager.systemComponentMask S).testBit i = true ∧
              c = HookCall.onEntityComponentRemoved 0 i) ∧
          ∀ record ∈ fired,
            record.entities = (ECS.sampleWithA.m_systemManager.objects system).entities ∧
              record.world = ECS.sampleWithA.world) ∧
      (∀ S system, (S, system) ∈ ecs1.m_systemManager.m_systems →
        0 ∉ (ecs1.m_systemManager.objects system).entities) ∧
      ecs1.m_entityManager.getComponents 0 = some 0 ∧
      (∀ T id, ECS.sampleWithA.getComponentId T = some id →
        ecs1.getComponentId T = some id ∧ ecs1.hasComponent T 0 = some false) ∧
      (∀ T, ecs1.getComponent T 0 = none) :=
  ⟨fun _ => rfl, sampleWithA_reached, by decide,
    destroy_notification_teardown (fun _ => System.new)
      (sampleRegistration ++ [Call.createEntity, Call.addComponent "A" 0 7]) ECS.sampleWithA 0
      (fun _ => rfl) sampleWithA_reached (by decide) (by decide)⟩

/-! ## The facade: failed calls -/

set_option maxRecDepth 100000 in
/-- C13, the claim as stated fails. In the sample registration, `addComponent<A>(5000, 7)`
fails the assertion `entity < MAX_ENTITIES` of `getComponents`, but the store of `A` has
been written before: at the point of failure it holds entity `5000`, which it did not
before the call. And on a freshly initialised ECS (`Transform` not registered)
`createEntity()` fails in `addComponent<Transform>`, after an id has been taken from the
pool and counted. -/
theorem failure_atomicity_counterexample :
    ECS.sampleRegistered.addComponent "A" 5000 7 = Outcome.failed ECS.sampleFailedAdd ∧
    ECS.sampleRegistered.hasComponent "A" 5000 = some false ∧
    ECS.sampleFailedAdd.hasComponent "A" 5000 = some true ∧
    ECS.sampleFailedAdd ≠ ECS.sampleRegistered ∧
    (ECS.init : ECS Nat).createEntity = Outcome.failed ECS.sampleFailedCreate ∧
    (ECS.init : ECS Nat).m_entityManager.m_numberOfEntities = 0 ∧
    ECS.sampleFailedCreate.m_entityManager.m_numberOfEntities = 1 ∧
    ECS.sampleFailedCreate.m_entityManager.m_entities.head? = some 1 ∧
    ECS.sampleFailedCreate ≠ ECS.init := by
  refine ⟨rfl, by decide, by decide, ?_, rfl, by decide, by decide, by decide, ?_⟩
  · intro h
    have h1 : ECS.sampleFailedAdd.hasComponent "A" 5000 = some true := by decide
    rw [h] at h1
    exact absurd h1 (by decide)
  · intro h
    have h1 : ECS.sampleFailedCreate.m_entityManager.m_numberOfEntities = 1 := by decide
    rw [h] at h1
    exact absurd h1 (by decide)

namespace EntityManager

theorem createEntity_count {em em1 : EntityManager} {id : Entity}
    (h : em.createEntity = Outcome.ok id em1) :
    em1.m_numberOfEntities = em.m_numberOfEntities + 1 := by
  simp only [createEntity] at h
  split at h
  · split at h
    · simp at h
    · simp only [Outcome.ok.injEq] at h
      rw [← h.2]
  · simp at h

theorem createEntityNamed_count {em em1 : EntityManager} {id : Entity}
    {name : String} (h : em.createEntityNamed name = Outcome.ok id em1) :
    em1.m_numberOfEntities = em.m_numberOfEntities + 1 := by
  simp only [createEntityNamed] at h
  split at h
  · simp at h
  · split at h
    · simp at h
    · rename_i id1 em2 hem
      simp only [Outcome.ok.injEq] at h
      rw [← h.2]
      exact (createEntity_count hem : em2.m_numberOfEntities = em.m_numberOfEntities + 1)

end EntityManager

namespace ECS

variable {V : Type}

/-- A failed `addComponent`: either the insertion into the store failed and nothing is
written, or the insertion succeeded and the state at the failing assertion is the state
with the new store, which differs from the state before the call. -/
theorem addComponent_failed {ecs st : ECS V} {T : String} {e : Entity} {v : V}
    (h : ecs.addComponent T e v = Outcome.failed st) :
    ((ecs.m_componentManager.addComponent T e v).isOk = false ∧ st = ecs) ∨
      (∃ cm, ecs.m_componentManager.addComponent T e v = Outcome.ok () cm ∧
        st = { ecs with m_componentManager := cm } ∧ st ≠ ecs) := by
  simp only [ECS.addComponent] at h
  cases hcm : ecs.m_componentManager.addComponent T e v with
  | failed cm1 =>
    simp only [hcm, Outcome.failed.injEq] at h
    exact Or.inl ⟨rfl, h.symm⟩
  | ok u cm1 =>
    have hst : st = { ecs with m_componentManager := cm1 } := by
      simp only [hcm, EntityManager.getComponents, EntityManager.setComponents] at h
      by_cases he : e < MAX_ENTITIES
      · simp only [he, if_true] at h
        split at h
        · simp only [Outcome.failed.injEq] at h
          exact h.symm
        · split at h
          · simp only [Outcome.failed.injEq] at h
            exact h.symm
          · simp at h
      · simp only [he, if_false, Outcome.failed.injEq] at h
        exact h.symm
    refine Or.inr ⟨cm1, rfl, hst, ?_⟩
    obtain ⟨t, ca, ca1, _, hca, hins, rfl⟩ := ComponentManager.store_addComponent_ok hcm
    intro heq
    have h1 : st.m_componentManager.m_componentArrays T = some ca1 := by
      rw [hst]
      exact Function.update_same _ _ _
    rw [heq, hca, Option.some.injEq] at h1
    subst h1
    simp only [ComponentArray.insertData] at hins
    cases hidx : ca.m_entityToIndex e with
    | some i => simp [hidx] at hins
    | none =>
      simp only [hidx, Outcome.ok.injEq, true_and] at hins
      have h2 := congrArg (fun (c : ComponentArray V) => c.m_entityToIndex e) hins
      simp only [Function.update_same] at h2
      rw [hidx] at h2
      simp at h2

/-- A failed `addComponent` leaves the entity manager as it was. -/
theorem addComponent_failed_entityManager {ecs st : ECS V} {T : String} {e : Entity} {v : V}
    (h : ecs.addComponent T e v = Outcome.failed st) :
    st.m_entityManager = ecs.m_entityManager := by
  rcases addComponent_failed h with ⟨_, rfl⟩ | ⟨cm, _, rfl, _⟩
  · rfl
  · rfl

end ECS

/-- C13 (amended): a call of `destroyEntity`, `setEntityName`, `registerComponent`,
`registerSystem` or `setSystemComponents` that fails an assertion leaves the state as
it was before the call. A failed `addComponent`, `createEntity` or `createEntity(name)`
leaves the state as it was exactly when the failing assertion belongs to the first step
of the call (`addComponent`: the insertion into the store; `createEntity`: taking an id
from the pool); when the first step succeeds, the state at the point of failure contains
its writes: for `addComponent` it is the state with the new component in the store, for
`createEntity` the id is taken from the pool and counted, and the call fails where
`addComponent<Transform>` fails. A failed `removeComponent` leaves the state as it was
when the failing assertion belongs to its first step (reading the mask, the component id
and computing the new mask); when the store fails the removal, the state at the point of
failure is the state in which the new mask is written and the systems are notified. -/
theorem failure_atomicity {V : Type} [Inhabited V] (ecs st : ECS V) :
    (∀ e, ecs.destroyEntity e = Outcome.failed st → st = ecs) ∧
    (∀ e name, ecs.setEntityName e name = Outcome.failed st → st = ecs) ∧
    (∀ T, ecs.registerComponent T = Outcome.failed st → st = ecs) ∧
    (∀ T system, ecs.registerSystem T system = Outcome.failed st → st = ecs) ∧
    (∀ T componentMask, ecs.setSystemComponents T componentMask = Outcome.failed st → st = ecs) ∧
    (∀ T e v, ecs.addComponent T e v = Outcome.failed st →
      (st = ecs ↔ (ecs.m_componentManager.addComponent T e v).isOk = false) ∧
      ∀ cm, ecs.m_componentManager.addComponent T e v = Outcome.ok () cm →
        st = { ecs with m_componentManager := cm }) ∧
    (∀ T e, ecs.removeComponent T e = Outcome.failed st →
      ((ecs.m_entityManager.getComponents e = none ∨ ecs.getComponentId T = none ∨
          ∃ id, ecs.getComponentId T = some id ∧ MAX_COMPONENTS ≤ id) ∧ st = ecs) ∨
      (∃ id newMask, e < MAX_ENTITIES ∧ ecs.getComponentId T = some id ∧
        maskSet (ecs.m_entityManager.m_componentMasks e) id false = some newMask ∧
        (ecs.m_componentManager.removeComponent T e).isOk = false ∧
        st =
          { ecs with
            m_entityManager :=
              { ecs.m_entityManager with
                m_componentMasks :=
                  Function.update ecs.m_entityManager.m_componentMasks e newMask }
            m_systemManager := ecs.m_systemManager.entityComponentMaskChanged
              { m_entityManager :=
                  { ecs.m_entityManager with
                    m_componentMasks :=
                      Function.update ecs.m_entityManager.m_componentMasks e newMask }
                m_componentManager := ecs.m_componentManager }
              e (ecs.m_entityManager.m_componentMasks e) newMask id })) ∧
    (ecs.createEntity = Outcome.failed st →
      (st = ecs ↔ ecs.m_entityManager.createEntity.isOk = false) ∧
      ∀ id em, ecs.m_entityManager.createEntity = Outcome.ok id em →
        st.m_entityManager = em ∧
        ({ ecs with m_entityManager := em } : ECS V).addComponent TransformName id default =
          Outcome.failed st) ∧
    (∀ name, ecs.createEntityNamed name = Outcome.failed st →
      (st = ecs ↔ (ecs.m_entityManager.createEntityNamed name).isOk = false) ∧
      ∀ id em, ecs.m_entityManager.createEntityNamed name = Outcome.ok id em →
        st.m_entityManager = em ∧
        ({ ecs with m_entityManager := em } : ECS V).addComponent TransformName id default =
          Outcome.failed st) := by
  refine ⟨?_, ?_, ?_, ?_, ?_, ?_, ?_, ?_, ?_⟩
  · intro e h
    simp only [ECS.destroyEntity, EntityManager.getComponents] at h
    by_cases he : e < MAX_ENTITIES
    · obtain ⟨em1, hem1, _⟩ := EntityManager.destroyEntity_ok ecs.m_entityManager e he
      simp [he, hem1] at h
    · simp only [he, if_false, Outcome.failed.injEq] at h
      exact h.symm
  · intro e name h
    simp only [ECS.setEntityName, EntityManager.setEntityName] at h
    cases hn : ecs.m_entityManager.m_nameToEntity name with
    | none => simp [hn] at h
    | some x =>
      simp only [hn, Outcome.failed.injEq] at h
      exact h.symm
  · intro T h
    simp only [ECS.registerComponent, ComponentManager.registerComponent] at h
    cases hn : ecs.m_componentManager.m_componentTypes T with
    | none => simp [hn] at h
    | some x =>
      simp only [hn, Outcome.failed.injEq] at h
      exact h.symm
  · intro T system h
    simp only [ECS.registerSystem, SystemManager.registerSystem] at h
    cases hn : lookupSystem ecs.m_systemManager.m_systems T with
    | none => simp [hn] at h
    | some x =>
      simp only [hn, Outcome.failed.injEq] at h
      exact h.symm
  · intro T componentMask h
    simp only [ECS.setSystemComponents, SystemManager.setComponents] at h
    cases hn : lookupSystem ecs.m_systemManager.m_systems T with
    | some x => simp [hn] at h
    | none =>
      simp only [hn, Outcome.failed.injEq] at h
      exact h.symm
  · intro T e v h
    rcases ECS.addComponent_failed h with ⟨hfail, hst⟩ | ⟨cm, hcm, hst, hne⟩
    · refine ⟨⟨fun _ => hfail, fun _ => hst⟩, ?_⟩
      intro cm hcm
      rw [hcm] at hfail
      simp [Outcome.isOk] at hfail
    · refine ⟨⟨fun heq => absurd heq hne, fun hfail => ?_⟩, ?_⟩
      · rw [hcm] at hfail
        simp [Outcome.isOk] at hfail
      · intro cm1 hcm1
        rw [hcm, Outcome.ok.injEq] at hcm1
        rw [← hcm1.2]
        exact hst
  · intro T e h
    simp only [ECS.removeComponent, EntityManager.getComponents,
      EntityManager.setComponents] at h
    by_cases he : e < MAX_ENTITIES
    · simp only [he, if_true] at h
      cases hid : ecs.m_componentManager.getComponentId T with
      | none =>
        simp only [hid, Outcome.failed.injEq] at h
        exact Or.inl ⟨Or.inr (Or.inl hid), h.symm⟩
      | some id =>
        simp only [hid] at h
        cases hm : maskSet (ecs.m_entityManager.m_componentMasks e) id false with
        | none =>
          simp only [hm, Outcome.failed.injEq] at h
          refine Or.inl ⟨Or.inr (Or.inr ⟨id, hid, ?_⟩), h.symm⟩
          simp only [maskSet] at hm
          by_contra hlt
          simp [Nat.lt_of_not_le hlt] at hm
        | some newMask =>
          simp only [hm] at h
          cases hcm : ecs.m_componentManager.removeComponent T e with
          | ok u cm1 => simp [hcm] at h
          | failed cm1 =>
            simp only [hcm, Outcome.failed.injEq] at h
            exact Or.inr ⟨id, newMask, he, hid, hm, rfl, h.symm⟩
    · simp only [he, if_false, Outcome.failed.injEq] at h
      exact Or.inl ⟨Or.inl (by simp [EntityManager.getComponents, he]), h.symm⟩
  · intro h
    simp only [ECS.createEntity] at h
    cases hem : ecs.m_entityManager.createEntity with
    | failed em1 =>
      simp only [hem, Outcome.failed.injEq] at h
      exact ⟨⟨fun _ => rfl, fun _ => h.symm⟩, fun id em hok => by simp at hok⟩
    | ok id em1 =>
      have hadd : ({ ecs with m_entityManager := em1 } : ECS V).addComponent TransformName id
          default = Outcome.failed st := by
        simp only [hem] at h
        split at h
        · rename_i st1 hadd
          simp only [Outcome.failed.injEq] at h
          rw [hadd, h]
        · simp at h
      have hemst : st.m_entityManager = em1 := ECS.addComponent_failed_entityManager hadd
      refine ⟨⟨fun heq => ?_, fun hfail => by simp [Outcome.isOk] at hfail⟩, ?_⟩
      · have hcount := EntityManager.createEntity_count hem
        rw [← hemst, heq] at hcount
        exact absurd hcount (Nat.ne_of_lt (Nat.lt_succ_self _))
      · intro id2 em2 hok
        simp only [Outcome.ok.injEq] at hok
        obtain ⟨rfl, rfl⟩ := hok
        exact ⟨hemst, hadd⟩
  · intro name h
    simp only [ECS.createEntityNamed] at h
    cases hem : ecs.m_entityManager.createEntityNamed name with
    | failed em1 =>
      simp only [hem, Outcome.failed.injEq] at h
      exact ⟨⟨fun _ => rfl, fun _ => h.symm⟩, fun id em hok => by simp at hok⟩
    | ok id em1 =>
      have hadd : ({ ecs with m_entityManager := em1 } : ECS V).addComponent TransformName id
          default = Outcome.failed st := by
        simp only [hem] at h
        split at h
        · rename_i st1 hadd
          simp only [Outcome.failed.injEq] at h
          rw [hadd, h]
        · simp at h
      have hemst : st.m_entityManager = em1 := ECS.addComponent_failed_entityManager hadd
      refine ⟨⟨fun heq => ?_, fun hfail => by simp [Outcome.isOk] at hfail⟩, ?_⟩
      · have hcount := EntityManager.createEntityNamed_count hem
        rw [← hemst, heq] at hcount
        exact absurd hcount (Nat.ne_of_lt (Nat.lt_succ_self _))
      · intro id2 em2 hok
        simp only [Outcome.ok.injEq] at hok
        obtain ⟨rfl, rfl⟩ := hok
        exact ⟨hemst, hadd⟩

set_option maxRecDepth 100000 in
/-- C13 (amended), an instance: in the sample registration `destroyEntity(5000)` fails and
leaves the state as it was; `addComponent<A>(5000, 7)` fails after the insertion into the
store of `A`, in a state that is not the state before the call. -/
theorem failure_atomicity_witness :
    ECS.sampleRegistered.destroyEntity 5000 = Outcome.failed ECS.sampleRegistered ∧
    ECS.sampleRegistered.addComponent "A" 5000 7 = Outcome.failed ECS.sampleFailedAdd ∧
    ((ECS.sampleFailedAdd = ECS.sampleRegistered ↔
        (ECS.sampleRegistered.m_componentManager.addComponent "A" 5000 7).isOk = false) ∧
      ∀ cm, ECS.sampleRegistered.m_componentManager.addComponent "A" 5000 7 =
          Outcome.ok () cm →
        ECS.sampleFailedAdd = { ECS.sampleRegistered with m_componentManager := cm }) :=
  ⟨rfl, rfl,
    (failure_atomicity ECS.sampleRegistered ECS.sampleFailedAdd).2.2.2.2.2.1 "A" 5000 7 rfl⟩

/-! ## ComponentManager: the ids of the component types -/

namespace ComponentManager

variable {V : Type}

theorem registerComponent_fresh [Inhabited V] (cm : ComponentManager V) (typeName : String)
    (h : cm.m_componentTypes typeName = none) :
    cm.registerComponent typeName = Outcome.ok ()
      { m_componentTypes := Function.update cm.m_componentTypes typeName (some cm.m_nextComponent)
        m_componentArrays := mapInsert cm.m_componentArrays typeName ComponentArray.new
        m_nextComponent := (cm.m_nextComponent + 1) % 256 } := by
  simp only [registerComponent, h, mapInsert_of_none _ _ _ h]

/-- Re-registering a registered type fails and changes nothing. -/
theorem registerComponent_registered [Inhabited V] (cm : ComponentManager V) (typeName : String)
    {t : Component} (h : cm.m_componentTypes typeName = some t) :
    cm.registerComponent typeName = Outcome.failed cm := by
  simp only [registerComponent, h]

/-- A sequence of successful registrations: the types are pairwise distinct and were not
registered, the `i`-th one has the id `(m_nextComponent + i) % 256`, the other types are
as before. -/
theorem registerAll_spec [Inhabited V] (names : List String) : ∀ (cm cm1 : ComponentManager V),
    cm.m_nextComponent < 256 → cm.registerAll names = some cm1 →
    names.Nodup ∧ (∀ n ∈ names, cm.m_componentTypes n = none) ∧
    (∀ i (hi : i < names.length),
      cm1.m_componentTypes names[i] = some ((cm.m_nextComponent + i) % 256)) ∧
    (∀ n, n ∉ names → cm1.m_componentTypes n = cm.m_componentTypes n) ∧
    cm1.m_nextComponent = (cm.m_nextComponent + names.length) % 256 := by
  induction names with
  | nil =>
    intro cm cm1 hnext h
    simp only [registerAll, Option.some.injEq] at h
    subst h
    exact ⟨List.nodup_nil, fun n hn => absurd hn (List.not_mem_nil n),
      fun i hi => absurd hi (by simp), fun _ _ => rfl,
      by simp [Nat.mod_eq_of_lt hnext]⟩
  | cons n rest ih =>
    intro cm cm1 hnext h
    simp only [registerAll] at h
    cases hn : cm.m_componentTypes n with
    | some t => simp [registerComponent_registered cm n hn] at h
    | none =>
      rw [registerComponent_fresh cm n hn] at h
      simp only at h
      obtain ⟨hnd, hfree, hids, hothers, hnext1⟩ := ih _ cm1 (Nat.mod_lt _ (by decide)) h
      simp only [Function.update_apply] at hfree hothers
      have hnot : n ∉ rest := by
        intro hmem
        have := hfree n hmem
        simp at this
      refine ⟨List.nodup_cons.2 ⟨hnot, hnd⟩, ?_, ?_, ?_, ?_⟩
      · intro m hm
        rcases List.mem_cons.1 hm with rfl | hm
        · exact hn
        · have hne : m ≠ n := fun h1 => hnot (h1 ▸ hm)
          have := hfree m hm
          simpa [hne] using this
      · intro i hi
        cases i with
        | zero =>
          simp only [List.getElem_cons_zero, Nat.add_zero, Nat.mod_eq_of_lt hnext]
          rw [hothers n hnot]
          simp
        | succ i =>
          have hi2 : i < rest.length := by simpa using hi
          simp only [List.getElem_cons_succ]
          rw [hids i hi2]
          have key : ∀ x j : Nat, ((x + 1) % 256 + j) % 256 = (x + (j + 1)) % 256 := by
            intro x j
            omega
          rw [key]
      · intro m hm
        have hne : m ≠ n := fun h1 => hm (h1 ▸ List.mem_cons_self _ _)
        rw [hothers m (fun h1 => hm (List.mem_cons_of_mem _ h1))]
        simp [hne]
      · rw [hnext1]
        have key : ∀ x j : Nat, ((x + 1) % 256 + j) % 256 = (x + (j + 1)) % 256 := by
          intro x j
          omega
        simp only [List.length_cons]
        rw [key]

/-- Pairwise distinct, not yet registered types can be registered one after the other:
no call fails, whatever their number. -/
theorem registerAll_ok [Inhabited V] (names : List String) : ∀ (cm : ComponentManager V),
    names.Nodup → (∀ n ∈ names, cm.m_componentTypes n = none) →
    ∃ cm1, cm.registerAll names = some cm1 := by
  induction names with
  | nil => intro cm _ _; exact ⟨cm, rfl⟩
  | cons n rest ih =>
    intro cm hnd hfree
    have hn := hfree n (List.mem_cons_self _ _)
    obtain ⟨hnot, hnd1⟩ := List.nodup_cons.1 hnd
    simp only [registerAll, registerComponent_fresh cm n hn]
    apply ih _ hnd1
    intro m hm
    have hne : m ≠ n := fun h1 => hnot (h1 ▸ hm)
    simp [Function.update_apply, hne, hfree m (List.mem_cons_of_mem _ hm)]

end ComponentManager

/-- The first `k` types of the family `typeNameOf`, registered on a fresh manager: all
calls succeed and type number `i` has the id `i % 256`. -/
theorem registerAll_typeNames (k : Nat) :
    ∃ cm : ComponentManager Nat,
      (ComponentManager.new : ComponentManager Nat).registerAll
        ((List.range k).map typeNameOf) = some cm ∧
      ∀ i, i < k → cm.getComponentId (typeNameOf i) = some (i % 256) := by
  have hnd : ((List.range k).map typeNameOf).Nodup :=
    List.Nodup.map typeNameOf_injective (List.nodup_range k)
  obtain ⟨cm, hcm⟩ := ComponentManager.registerAll_ok ((List.range k).map typeNameOf)
    (ComponentManager.new : ComponentManager Nat) hnd (fun _ _ => rfl)
  obtain ⟨_, _, hids, _, _⟩ := ComponentManager.registerAll_spec _ _ cm
    (show (0 : Nat) < 256 by decide) hcm
  refine ⟨cm, hcm, fun i hi => ?_⟩
  have h := hids i (by simpa using hi)
  simpa [ComponentManager.new, ComponentManager.getComponentId] using h

/-- C14, the code at the failing inputs. Register 33 pairwise distinct component types on a
fresh `ComponentManager`: every call succeeds, and the last type receives the id `32`,
which is not in `[0, MAX_COMPONENTS)` and not a valid bit position (`bitset::set` throws
for it). Register 257 pairwise distinct types: every call succeeds, and the last type
receives the id `0`, the id of the first type (the `uint8_t` counter wrapped around), so
that the type number 256 does not have the id `256` and ids are not distinct. -/
theorem component_id_out_of_range :
    (∃ cm : ComponentManager Nat,
      (ComponentManager.new : ComponentManager Nat).registerAll
        ((List.range 33).map typeNameOf) = some cm ∧
      cm.getComponentId (typeNameOf 32) = some 32 ∧
      ¬ 32 < MAX_COMPONENTS ∧
      ∀ (m : ComponentMask) (b : Bool), maskSet m 32 b = none) ∧
    (∃ cm : ComponentManager Nat,
      (ComponentManager.new : ComponentManager Nat).registerAll
        ((List.range 257).map typeNameOf) = some cm ∧
      typeNameOf 0 ≠ typeNameOf 256 ∧
      cm.getComponentId (typeNameOf 0) = some 0 ∧
      cm.getComponentId (typeNameOf 256) = some 0) := by
  constructor
  · obtain ⟨cm, hcm, hids⟩ := registerAll_typeNames 33
    exact ⟨cm, hcm, hids 32 (by decide), by decide, fun m b => by simp [maskSet, MAX_COMPONENTS]⟩
  · obtain ⟨cm, hcm, hids⟩ := registerAll_typeNames 257
    exact ⟨cm, hcm, fun h => absurd (typeNameOf_injective h) (by decide), hids 0 (by decide),
      hids 256 (by decide)⟩

/-- Below the capacity the ids are as specified: after successful `registerComponent`
calls for at most `MAX_COMPONENTS` types on a fresh `ComponentManager`, the types are
pairwise distinct, the `k`-th one has id `k`, which is below `MAX_COMPONENTS`, distinct
types have distinct ids, re-registering any of them fails, and `getComponentId` fails for
every other type. -/
theorem component_ids_below_capacity {V : Type} [Inhabited V] (names : List String)
    (cm : ComponentManager V)
    (hrun : (ComponentManager.new : ComponentManager V).registerAll names = some cm)
    (hlen : names.length ≤ MAX_COMPONENTS) :
    names.Nodup ∧
    (∀ k (hk : k < names.length),
      cm.getComponentId names[k] = some k ∧ k < MAX_COMPONENTS ∧
      cm.registerComponent names[k] = Outcome.failed cm) ∧
    (∀ n, n ∉ names → cm.getComponentId n = none) ∧
    (∀ n1 n2 t, cm.getComponentId n1 = some t → cm.getComponentId n2 = some t → n1 = n2) := by
  obtain ⟨hnd, _, hids, hothers, _⟩ := ComponentManager.registerAll_spec names _ cm
    (show (0 : Nat) < 256 by decide) hrun
  have hid : ∀ k (hk : k < names.length), cm.m_componentTypes names[k] = some k := by
    intro k hk
    rw [hids k hk]
    have h256 : k < 256 := Nat.lt_of_lt_of_le hk (Nat.le_trans hlen (by decide))
    simp [ComponentManager.new, Nat.mod_eq_of_lt h256]
  have hnone : ∀ n, n ∉ names → cm.m_componentTypes n = none := by
    intro n hn
    rw [hothers n hn]
    rfl
  refine ⟨hnd, ?_, hnone, ?_⟩
  · intro k hk
    exact ⟨hid k hk, Nat.lt_of_lt_of_le hk hlen,
      ComponentManager.registerComponent_registered cm _ (hid k hk)⟩
  · intro n1 n2 t h1 h2
    simp only [ComponentManager.getComponentId] at h1 h2
    have mem : ∀ n, cm.m_componentTypes n = some t → ∃ k, ∃ hk : k < names.length,
        names[k] = n ∧ k = t := by
      intro n hn
      by_cases hmem : n ∈ names
      · obtain ⟨k, hk, rfl⟩ := List.getElem_of_mem hmem
        refine ⟨k, hk, rfl, ?_⟩
        rw [hid k hk] at hn
        simpa using hn
      · rw [hnone n hmem] at hn
        simp at hn
    obtain ⟨k1, hk1, rfl, rfl⟩ := mem n1 h1
    obtain ⟨k2, hk2, rfl, h3⟩ := mem n2 h2
    subst h3
    rfl

/-! ## The facade: creation of an entity -/

namespace ECS

variable {V : Type}

/-- After a successful `addComponent<T>(e, v)` the store of `T` holds `e` with value `v`. -/
theorem addComponent_stored {ecs ecs1 : ECS V} {typeName : String} {e : Entity} {v : V}
    (hc : ecs.addComponent typeName e v = Outcome.ok () ecs1) :
    ecs1.hasComponent typeName e = some true ∧ ecs1.getComponent typeName e = some v := by
  obtain ⟨cm, id, newMask, _, hcm, _, _, rfl⟩ := addComponent_ok hc
  obtain ⟨t, ca, ca1, hty, hca, hins, rfl⟩ := ComponentManager.store_addComponent_ok hcm
  simp only [ComponentArray.insertData] at hins
  split at hins
  · simp at hins
  · simp only [Outcome.ok.injEq, true_and] at hins
    subst hins
    simp [ECS.hasComponent, ECS.getComponent, ComponentManager.hasComponent,
      ComponentManager.getComponent, ComponentManager.getComponentArray, hty,
      ComponentArray.hasComponent, ComponentArray.getData]

/-- A successful `addComponent` leaves the pool, the counter and the names as they are. -/
theorem addComponent_manager {ecs ecs1 : ECS V} {typeName : String} {e : Entity} {v : V}
    (hc : ecs.addComponent typeName e v = Outcome.ok () ecs1) :
    ecs1.m_entityManager.m_entities = ecs.m_entityManager.m_entities ∧
    ecs1.m_entityManager.m_numberOfEntities = ecs.m_entityManager.m_numberOfEntities ∧
    ecs1.m_entityManager.m_nameToEntity = ecs.m_entityManager.m_nameToEntity := by
  obtain ⟨cm, id, newMask, _, _, _, _, rfl⟩ := addComponent_ok hc
  exact ⟨rfl, rfl, rfl⟩

theorem removeComponent_manager {ecs ecs1 : ECS V} {typeName : String} {e : Entity}
    (hc : ecs.removeComponent typeName e = Outcome.ok () ecs1) :
    ecs1.m_entityManager.m_entities = ecs.m_entityManager.m_entities ∧
    ecs1.m_entityManager.m_numberOfEntities = ecs.m_entityManager.m_numberOfEntities := by
  obtain ⟨cm, id, newMask, _, _, _, _, rfl⟩ := removeComponent_ok hc
  exact ⟨rfl, rfl⟩

/-- The `EntityManager` part of a successful `destroyEntity`. -/
theorem facade_destroyEntity_manager {ecs ecs1 : ECS V} {e : Entity}
    (h : ecs.destroyEntity e = Outcome.ok () ecs1) :
    ecs.m_entityManager.destroyEntity e = Outcome.ok () ecs1.m_entityManager := by
  simp only [destroyEntity, EntityManager.getComponents] at h
  by_cases he : e < MAX_ENTITIES
  · simp only [he, if_true] at h
    obtain ⟨em1, hem1, _⟩ := EntityManager.destroyEntity_ok ecs.m_entityManager e he
    simp only [hem1, Outcome.ok.injEq, true_and] at h
    subst h
    exact hem1
  · simp [he] at h

end ECS

theorem TrackedManager.Partitioned.congr_pool {t t1 : TrackedManager} (h : t.Partitioned)
    (hp : t1.manager.m_entities = t.manager.m_entities)
    (hc : t1.manager.m_numberOfEntities = t.manager.m_numberOfEntities)
    (hu : t1.inUse = t.inUse) : t1.Partitioned := by
  unfold TrackedManager.Partitioned at h ⊢
  rw [hp, hc, hu]
  exact h

/-- An id returned by `createEntity` is not in use. -/
theorem TrackedManager.Partitioned.fresh {t : TrackedManager} (h : t.Partitioned) {id : Entity}
    {em : EntityManager} (hc : t.manager.createEntity = Outcome.ok id em) : id ∉ t.inUse := by
  intro hin
  have h2 := (h.after_create hc).nodup
  simp only [List.nodup_append, List.nodup_cons] at h2
  exact h2.2.1.1 hin

theorem maskSet_false_zero {id : Nat} {m1 : ComponentMask} (h : maskSet 0 id false = some m1) :
    m1 = 0 := by
  apply Nat.eq_of_testBit_eq
  intro t
  rw [(maskSet_false h).2 t]
  simp

namespace TrackedECS

variable {V : Type}

theorem clean_new : (TrackedECS.new : TrackedECS V).Clean :=
  ⟨TrackedManager.partitioned_new, fun _ _ => rfl⟩

/-- The state after `addComponent<T>(id, v)` that follows the allocation of `id` in a
`createEntity` call. -/
theorem Clean.clean_created {t : TrackedECS V} (h : t.Clean) {id : Entity} {em : EntityManager}
    {ecs1 : ECS V}
    (hp : ({ manager := em, inUse := id :: t.inUse } : TrackedManager).Partitioned)
    (hm : em.m_componentMasks = t.ecs.m_entityManager.m_componentMasks)
    {typeName : String} {v : V}
    (hadd : ({ t.ecs with m_entityManager := em } : ECS V).addComponent typeName id v =
      Outcome.ok () ecs1) :
    ({ ecs := ecs1, inUse := id :: t.inUse } : TrackedECS V).Clean := by
  obtain ⟨hpool, hcount, _⟩ := ECS.addComponent_manager hadd
  refine ⟨hp.congr_pool hpool hcount rfl, ?_⟩
  intro x hx
  obtain ⟨cm, cid, newMask, _, _, _, _, rfl⟩ := ECS.addComponent_ok hadd
  simp only [List.mem_cons, not_or] at hx
  simp only [Function.update_apply, hx.1, if_false, hm]
  exact h.2 x hx.2

theorem Clean.clean_step [Inhabited V] {t t1 : TrackedECS V} (h : t.Clean) {c : Call V}
    {cs : List (Call V)} (hlive : t.targetsInUse (c :: cs) = true) (hs : t.step c = some t1) :
    t1.Clean := by
  cases c with
  | createEntity =>
    simp only [step] at hs
    cases hc : t.ecs.createEntity with
    | failed st => simp [hc] at hs
    | ok id ecs1 =>
      simp only [hc, Option.some.injEq] at hs
      subst hs
      obtain ⟨em, hem, hadd⟩ := ECS.createEntity_ok hc
      exact h.clean_created (h.1.after_create hem) (EntityManager.createEntity_masks hem).1 hadd
  | createEntityNamed name =>
    simp only [step] at hs
    cases hc : t.ecs.createEntityNamed name with
    | failed st => simp [hc] at hs
    | ok id ecs1 =>
      simp only [hc, Option.some.injEq] at hs
      subst hs
      obtain ⟨em, hem, hadd⟩ := ECS.createEntityNamed_ok hc
      exact h.clean_created (h.1.after_createNamed hem)
        (EntityManager.createEntityNamed_masks hem).1 hadd
  | destroyEntity e =>
    have hin : e ∈ t.inUse := by
      simp only [targetsInUse, Bool.and_eq_true, decide_eq_true_eq] at hlive
      exact hlive.1
    simp only [step] at hs
    cases hc : t.ecs.destroyEntity e with
    | failed st => simp [hc] at hs
    | ok u ecs1 =>
      simp only [hc, Option.some.injEq] at hs
      subst hs
      obtain ⟨_, _, hmasks, _⟩ := ECS.facade_destroyEntity_ok hc
      refine ⟨h.1.after_destroy hin (ECS.facade_destroyEntity_manager hc), ?_⟩
      intro x hx
      simp only [List.mem_filter, decide_eq_true_eq, not_and, not_not] at hx
      simp only [hmasks, Function.update_apply]
      split
      · rfl
      · rename_i hne
        exact h.2 x (fun hmem => hne (hx hmem))
  | setEntityName e n =>
    simp only [step, ECS.step, Option.map_eq_some'] at hs
    obtain ⟨ecs1, hs1, rfl⟩ := hs
    obtain ⟨a, ha⟩ := ECS.state?_eq_some hs1
    obtain ⟨_, _, hmasks, hpool, hcount⟩ := ECS.facade_setEntityName_ok ha
    exact ⟨h.1.congr_pool hpool hcount rfl, fun x hx => by rw [hmasks]; exact h.2 x hx⟩
  | registerComponent n =>
    simp only [step, ECS.step, Option.map_eq_some'] at hs
    obtain ⟨ecs1, hs1, rfl⟩ := hs
    obtain ⟨a, ha⟩ := ECS.state?_eq_some hs1
    obtain ⟨_, hem, _⟩ := ECS.facade_registerComponent_ok ha
    exact ⟨h.1.congr_pool (by rw [hem]) (by rw [hem]) rfl,
      fun x hx => by simp only [hem]; exact h.2 x hx⟩
  | addComponent n e v =>
    have hin : e ∈ t.inUse := by
      simp only [targetsInUse, Bool.and_eq_true, decide_eq_true_eq] at hlive
      exact hlive.1
    simp only [step, ECS.step, Option.map_eq_some'] at hs
    obtain ⟨ecs1, hs1, rfl⟩ := hs
    obtain ⟨a, ha⟩ := ECS.state?_eq_some hs1
    obtain ⟨hpool, hcount, _⟩ := ECS.addComponent_manager ha
    refine ⟨h.1.congr_pool hpool hcount rfl, ?_⟩
    intro x hx
    obtain ⟨cm, cid, newMask, _, _, _, _, rfl⟩ := ECS.addComponent_ok ha
    have hne : x ≠ e := fun hxe => hx (hxe ▸ hin)
    simp only [Function.update_apply, hne, if_false]
    exact h.2 x hx
  | removeComponent n e =>
    simp only [step, ECS.step, Option.map_eq_some'] at hs
    obtain ⟨ecs1, hs1, rfl⟩ := hs
    obtain ⟨a, ha⟩ := ECS.state?_eq_some hs1
    obtain ⟨hpool, hcount⟩ := ECS.removeComponent_manager ha
    refine ⟨h.1.congr_pool hpool hcount rfl, ?_⟩
    intro x hx
    obtain ⟨cm, cid, newMask, _, _, _, hmask, rfl⟩ := ECS.removeComponent_ok ha
    simp only [Function.update_apply]
    split
    · rename_i hxe
      subst hxe
      rw [h.2 x hx] at hmask
      exact maskSet_false_zero hmask
    · exact h.2 x hx
  | registerSystem n s =>
    simp only [step, ECS.step, Option.map_eq_some'] at hs
    obtain ⟨ecs1, hs1, rfl⟩ := hs
    obtain ⟨a, ha⟩ := ECS.state?_eq_some hs1
    obtain ⟨_, hem, _⟩ := ECS.facade_registerSystem_ok ha
    exact ⟨h.1.congr_pool (by rw [hem]) (by rw [hem]) rfl,
      fun x hx => by simp only [hem]; exact h.2 x hx⟩
  | setSystemComponents n m =>
    simp only [step, ECS.step, Option.map_eq_some'] at hs
    obtain ⟨ecs1, hs1, rfl⟩ := hs
    obtain ⟨a, ha⟩ := ECS.state?_eq_some hs1
    obtain ⟨hem, _⟩ := ECS.facade_setSystemComponents_ok ha
    exact ⟨h.1.congr_pool (by rw [hem]) (by rw [hem]) rfl,
      fun x hx => by simp only [hem]; exact h.2 x hx⟩

theorem Clean.clean_run [Inhabited V] (calls : List (Call V)) : ∀ (t t1 : TrackedECS V),
    t.Clean → t.targetsInUse calls = true → t.run calls = some t1 → t1.Clean := by
  induction calls with
  | nil =>
    intro t t1 h _ hr
    simp only [run, Option.some.injEq] at hr
    exact hr ▸ h
  | cons c cs ih =>
    intro t t1 h hlive hr
    simp only [run] at hr
    cases hs : t.step c with
    | none => simp [hs] at hr
    | some t2 =>
      simp only [hs] at hr
      have h2 := h.clean_step hlive hs
      simp only [targetsInUse, hs, Bool.and_eq_true] at hlive
      exact ih t2 t1 h2 hlive.2 hr

/-- The `Transform` component and the mask after the `addComponent<Transform>` call of
`createEntity`, for an id whose mask was all-zero. -/
theorem created_transform {ecs ecs1 : ECS V} {e : Entity} {v : V}
    (hzero : ecs.m_entityManager.m_componentMasks e = 0)
    (hadd : ecs.addComponent TransformName e v = Outcome.ok () ecs1) :
    ecs1.hasComponent TransformName e = some true ∧
    ecs1.getComponent TransformName e = some v ∧
    ∃ id, ecs1.getComponentId TransformName = some id ∧
      ecs1.m_entityManager.getComponents e = some (1 <<< id) := by
  obtain ⟨h1, h2⟩ := ECS.addComponent_stored hadd
  refine ⟨h1, h2, ?_⟩
  obtain ⟨cm, id, newMask, he, _, hid, hmask, rfl⟩ := ECS.addComponent_ok hadd
  rw [hzero] at hmask
  obtain ⟨_, rfl⟩ := maskSet_true_eq hmask
  exact ⟨id, hid, by simp [EntityManager.getComponents, he]⟩

end TrackedECS

theorem EntityManager.createEntityNamed_bound {em em1 : EntityManager} {id : Entity}
    {name : String} (h : em.createEntityNamed name = Outcome.ok id em1) :
    em1.m_nameToEntity name = some id := by
  simp only [EntityManager.createEntityNamed] at h
  split at h
  · simp at h
  · split at h
    · simp at h
    · simp only [Outcome.ok.injEq] at h
      obtain ⟨rfl, rfl⟩ := h
      simp

set_option maxRecDepth 100000 in
/-- C15, the claim as stated fails: register `A`, `B` and `Transform` on a fresh ECS and
call `addComponent<A>(0, 7)`; the call succeeds although no `createEntity` call has
returned the id `0` (only `0 < MAX_ENTITIES` is checked). Then `createEntity()` succeeds
and returns `0`, and the mask of entity `0` is `{A, Transform}` (the value `5`), not the
`Transform` bit alone (the value `4`): the entity holds an `A` as well. -/
theorem creation_lifecycle_counterexample :
    (ECS.init : ECS Nat).run (sampleRegistration ++ [Call.addComponent "A" 0 7]) =
      some ECS.sampleStrayA ∧
    ECS.sampleStrayA.createEntity = Outcome.ok 0 ECS.sampleStrayCreated ∧
    ECS.sampleStrayCreated.getComponentId TransformName = some 2 ∧
    ECS.sampleStrayCreated.m_entityManager.getComponents 0 = some 5 ∧
    (5 : Nat) ≠ 1 <<< 2 ∧
    ECS.sampleStrayCreated.hasComponent "A" 0 = some true := by
  refine ⟨?_, rfl, by decide, by decide, by decide, by decide⟩
  rw [ECS.run_append _ _ _ _ sampleRegistered_run]
  rfl

/-- C15 (amended): let the facade be in a state reached from a freshly initialised ECS by
successful calls in which every `destroyEntity` and every `addComponent` is passed an
entity in use at that moment. Whenever `createEntity()` or `createEntity(name)` then
succeeds and returns `e` (a fresh id or one recycled from a destroyed entity), `e` was
not in use, and afterwards `hasComponent<Transform>(e)` holds with the default `Transform`
value, the mask of `e` has exactly the `Transform` bit set, and for the named variant
`findEntityByName(name)` is `e`. -/
theorem creation_lifecycle {V : Type} [Inhabited V] (calls : List (Call V)) (t : TrackedECS V)
    (hrun : (TrackedECS.new : TrackedECS V).run calls = some t)
    (hlive : (TrackedECS.new : TrackedECS V).targetsInUse calls = true) :
    (∀ e ecs1, t.ecs.createEntity = Outcome.ok e ecs1 →
      e ∉ t.inUse ∧
      ecs1.hasComponent TransformName e = some true ∧
      ecs1.getComponent TransformName e = some default ∧
      ∃ id, ecs1.getComponentId TransformName = some id ∧
        ecs1.m_entityManager.getComponents e = some (1 <<< id)) ∧
    (∀ name e ecs1, t.ecs.createEntityNamed name = Outcome.ok e ecs1 →
      e ∉ t.inUse ∧
      ecs1.hasComponent TransformName e = some true ∧
      ecs1.getComponent TransformName e = some default ∧
      (∃ id, ecs1.getComponentId TransformName = some id ∧
        ecs1.m_entityManager.getComponents e = some (1 <<< id)) ∧
      ecs1.findEntityByName name = some e) := by
  have hclean := TrackedECS.Clean.clean_run calls _ t TrackedECS.clean_new hlive hrun
  constructor
  · intro e ecs1 hc
    obtain ⟨em, hem, hadd⟩ := ECS.createEntity_ok hc
    have hfresh : e ∉ t.inUse := hclean.1.fresh hem
    have hzero : ({ t.ecs with m_entityManager := em } : ECS V).m_entityManager.m_componentMasks
        e = 0 := by
      rw [show ({ t.ecs with m_entityManager := em } : ECS V).m_entityManager = em from rfl,
        (EntityManager.createEntity_masks hem).1]
      exact hclean.2 e hfresh
    exact ⟨hfresh, TrackedECS.created_transform hzero hadd⟩
  · intro name e ecs1 hc
    obtain ⟨em, hem, hadd⟩ := ECS.createEntityNamed_ok hc
    have hfresh : e ∉ t.inUse := by
      intro hin
      have h2 := (hclean.1.after_createNamed hem).nodup
      simp only [List.nodup_append, List.nodup_cons] at h2
      exact h2.2.1.1 hin
    have hzero : ({ t.ecs with m_entityManager := em } : ECS V).m_entityManager.m_componentMasks
        e = 0 := by
      rw [show ({ t.ecs with m_entityManager := em } : ECS V).m_entityManager = em from rfl,
        (EntityManager.createEntityNamed_masks hem).1]
      exact hclean.2 e hfresh
    obtain ⟨h1, h2, h3⟩ := TrackedECS.created_transform hzero hadd
    refine ⟨hfresh, h1, h2, h3, ?_⟩
    simp only [ECS.findEntityByName, EntityManager.findEntityByName,
      (ECS.addComponent_manager hadd).2.2]
    exact EntityManager.createEntityNamed_bound hem

set_option maxRecDepth 100000 in
/-- C15 (amended), an instance: `createEntity()` after the sample registration returns
the id `0`. -/
theorem creation_lifecycle_witness :
    (TrackedECS.new : TrackedECS Nat).run sampleRegistration =
      some ⟨ECS.sampleRegistered, []⟩ ∧
    (TrackedECS.new : TrackedECS Nat).targetsInUse sampleRegistration = true ∧
    ECS.sampleRegistered.createEntity = Outcome.ok 0 ECS.sampleCreated ∧
    0 ∉ ([] : List Entity) ∧
    ECS.sampleCreated.hasComponent TransformName 0 = some true ∧
    ECS.sampleCreated.getComponent TransformName 0 = some default ∧
    ∃ id, ECS.sampleCreated.getComponentId TransformName = some id ∧
      ECS.sampleCreated.m_entityManager.getComponents 0 = some (1 <<< id) :=
  ⟨rfl, rfl, rfl,
    (creation_lifecycle sampleRegistration ⟨ECS.sampleRegistered, []⟩ rfl rfl).1 0
      ECS.sampleCreated rfl⟩
/-! ## The facade: the order of the steps of `removeComponent` -/

theorem and_clear_le (o M K : Nat) : (o &&& K) &&& M ≤ o &&& M := by
  rw [Nat.and_assoc, Nat.and_comm K M, ← Nat.and_assoc]
  exact Nat.and_le_left

namespace SystemManager

variable {V : Type}

/-- The hooks `entityComponentMaskChanged` invokes on one object when the new mask has no
bit the old mask has not: each of them is `onEntityComponentRemoved(e, c)`, invoked in the
world the function is called in. The object may be registered under any number of type
names. -/
theorem fired_entityComponentMaskChanged (sm : SystemManager V) (world : World V) (e : Entity)
    (o n : ComponentMask) (c : Component) (hle : ∀ M, n &&& M ≤ o &&& M) (r : SystemRef) :
    ∃ fired,
      ((sm.entityComponentMaskChanged world e o n c).objects r).calls =
        (sm.objects r).calls ++ fired ∧
      ∀ record ∈ fired,
        record.call = HookCall.onEntityComponentRemoved e c ∧ record.world = world := by
  refine foldl_update_rel
    (fun t s => entityComponentMaskChangedStep s world e o n (sm.systemComponentMask t) c)
    (fun s s1 => ∃ fired, s1.calls = s.calls ++ fired ∧
      ∀ record ∈ fired,
        record.call = HookCall.onEntityComponentRemoved e c ∧ record.world = world)
    ?_ ?_ ?_ sm.m_systems sm.objects r
  · intro s
    exact ⟨[], by simp, by simp⟩
  · rintro s1 s2 s3 ⟨f1, h1, hf1⟩ ⟨f2, h2, hf2⟩
    refine ⟨f1 ++ f2, by rw [h2, h1, List.append_assoc], ?_⟩
    intro record hrec
    rcases List.mem_append.1 hrec with h | h
    · exact hf1 record h
    · exact hf2 record h
  · intro t s
    show ∃ fired,
      (entityComponentMaskChangedStep s world e o n (sm.systemComponentMask t) c).calls =
        s.calls ++ fired ∧ _
    rcases Nat.eq_or_lt_of_le (hle (sm.systemComponentMask t)) with heq | hlt
    · rw [entityComponentMaskChangedStep_same _ _ _ _ _ _ _ heq]
      exact ⟨[], by simp, by simp⟩
    · refine ⟨_, calls_entityComponentMaskChangedStep_removed _ _ _ _ _ _ _ hlt, ?_⟩
      intro record hrec
      rw [List.mem_singleton] at hrec
      subst hrec
      exact ⟨rfl, rfl⟩

end SystemManager

/-- The steps of a `removeComponent<T>(e)` that passes its first assertions, for an entity
that holds a `T` with value `v`. -/
theorem removeComponent_ordered {V : Type} (ecs : ECS V) (T : String) (e : Entity) (v : V)
    (id : Component) (he : e < MAX_ENTITIES) (hid : ecs.getComponentId T = some id)
    (hrange : id < MAX_COMPONENTS) (hv : ecs.getComponent T e = some v) :
    ∃ ecs1, ecs.removeComponent T e = Outcome.ok () ecs1 ∧
      ecs1.hasComponent T e = some false ∧
      ecs1.getComponent T e = none ∧
      (∃ m, ecs1.m_entityManager.getComponents e = some m ∧ m.testBit id = false) ∧
      (∀ system : SystemRef, ∃ fired,
        (ecs1.m_systemManager.objects system).calls =
          (ecs.m_systemManager.objects system).calls ++ fired ∧
        ∀ record ∈ fired,
          record.call = HookCall.onEntityComponentRemoved e id ∧
          record.world.m_entityManager = ecs1.m_entityManager ∧
          (∃ m, record.world.m_entityManager.getComponents e = some m ∧
            m.testBit id = false) ∧
          record.world.m_componentManager = ecs.m_componentManager ∧
          record.world.m_componentManager.hasComponent T e = some true ∧
          record.world.m_componentManager.getComponent T e = some v) ∧
      ∀ S system, ecs.m_systemManager.RegisteredOnlyAs system S →
        (ecs1.m_systemManager.objects system = ecs.m_systemManager.objects system ∨
          ((ecs1.m_systemManager.objects system).calls =
            (ecs.m_systemManager.objects system).calls ++
              [{ call := HookCall.onEntityComponentRemoved e id
                 entities := (ecs.m_systemManager.objects system).entities
                 world :=
                   { m_entityManager := ecs1.m_entityManager
                     m_componentManager := ecs.m_componentManager } }])) := by
  simp only [ECS.getComponentId, ComponentManager.getComponentId] at hid
  have hv0 : ecs.m_componentManager.getComponent T e = some v := hv
  simp only [ECS.getComponent, ComponentManager.getComponent,
    ComponentManager.getComponentArray, hid] at hv
  cases hca : ecs.m_componentManager.m_componentArrays T with
  | none => simp [hca] at hv
  | some ca =>
    simp only [hca, ComponentArray.getData] at hv
    cases hidx : ca.m_entityToIndex e with
    | none => simp [hidx] at hv
    | some i =>
      obtain ⟨ca1, hca1, hrem⟩ := ECS.removeComponent_eq ecs hid hca hidx he hrange
      have habs : ca1.m_entityToIndex e = none := by
        simp only [ComponentArray.removeData, hidx, Outcome.ok.injEq, true_and] at hca1
        rw [← hca1]
        simp
      have hbit : (ecs.m_entityManager.m_componentMasks e &&&
          ((2 ^ MAX_COMPONENTS - 1) ^^^ 1 <<< id)).testBit id = false := by
        have hm : maskSet (ecs.m_entityManager.m_componentMasks e) id false =
            some (ecs.m_entityManager.m_componentMasks e &&&
              ((2 ^ MAX_COMPONENTS - 1) ^^^ 1 <<< id)) := by
          simp [maskSet, hrange]
        rw [(maskSet_false hm).2 id]
        simp
      have hhas : ecs.m_componentManager.hasComponent T e = some true := by
        simp [ComponentManager.hasComponent, ComponentManager.getComponentArray, hid, hca,
          ComponentArray.hasComponent, hidx]
      have hmask : ∃ m,
          ({ ecs.m_entityManager with
              m_componentMasks := Function.update ecs.m_entityManager.m_componentMasks e
                (ecs.m_entityManager.m_componentMasks e &&&
                  ((2 ^ MAX_COMPONENTS - 1) ^^^ 1 <<< id)) } :
            EntityManager).getComponents e = some m ∧ m.testBit id = false :=
        ⟨_, by simp [EntityManager.getComponents, he], hbit⟩
      refine ⟨_, hrem, ?_, ?_, hmask, ?_, ?_⟩
      · simp [ECS.hasComponent, ComponentManager.hasComponent,
          ComponentManager.getComponentArray, hid, ComponentArray.hasComponent, habs]
      · simp [ECS.getComponent, ComponentManager.getComponent,
          ComponentManager.getComponentArray, hid, ComponentArray.getData, habs]
      · intro system
        obtain ⟨fired, hcalls, hfired⟩ :=
          SystemManager.fired_entityComponentMaskChanged ecs.m_systemManager
            { m_entityManager :=
                { ecs.m_entityManager with
                  m_componentMasks := Function.update ecs.m_entityManager.m_componentMasks e
                    (ecs.m_entityManager.m_componentMasks e &&&
                      ((2 ^ MAX_COMPONENTS - 1) ^^^ 1 <<< id)) }
              m_componentManager := ecs.m_componentManager }
            e (ecs.m_entityManager.m_componentMasks e)
            (ecs.m_entityManager.m_componentMasks e &&& ((2 ^ MAX_COMPONENTS - 1) ^^^ 1 <<< id))
            id (fun M => and_clear_le _ M _) system
        refine ⟨fired, hcalls, ?_⟩
        intro record hrec
        obtain ⟨hcall, hworld⟩ := hfired record hrec
        rw [hworld]
        exact ⟨hcall, rfl, hmask, rfl, hhas, hv0⟩
      · intro S system hS
        show (ecs.m_systemManager.entityComponentMaskChanged _ e _ _ id).objects system = _ ∨
          ((ecs.m_systemManager.entityComponentMaskChanged _ e _ _ id).objects system).calls = _
        rw [SystemManager.objects_entityComponentMaskChanged _ _ _ _ _ _ hS]
        rcases Nat.eq_or_lt_of_le (and_clear_le (ecs.m_entityManager.m_componentMasks e)
          (ecs.m_systemManager.systemComponentMask S)
          ((2 ^ MAX_COMPONENTS - 1) ^^^ 1 <<< id)) with heq | hlt
        · left
          rw [SystemManager.entityComponentMaskChangedStep_same _ _ _ _ _ _ _ heq]
        · right
          exact SystemManager.calls_entityComponentMaskChangedStep_removed _ _ _ _ _ _ _ hlt

/-- C17: let entity `e` hold a component of type `T` with value `v`. If `e` is not below
`MAX_ENTITIES` or `id(T)` is not below `MAX_COMPONENTS`, `removeComponent<T>(e)` fails its
first assertions and the state is left as it is: no hook is invoked. Otherwise the call
succeeds, and every hook it invokes on any system object is
`onEntityComponentRemoved(e, id(T))` and observes a state in which the mask of `e` is the
final one, with bit `id(T)` cleared, while the stores are the ones before the call: the
store of `T` still holds `e` with value `v` (`getComponent<T>(e) == v`). The component is
removed from the store after the notification: in the state the call returns, the store
of `T` does not hold `e`. A system whose object is registered under its type name only
receives either nothing or exactly one hook. -/
theorem removal_ordering {V : Type} (ecs : ECS V) (T : String) (e : Entity) (v : V)
    (hv : ecs.getComponent T e = some v) :
    ∃ id, ecs.getComponentId T = some id ∧
      ((¬ (e < MAX_ENTITIES ∧ id < MAX_COMPONENTS) ∧
          ecs.removeComponent T e = Outcome.failed ecs) ∨
        (e < MAX_ENTITIES ∧ id < MAX_COMPONENTS ∧
          ∃ ecs1, ecs.removeComponent T e = Outcome.ok () ecs1 ∧
            ecs1.hasComponent T e = some false ∧
            ecs1.getComponent T e = none ∧
            (∃ m, ecs1.m_entityManager.getComponents e = some m ∧ m.testBit id = false) ∧
            (∀ system : SystemRef, ∃ fired,
              (ecs1.m_systemManager.objects system).calls =
                (ecs.m_systemManager.objects system).calls ++ fired ∧
              ∀ record ∈ fired,
                record.call = HookCall.onEntityComponentRemoved e id ∧
                record.world.m_entityManager = ecs1.m_entityManager ∧
                (∃ m, record.world.m_entityManager.getComponents e = some m ∧
                  m.testBit id = false) ∧
                record.world.m_componentManager = ecs.m_componentManager ∧
                record.world.m_componentManager.hasComponent T e = some true ∧
                record.world.m_componentManager.getComponent T e = some v) ∧
            ∀ S system, ecs.m_systemManager.RegisteredOnlyAs system S →
              (ecs1.m_systemManager.objects system = ecs.m_systemManager.objects system ∨
                ((ecs1.m_systemManager.objects system).calls =
                  (ecs.m_systemManager.objects system).calls ++
                    [{ call := HookCall.onEntityComponentRemoved e id
                       entities := (ecs.m_systemManager.objects system).entities
                       world :=
                         { m_entityManager := ecs1.m_entityManager
                           m_componentManager := ecs.m_componentManager } }])))) := by
  cases hid : ecs.m_componentManager.m_componentTypes T with
  | none =>
    simp [ECS.getComponent, ComponentManager.getComponent, ComponentManager.getComponentArray,
      hid] at hv
  | some id =>
    refine ⟨id, hid, ?_⟩
    by_cases hb : e < MAX_ENTITIES ∧ id < MAX_COMPONENTS
    · exact Or.inr ⟨hb.1, hb.2, removeComponent_ordered ecs T e v id hb.1 hid hb.2 hv⟩
    · refine Or.inl ⟨hb, ?_⟩
      simp only [ECS.removeComponent, EntityManager.getComponents,
        ComponentManager.getComponentId, hid, maskSet, EntityManager.setComponents]
      by_cases he : e < MAX_ENTITIES
      · have hr : ¬ id < MAX_COMPONENTS := fun h => hb ⟨he, h⟩
        simp [he, hr]
      · simp [he]

set_option maxRecDepth 100000 in
/-- C17, an instance: `removeComponent<A>(0)` in the sample scenario, where entity `0`
holds an `A` with value `7`. -/
theorem removal_ordering_witness :
    ECS.sampleWithAB.getComponent "A" 0 = some 7 ∧
    ∃ id, ECS.sampleWithAB.getComponentId "A" = some id ∧
      ((¬ (0 < MAX_ENTITIES ∧ id < MAX_COMPONENTS) ∧
          ECS.sampleWithAB.removeComponent "A" 0 = Outcome.failed ECS.sampleWithAB) ∨
        (0 < MAX_ENTITIES ∧ id < MAX_COMPONENTS ∧
          ∃ ecs1, ECS.sampleWithAB.removeComponent "A" 0 = Outcome.ok () ecs1 ∧
            ecs1.hasComponent "A" 0 = some false ∧
            ecs1.getComponent "A" 0 = none ∧
            (∃ m, ecs1.m_entityManager.getComponents 0 = some m ∧ m.testBit id = false) ∧
            (∀ system : SystemRef, ∃ fired,
              (ecs1.m_systemManager.objects system).calls =
                (ECS.sampleWithAB.m_systemManager.objects system).calls ++ fired ∧
              ∀ record ∈ fired,
                record.call = HookCall.onEntityComponentRemoved 0 id ∧
                record.world.m_entityManager = ecs1.m_entityManager ∧
                (∃ m, record.world.m_entityManager.getComponents 0 = some m ∧
                  m.testBit id = false) ∧
                record.world.m_componentManager = ECS.sampleWithAB.m_componentManager ∧
                record.world.m_componentManager.hasComponent "A" 0 = some true ∧
                record.world.m_componentManager.getComponent "A" 0 = some 7) ∧
            ∀ S system, ECS.sampleWithAB.m_systemManager.RegisteredOnlyAs system S →
              (ecs1.m_systemManager.objects system =
                  ECS.sampleWithAB.m_systemManager.objects system ∨
                ((ecs1.m_systemManager.objects system).calls =
                  (ECS.sampleWithAB.m_systemManager.objects system).calls ++
                    [{ call := HookCall.onEntityComponentRemoved 0 id
                       entities := (ECS.sampleWithAB.m_systemManager.objects system).entities
                       world :=
                         { m_entityManager := ecs1.m_entityManager
                           m_componentManager :=
                             ECS.sampleWithAB.m_componentManager } }])))) :=
  ⟨by decide, removal_ordering ECS.sampleWithAB "A" 0 7 (by decide)⟩

/-! ## The store refines a finite map -/

namespace FiniteMap

variable {T : Type}

theorem lookup_bind (m : FiniteMap T) (e : Entity) (v : T) (x : Entity) :
    (m.bind e v).lookup x = if e = x then some v else m.lookup x := rfl

theorem lookup_unbind (m : FiniteMap T) (e : Entity) (x : Entity) :
    (m.unbind e).lookup x = if x = e then none else m.lookup x := by
  induction m with
  | nil => simp [unbind, lookup]
  | cons p rest ih =>
    obtain ⟨k, v⟩ := p
    by_cases hk : k = e
    · simp only [unbind, hk, if_true, lookup]
      rw [ih]
      by_cases hx : x = e
      · simp [hx]
      · have : ¬ e = x := fun h => hx h.symm
        simp [hx, this]
    · simp only [unbind, hk, if_false, lookup]
      rw [ih]
      by_cases hx : x = e
      · subst hx
        simp [hk]
      · simp [hx]

theorem lookup_eq_none (m : FiniteMap T) (e : Entity) : m.lookup e = none ↔ e ∉ m.keys := by
  induction m with
  | nil => simp [lookup, keys]
  | cons p rest ih =>
    obtain ⟨k, v⟩ := p
    by_cases hk : k = e
    · simp [lookup, keys, hk]
    · have hek : ¬ e = k := fun h => hk h.symm
      simp only [lookup, hk, if_false, keys, List.map_cons, List.mem_cons, hek, false_or]
      exact ih

theorem keys_unbind (m : FiniteMap T) (e : Entity) :
    (m.unbind e).keys = m.keys.filter (fun k => k ≠ e) := by
  induction m with
  | nil => rfl
  | cons p rest ih =>
    obtain ⟨k, v⟩ := p
    simp only [keys] at ih
    by_cases hk : k = e
    · simp [unbind, keys, hk, ih]
    · simp [unbind, keys, hk, ih]

theorem size_of_nodup {m : FiniteMap T} (h : m.keys.Nodup) : m.size = m.keys.length := by
  simp only [size, h.dedup]

theorem nodup_unbind {m : FiniteMap T} (h : m.keys.Nodup) (e : Entity) :
    (m.unbind e).keys.Nodup := by
  rw [keys_unbind]
  exact h.filter _

theorem length_filter_ne {l : List Entity} (h : l.Nodup) (e : Entity) (he : e ∈ l) :
    (l.filter (fun k => k ≠ e)).length + 1 = l.length := by
  have hf : l.filter (fun k => k ≠ e) = l.erase e := by
    rw [List.Nodup.erase_eq_filter h]
    apply List.filter_congr
    intro k _
    by_cases hk : k = e <;> simp [hk]
  rw [hf, List.length_erase_of_mem he]
  have := List.length_pos_of_mem he
  omega

theorem size_unbind {m : FiniteMap T} (h : m.keys.Nodup) (e : Entity) (he : e ∈ m.keys) :
    (m.unbind e).size + 1 = m.size := by
  rw [size_of_nodup (nodup_unbind h e), size_of_nodup h, keys_unbind]
  exact length_filter_ne h e he

theorem size_bind {m : FiniteMap T} (h : m.keys.Nodup) (e : Entity) (v : T) (he : e ∉ m.keys) :
    (m.bind e v).keys.Nodup ∧ (m.bind e v).size = m.size + 1 := by
  have hnd : (m.bind e v).keys.Nodup := List.nodup_cons.2 ⟨he, h⟩
  refine ⟨hnd, ?_⟩
  rw [size_of_nodup hnd, size_of_nodup h]
  rfl

end FiniteMap

namespace ComponentArray

variable {T : Type}

theorem getData_isSome (ca : ComponentArray T) (e : Entity) :
    (ca.getData e).isSome = (ca.m_entityToIndex e).isSome := by
  simp only [getData]
  cases ca.m_entityToIndex e <;> rfl

/-- The values after `insertData`. -/
theorem WellFormed.getData_insertData {ca ca1 : ComponentArray T} (hwf : ca.WellFormed)
    {e : Entity} {v : T} (h : ca.insertData e v = Outcome.ok () ca1) (x : Entity) :
    ca1.getData x = if e = x then some v else ca.getData x := by
  simp only [insertData] at h
  split at h
  · simp at h
  · simp only [Outcome.ok.injEq, true_and] at h
    subst h
    by_cases hx : e = x
    · subst hx
      simp [getData]
    · have hx2 : ¬ x = e := fun h1 => hx h1.symm
      simp only [getData, Function.update_apply, hx2, if_false, hx]
      cases hi : ca.m_entityToIndex x with
      | none => rfl
      | some i =>
        have hne : i ≠ ca.m_validSize := Nat.ne_of_lt (hwf.index_lt hi)
        simp [hne]

/-- The values and the size after `removeData`. -/
theorem WellFormed.getData_removeData {ca ca1 : ComponentArray T} (hwf : ca.WellFormed)
    {e : Entity} (h : ca.removeData e = Outcome.ok () ca1) :
    ca1.m_validSize + 1 = ca.m_validSize ∧
      ∀ x, ca1.getData x = if x = e then none else ca.getData x := by
  simp only [removeData] at h
  split at h
  · simp at h
  · rename_i tmp htmp
    have hlt : tmp < ca.m_validSize := hwf.index_lt htmp
    have hlast : decrSize ca.m_validSize = ca.m_validSize - 1 := decrSize_pos _ (by omega)
    obtain ⟨el, hel⟩ := (hwf.2 (ca.m_validSize - 1)).2 (by omega)
    have hel2 : ca.m_entityToIndex el = some (ca.m_validSize - 1) := (hwf.1 _ _).2 hel
    simp only [hlast, hel, Option.getD_some, Outcome.ok.injEq, true_and] at h
    subst h
    refine ⟨by simp only; omega, fun x => ?_⟩
    by_cases hx : x = e
    · subst hx
      simp [getData]
    · simp only [getData, Function.update_apply, hx, if_false]
      by_cases hx2 : x = el
      · subst hx2
        simp [hel2]
      · simp only [hx2, if_false]
        cases hi : ca.m_entityToIndex x with
        | none => rfl
        | some i =>
          have hne : i ≠ tmp := by
            intro h1
            subst h1
            have h2 := (hwf.1 _ _).1 hi
            rw [(hwf.1 _ _).1 htmp] at h2
            simp only [Option.some.injEq] at h2
            exact hx h2.symm
          simp [hne]

theorem implements_new [Inhabited T] :
    (ComponentArray.new : ComponentArray T).Implements FiniteMap.empty :=
  ⟨wellFormed_new, List.nodup_nil, rfl, fun _ => rfl⟩

theorem Implements.key_iff {ca : ComponentArray T} {m : FiniteMap T} (h : ca.Implements m)
    (e : Entity) : (ca.m_entityToIndex e).isSome = m.isKey e := by
  rw [← getData_isSome, h.2.2.2 e]
  rfl

theorem Implements.implements_removeData {ca ca1 : ComponentArray T} {m : FiniteMap T}
    (h : ca.Implements m) {e : Entity} (hr : ca.removeData e = Outcome.ok () ca1) :
    ca1.Implements (m.unbind e) := by
  obtain ⟨hwf, hnd, hsize, hget⟩ := h
  obtain ⟨hs1, hg1⟩ := hwf.getData_removeData hr
  have hkey : e ∈ m.keys := by
    by_contra hnot
    have h1 := (FiniteMap.lookup_eq_none m e).2 hnot
    rw [← hget e] at h1
    simp only [removeData] at hr
    simp only [getData] at h1
    cases hi : ca.m_entityToIndex e with
    | none => simp [hi] at hr
    | some i => simp [hi] at h1
  refine ⟨hwf.wf_removeData hr, FiniteMap.nodup_unbind hnd e, ?_, ?_⟩
  · have := FiniteMap.size_unbind hnd e hkey
    omega
  · intro x
    rw [hg1 x, FiniteMap.lookup_unbind, hget x]

/-- One call: the store and the map give the same answer, and the store still
implements the map. -/
theorem Implements.implements_answer {ca : ComponentArray T} {m : FiniteMap T}
    (h : ca.Implements m) (op : StoreOp T) :
    (ca.answer op).1 = (m.answer op).1 ∧ (ca.answer op).2.Implements (m.answer op).2 := by
  have hkey := h.key_iff
  have hsome : ∀ e, m.isKey e = true → ∃ i, ca.m_entityToIndex e = some i := by
    intro e hk
    exact Option.isSome_iff_exists.1 (by rw [hkey, hk])
  have hnone : ∀ e, m.isKey e = false → ca.m_entityToIndex e = none := by
    intro e hk
    have : (ca.m_entityToIndex e).isSome = false := by rw [hkey, hk]
    simpa using this
  cases op with
  | insertData e v =>
    cases hk : m.isKey e with
    | true =>
      obtain ⟨i, hi⟩ := hsome e hk
      have e1 : ca.answer (StoreOp.insertData e v) = (StoreAnswer.failed, ca) := by
        simp only [answer, insertData, hi]
      have e2 : m.answer (StoreOp.insertData e v) = (StoreAnswer.failed, m) := by
        simp only [FiniteMap.answer, hk, if_true]
      rw [e1, e2]
      exact ⟨rfl, h⟩
    | false =>
      have hi := hnone e hk
      obtain ⟨ca1, hins⟩ : ∃ ca1, ca.insertData e v = Outcome.ok () ca1 := by
        simp only [insertData, hi]
        exact ⟨_, rfl⟩
      have hnot : e ∉ m.keys := by
        rw [← FiniteMap.lookup_eq_none]
        simpa [FiniteMap.isKey] using hk
      have e1 : ca.answer (StoreOp.insertData e v) = (StoreAnswer.done, ca1) := by
        simp only [answer, hins]
      have e2 : m.answer (StoreOp.insertData e v) = (StoreAnswer.done, m.bind e v) := by
        simp only [FiniteMap.answer, hk, Bool.false_eq_true, if_false]
      rw [e1, e2]
      obtain ⟨hwf, hnd, hsize, hget⟩ := h
      obtain ⟨hnd1, hsize1⟩ := FiniteMap.size_bind hnd e v hnot
      refine ⟨rfl, hwf.wf_insertData hins, hnd1, ?_, ?_⟩
      · rw [hsize1, ← hsize]
        simp only [insertData, hi, Outcome.ok.injEq, true_and] at hins
        rw [← hins]
      · intro x
        rw [hwf.getData_insertData hins x, FiniteMap.lookup_bind, hget x]
  | removeData e =>
    cases hk : m.isKey e with
    | true =>
      obtain ⟨i, hi⟩ := hsome e hk
      obtain ⟨ca1, hrem⟩ : ∃ ca1, ca.removeData e = Outcome.ok () ca1 := by
        simp only [removeData, hi]
        exact ⟨_, rfl⟩
      have e1 : ca.answer (StoreOp.removeData e) = (StoreAnswer.done, ca1) := by
        simp only [answer, hrem]
      have e2 : m.answer (StoreOp.removeData e) = (StoreAnswer.done, m.unbind e) := by
        simp only [FiniteMap.answer, hk, if_true]
      rw [e1, e2]
      exact ⟨rfl, h.implements_removeData hrem⟩
    | false =>
      have hi := hnone e hk
      have e1 : ca.answer (StoreOp.removeData e) = (StoreAnswer.failed, ca) := by
        simp only [answer, removeData, hi]
      have e2 : m.answer (StoreOp.removeData e) = (StoreAnswer.failed, m) := by
        simp only [FiniteMap.answer, hk, Bool.false_eq_true, if_false]
      rw [e1, e2]
      exact ⟨rfl, h⟩
  | entityDestroyed e =>
    obtain ⟨ca1, h1, h2⟩ := entityDestroyed_eq ca e
    have e1 : ca.answer (StoreOp.entityDestroyed e) = (StoreAnswer.done, ca1) := by
      simp only [answer, h1]
    rw [e1]
    rcases h2 with ⟨hnone1, rfl⟩ | ⟨hsome1, hrem⟩
    · have hk : m.isKey e = false := by rw [← hkey, hnone1]; rfl
      have e2 : m.answer (StoreOp.entityDestroyed e) = (StoreAnswer.done, m) := by
        simp only [FiniteMap.answer, hk, Bool.false_eq_true, if_false]
      rw [e2]
      exact ⟨rfl, h⟩
    · have hk : m.isKey e = true := by rw [← hkey]; exact hsome1
      have e2 : m.answer (StoreOp.entityDestroyed e) = (StoreAnswer.done, m.unbind e) := by
        simp only [FiniteMap.answer, hk, if_true]
      rw [e2]
      exact ⟨rfl, h.implements_removeData hrem⟩
  | hasComponent e =>
    have e1 : ca.answer (StoreOp.hasComponent e) = (StoreAnswer.bool (m.isKey e), ca) := by
      simp only [answer, hasComponent, hkey]
    rw [e1]
    exact ⟨rfl, h⟩
  | getData e =>
    cases hl : m.lookup e with
    | none =>
      have e1 : ca.answer (StoreOp.getData e) = (StoreAnswer.failed, ca) := by
        simp only [answer, h.2.2.2 e, hl]
      have e2 : m.answer (StoreOp.getData e) = (StoreAnswer.failed, m) := by
        simp only [FiniteMap.answer, hl]
      rw [e1, e2]
      exact ⟨rfl, h⟩
    | some v =>
      have e1 : ca.answer (StoreOp.getData e) = (StoreAnswer.component v, ca) := by
        simp only [answer, h.2.2.2 e, hl]
      have e2 : m.answer (StoreOp.getData e) = (StoreAnswer.component v, m) := by
        simp only [FiniteMap.answer, hl]
      rw [e1, e2]
      exact ⟨rfl, h⟩

theorem Implements.implements_answers (ops : List (StoreOp T)) :
    ∀ (ca : ComponentArray T) (m : FiniteMap T), ca.Implements m →
      (ca.answers ops).1 = (m.answers ops).1 ∧ (ca.answers ops).2.Implements (m.answers ops).2 := by
  induction ops with
  | nil => intro ca m h; exact ⟨rfl, h⟩
  | cons op ops ih =>
    intro ca m h
    obtain ⟨h1, h2⟩ := h.implements_answer op
    obtain ⟨h3, h4⟩ := ih _ _ h2
    simp only [answers, FiniteMap.answers]
    exact ⟨by rw [h1, h3], h4⟩

end ComponentArray

/-- C19: run any sequence of `insertData` / `removeData` / `entityDestroyed` /
`hasComponent` / `getData` calls on an empty `ComponentArray<T>` and on the empty partial
map `Entity -> T` (a failed call leaving both as they are). The answers coincide call by
call, and at the end `hasComponent` is key membership, `getData` is the lookup of the map,
and `m_validSize` is the number of keys of the map. -/
theorem store_refines_finite_map {T : Type} [Inhabited T] (ops : List (StoreOp T)) :
    ((ComponentArray.new : ComponentArray T).answers ops).1 =
      ((FiniteMap.empty : FiniteMap T).answers ops).1 ∧
    ((ComponentArray.new : ComponentArray T).answers ops).2.m_validSize =
      ((FiniteMap.empty : FiniteMap T).answers ops).2.size ∧
    ∀ e,
      ((ComponentArray.new : ComponentArray T).answers ops).2.hasComponent e =
        ((FiniteMap.empty : FiniteMap T).answers ops).2.isKey e ∧
      ((ComponentArray.new : ComponentArray T).answers ops).2.getData e =
        ((FiniteMap.empty : FiniteMap T).answers ops).2.lookup e := by
  obtain ⟨h1, h2⟩ := ComponentArray.Implements.implements_answers ops _ _
    (ComponentArray.implements_new : (ComponentArray.new : ComponentArray T).Implements _)
  exact ⟨h1, h2.2.2.1, fun e => ⟨h2.key_iff e, h2.2.2.2 e⟩⟩

/-! ## The dense array: bounds -/

namespace ComponentArray

variable {T : Type}

/-- A well-formed store whose entities are below `MAX_ENTITIES` holds at most
`MAX_ENTITIES` components: the dense slots in use carry pairwise distinct entities. -/
theorem WellFormed.size_le {ca : ComponentArray T} (hwf : ca.WellFormed) (hk : ca.KeysInRange) :
    ca.m_validSize ≤ MAX_ENTITIES := by
  have hex : ∀ i, i < ca.m_validSize → ∃ e, ca.m_indexToEntity i = some e :=
    fun i hi => (hwf.2 i).2 hi
  have h := Finset.card_le_card_of_injOn (s := Finset.range ca.m_validSize)
    (t := Finset.range MAX_ENTITIES) (fun i => (ca.m_indexToEntity i).getD 0)
    (by
      intro i hi
      obtain ⟨e, he⟩ := hex i (by simpa using hi)
      simp only [he, Option.getD_some]
      exact Finset.mem_range.2 (hk e i ((hwf.1 e i).2 he)))
    (by
      intro i hi j hj hij
      obtain ⟨e, he⟩ := hex i (by simpa using hi)
      obtain ⟨e1, he1⟩ := hex j (by simpa using hj)
      simp only [he, he1, Option.getD_some] at hij
      subst hij
      have h1 := (hwf.1 _ _).2 he
      have h2 := (hwf.1 _ _).2 he1
      rw [h1] at h2
      simpa using h2)
  simpa using h

theorem keysInRange_new [Inhabited T] : (ComponentArray.new : ComponentArray T).KeysInRange := by
  intro e i h
  simp [ComponentArray.new] at h

theorem KeysInRange.keys_insertData {ca ca1 : ComponentArray T} (hk : ca.KeysInRange)
    {e : Entity} {v : T} (he : e < MAX_ENTITIES) (h : ca.insertData e v = Outcome.ok () ca1) :
    ca1.KeysInRange := by
  intro x i hx
  have h1 := (insertData_keys h).2 x
  rw [hx] at h1
  simp only [Option.isSome_some, Bool.true_eq, Bool.or_eq_true, decide_eq_true_eq] at h1
  rcases h1 with rfl | h1
  · exact he
  · obtain ⟨j, hj⟩ := Option.isSome_iff_exists.1 h1
    exact hk x j hj

theorem KeysInRange.keys_removeData {ca ca1 : ComponentArray T} (hk : ca.KeysInRange)
    (hwf : ca.WellFormed) {e : Entity} (h : ca.removeData e = Outcome.ok () ca1) :
    ca1.KeysInRange := by
  intro x i hx
  have h1 := (removeData_keys hwf h).2 x
  rw [hx] at h1
  simp only [Option.isSome_some, Bool.true_eq, Bool.and_eq_true] at h1
  obtain ⟨j, hj⟩ := Option.isSome_iff_exists.1 h1.2
  exact hk x j hj

theorem KeysInRange.keys_run (calls : List (StoreCall T)) : ∀ (ca ca1 : ComponentArray T),
    ca.WellFormed → ca.KeysInRange →
    (∀ c ∈ calls, ∀ e v, c = StoreCall.insertData e v → e < MAX_ENTITIES) →
    ca.run calls = some ca1 → ca1.WellFormed ∧ ca1.KeysInRange := by
  induction calls with
  | nil =>
    intro ca ca1 hwf hk _ hr
    simp only [ComponentArray.run, Option.some.injEq] at hr
    subst hr
    exact ⟨hwf, hk⟩
  | cons c cs ih =>
    intro ca ca1 hwf hk hids hr
    simp only [ComponentArray.run] at hr
    cases hs : ca.step c with
    | failed st => simp [hs] at hr
    | ok u ca2 =>
      simp only [hs] at hr
      have hwf2 : ca2.WellFormed := hwf.wf_step hs
      have hk2 : ca2.KeysInRange := by
        cases c with
        | insertData e v =>
          exact hk.keys_insertData (hids _ (List.mem_cons_self _ _) e v rfl) hs
        | removeData e => exact hk.keys_removeData hwf hs
        | entityDestroyed e =>
          simp only [ComponentArray.step] at hs
          obtain ⟨ca3, h3, h4⟩ := entityDestroyed_eq ca e
          rw [h3] at hs
          simp only [Outcome.ok.injEq, true_and] at hs
          subst hs
          rcases h4 with ⟨_, rfl⟩ | ⟨_, h5⟩
          · exact hk
          · exact hk.keys_removeData hwf h5
      exact ih ca2 ca1 hwf2 hk2 (fun c1 hc1 => hids c1 (List.mem_cons_of_mem _ hc1)) hr

end ComponentArray

/-- C20: let every entity passed to `insertData` be below `MAX_ENTITIES`. In every store
reached from the empty one by successful `insertData` / `removeData` / `entityDestroyed`
calls, `m_validSize <= MAX_ENTITIES`; an `insertData` of an entity below `MAX_ENTITIES`
whose assertion passes writes `m_components` at an index below `MAX_ENTITIES`; a
`removeData` whose assertion passes (also when called by `entityDestroyed`) finds
`m_validSize` positive, so that `m_validSize - 1` does not wrap, and accesses
`m_components` at indices below `m_validSize` only; and `getData` reads `m_components` at
an index below `m_validSize`. -/
theorem dense_array_bounds {T : Type} [Inhabited T] (calls : List (StoreCall T))
    (ca : ComponentArray T)
    (hids : ∀ c ∈ calls, ∀ e v, c = StoreCall.insertData e v → e < MAX_ENTITIES)
    (hrun : (ComponentArray.new : ComponentArray T).run calls = some ca) :
    ca.m_validSize ≤ MAX_ENTITIES ∧
    (∀ e i, e < MAX_ENTITIES → ca.insertDataIndex e = some i → i < MAX_ENTITIES) ∧
    (∀ e w r, ca.removeDataIndices e = some (w, r) →
      0 < ca.m_validSize ∧ r = ca.m_validSize - 1 ∧ r < ca.m_validSize ∧ w < ca.m_validSize) ∧
    (∀ e i, ca.getDataIndex e = some i → i < ca.m_validSize) := by
  obtain ⟨hwf, hk⟩ := ComponentArray.KeysInRange.keys_run calls _ ca
    ComponentArray.wellFormed_new ComponentArray.keysInRange_new hids hrun
  refine ⟨hwf.size_le hk, ?_, ?_, ?_⟩
  · intro e i he hi
    simp only [ComponentArray.insertDataIndex] at hi
    cases hx : ca.m_entityToIndex e with
    | some j => simp [hx] at hi
    | none =>
      simp only [hx, Option.some.injEq] at hi
      subst hi
      obtain ⟨ca1, hins⟩ : ∃ ca1, ca.insertData e default = Outcome.ok () ca1 := by
        simp only [ComponentArray.insertData, hx]
        exact ⟨_, rfl⟩
      have h1 := (hwf.wf_insertData hins).size_le (hk.keys_insertData he hins)
      simp only [ComponentArray.insertData, hx, Outcome.ok.injEq, true_and] at hins
      rw [← hins] at h1
      exact h1
  · intro e w r h
    simp only [ComponentArray.removeDataIndices] at h
    cases hx : ca.m_entityToIndex e with
    | none => simp [hx] at h
    | some tmp =>
      simp only [hx, Option.some.injEq, Prod.mk.injEq] at h
      obtain ⟨rfl, rfl⟩ := h
      have hlt : tmp < ca.m_validSize := hwf.index_lt hx
      have hpos : 0 < ca.m_validSize := Nat.lt_of_le_of_lt (Nat.zero_le _) hlt
      rw [ComponentArray.decrSize_pos _ hpos]
      exact ⟨hpos, rfl, Nat.sub_lt hpos (by decide), hlt⟩
  · intro e i h
    exact hwf.index_lt h

/-- C20, an instance: two insertions and a removal; the store holds entity `3` in
slot `0`. -/
theorem dense_array_bounds_witness :
    ∃ ca : ComponentArray Nat,
      (ComponentArray.new : ComponentArray Nat).run
        [StoreCall.insertData 7 10, StoreCall.insertData 3 20, StoreCall.removeData 7] =
        some ca ∧
      ca.removeDataIndices 3 = some (0, 0) ∧
      ca.m_validSize ≤ MAX_ENTITIES ∧
      (∀ e i, e < MAX_ENTITIES → ca.insertDataIndex e = some i → i < MAX_ENTITIES) ∧
      (∀ e w r, ca.removeDataIndices e = some (w, r) →
        0 < ca.m_validSize ∧ r = ca.m_validSize - 1 ∧ r < ca.m_validSize ∧
          w < ca.m_validSize) ∧
      (∀ e i, ca.getDataIndex e = some i → i < ca.m_validSize) := by
  have h : ∃ ca : ComponentArray Nat,
      (ComponentArray.new : ComponentArray Nat).run
        [StoreCall.insertData 7 10, StoreCall.insertData 3 20, StoreCall.removeData 7] =
        some ca ∧ ca.removeDataIndices 3 = some (0, 0) := ⟨_, rfl, by decide⟩
  obtain ⟨ca, hrun, hidx⟩ := h
  exact ⟨ca, hrun, hidx, dense_array_bounds _ ca (by
    intro c hc e v hce
    subst hce
    simp only [List.mem_cons, List.mem_nil_iff, or_false] at hc
    rcases hc with h | h | h
    · cases h
      decide
    · cases h
      decide
    · cases h) hrun⟩

end NtshEngn
